import Mathlib

/-!
# The router's resolve-data stage (`resolve_data.mjs`)

This file embeds three modules: the resolve-data stage of the router, here; the number, percent
and currency pipes (`number_pipe.mjs`) and the development-mode assertion (`asserts.mjs`), further
down. The definitions of the three come first, the lemmas and theorems after them.

A shallow embedding of `resolveData`, `runResolve`, `resolveNode`, `getDataKeys`,
`getResolver` and `hasStaticTitle`, and of the reactive operators they are composed of.

* A JavaScript object is an association list with unique keys, kept in the order in which the
  engine enumerates its own properties.
* The route snapshots live in a heap indexed by a route identity; a mutation of a snapshot is
  an update of the heap, threaded through the stage together with a log of the calls made to
  the injector and to the resolvers.
* An observable is the trace it delivers: the values it emits and how it ends (completes, fails,
  or stays pending for ever). The observable returned by a resolver also carries the tick of
  its first notification (`0`: synchronously, while it is being subscribed to), which is all
  that `first()` and the concurrent `mergeMap` over the keys of one route depend on.
* Resolvers read the snapshots and do not write them: the stage is the only mutator of the
  snapshot tree while it runs.
-/

namespace ResolveData

/-! ## Objects -/

/-- Property key of an object: a string or a symbol. -/
inductive Key where
  | str (name : String)
  | sym (id : Nat)
  deriving DecidableEq, Repr

/-- Whether the key is a string key (enumerated by `Object.keys`). -/
def Key.isString : Key → Bool
  | .str _ => true
  | .sym _ => false

/-- Modelled from the spec: the reserved "route title" key, the constant `RouteTitleKey` imported
from `../shared`, a symbol. -/
def RouteTitleKey : Key := .sym 0

/-- An object with values in `α`: its own properties in enumeration order. -/
abbrev Obj (α : Type) := List (Key × α)

/-- Property read `o[k]`: `none` stands for `undefined` (no such own property). -/
def objGet {α : Type} : Obj α → Key → Option α
  | [], _ => none
  | (k', v) :: rest, k => if k' = k then some v else objGet rest k

/-- Property write `o[k] = v`: replaces the value of an existing property in place, appends a
new property otherwise. -/
def objSet {α : Type} : Obj α → Key → α → Obj α
  | [], k, v => [(k, v)]
  | (k', v') :: rest, k, v => if k' = k then (k, v) :: rest else (k', v') :: objSet rest k v

/-- The own keys of an object, `Object.keys(obj)` followed by
`Object.getOwnPropertySymbols(obj)`. -/
def getDataKeys {α : Type} (obj : Obj α) : List Key :=
  (obj.map Prod.fst).filter Key.isString ++ (obj.map Prod.fst).filter (fun k => !k.isString)

/-! ## Values, errors, tokens -/

/-- A resolved value. -/
inductive Value where
  | undefined
  | null
  | str (s : String)
  | num (n : Int)
  deriving DecidableEq, Repr

/-- An error: the `EmptyError` raised by `first()` on a sequence without values, or any other
error, identified by a code. -/
inductive Err where
  | emptyError
  | other (code : Nat)
  deriving DecidableEq, Repr

/-- Modelled from the spec: `isEmptyError` of `../utils/type_guards`, which recognises the
"empty" sentinel among errors. -/
def isEmptyError : Err → Bool
  | .emptyError => true
  | .other _ => false

/-- What a resolve map holds under a key: an injection token or a function, by identity.
`undefined` is what reading a missing property gives. -/
inductive Token where
  | undefined
  | ref (id : Nat)
  deriving DecidableEq, Repr

/-- An injector, by identity. -/
abbrev Injector := Nat

/-- A route snapshot, by identity (a reference into the heap). -/
abbrev RouteId := Nat

/-- The router state snapshot `targetSnapshot`, by identity. -/
abbrev RouterStateSnapshot := Nat

/-- The `title` member of a route configuration: absent, `null`, a literal string, or a
resolver (a class or a function). -/
inductive Title where
  | undefined
  | null
  | str (s : String)
  | resolver (token : Token)
  deriving DecidableEq, Repr

/-- A route configuration, as far as the stage reads it. -/
structure Route where
  title : Title
  deriving DecidableEq, Repr

/-- The title as the value written into `data`. -/
def Title.toValue : Title → Value
  | .str s => .str s
  | .null => .null
  | _ => .undefined

/-- The title as the entry written into the resolve map. -/
def Title.toToken : Title → Token
  | .resolver token => token
  | _ => .undefined

/-- The members of `ActivatedRouteSnapshot` the stage reads and writes. -/
structure ActivatedRouteSnapshot where
  routeConfig : Option Route
  _resolve : Obj Token
  _resolvedData : Option (Obj Value)
  data : Obj Value
  deriving DecidableEq, Repr

/-- The snapshot heap. -/
abbrev Heap := RouteId → ActivatedRouteSnapshot

/-- The two values of `paramsInheritanceStrategy`. -/
inductive ParamsInheritanceStrategy where
  | emptyOnly
  | always
  deriving DecidableEq, Repr

/-- An entry of `guards.canActivateChecks`. -/
structure CanActivate where
  route : RouteId
  deriving DecidableEq, Repr

/-- The `guards` member of a transition. -/
structure Checks where
  canActivateChecks : List CanActivate
  deriving DecidableEq, Repr

/-- A navigation transition: an identity, its target snapshot and its guards. -/
structure NavigationTransition where
  id : Nat
  targetSnapshot : RouterStateSnapshot
  guards : Checks
  deriving DecidableEq, Repr

/-! ## Observables -/

/-- How a sequence ends: it completes, fails with an error, or stays pending for ever. -/
inductive Completion where
  | complete
  | error (e : Err)
  | never
  deriving DecidableEq, Repr

/-- The trace of an observable: the values delivered, in order, and its end. -/
structure Observable (α : Type) where
  values : List α
  term : Completion
  deriving DecidableEq, Repr

/-- The observable a resolver returns: a trace and the tick of its first notification
(`0` when it is delivered synchronously during subscription). -/
structure ResolverStream where
  firstAt : Nat
  values : List Value
  term : Completion
  deriving DecidableEq, Repr

/-- A settled or pending promise. -/
inductive Settlement where
  | fulfilled (v : Value)
  | rejected (e : Err)
  | pending
  deriving DecidableEq, Repr

/-- What a resolver returns: a plain value, a promise (which settles `after` further ticks), or
an observable. -/
inductive ResolverValue where
  | plain (v : Value)
  | promise (outcome : Settlement) (after : Nat)
  | observable (o : ResolverStream)
  deriving DecidableEq, Repr

/-- Modelled from the spec: `wrapIntoObservable` of `../utils/collection`, which normalises a
plain value, a promise or an observable into an observable. A plain value is delivered
synchronously, a promise never before the next tick. -/
def wrapIntoObservable : ResolverValue → ResolverStream
  | .plain v => ⟨0, [v], .complete⟩
  | .promise (.fulfilled v) after => ⟨after + 1, [v], .complete⟩
  | .promise (.rejected e) after => ⟨after + 1, [], .error e⟩
  | .promise .pending after => ⟨after + 1, [], .never⟩
  | .observable o => o

/-- The observable `of(x)`. -/
def Observable.of {α : Type} (x : α) : Observable α := ⟨[x], .complete⟩

/-- The observable `EMPTY`. -/
def Observable.EMPTY {α : Type} : Observable α := ⟨[], .complete⟩

/-- The observable `throwError(e)`. -/
def Observable.throwError {α : Type} (e : Err) : Observable α := ⟨[], .error e⟩

/-- The operator `takeLast(count)`: on completion of the source, its last `count` values. -/
def Observable.takeLast {α : Type} (count : Nat) (o : Observable α) : Observable α :=
  match o.term with
  | .complete => ⟨o.values.drop (o.values.length - count), .complete⟩
  | .error e => ⟨[], .error e⟩
  | .never => ⟨[], .never⟩

/-- The operator `mapTo(b)`. -/
def Observable.mapTo {α β : Type} (b : β) (o : Observable α) : Observable β :=
  ⟨o.values.map (fun _ => b), o.term⟩

/-- The operator `catchError(selector)`: a failure of the source is replaced by the selected observable. -/
def Observable.catchError {α : Type} (selector : Err → Observable α) (o : Observable α) :
    Observable α :=
  match o.term with
  | .error e => ⟨o.values ++ (selector e).values, (selector e).term⟩
  | _ => o

/-- The sequence `mergeMap(project)` makes of the values of a source that ends with `term`,
for inner observables that deliver on subscription. -/
def mergeMapValues {α β : Type} (project : α → Observable β) : List α → Completion → Observable β
  | [], term => ⟨[], term⟩
  | a :: rest, term =>
    match (project a).term with
    | .error e => ⟨(project a).values, .error e⟩
    | .complete =>
      let r := mergeMapValues project rest term
      ⟨(project a).values ++ r.values, r.term⟩
    | .never =>
      let r := mergeMapValues project rest term
      ⟨(project a).values ++ r.values,
        match r.term with
        | .error e => .error e
        | _ => .never⟩

/-- The operator `mergeMap(project)` with inner observables that deliver on subscription. -/
def Observable.mergeMap {α β : Type} (project : α → Observable β) (o : Observable α) :
    Observable β :=
  mergeMapValues project o.values o.term

/-! ## The collaborators of the stage and its state -/

/-- What `getTokenOrFunctionIdentity` returns: an object with a truthy `resolve` member, or a
plain function, by identity. -/
inductive Resolver where
  | object (id : Nat)
  | function (id : Nat)
  deriving DecidableEq, Repr

/-- The functions the stage imports from the rest of the router, and the resolvers registered by
the application. A resolver may throw instead of returning; it reads the snapshots and the router
state it is given. -/
structure Env where
  /-- The `resolve` member of `inheritedParamsDataResolve(route, paramsInheritanceStrategy)`. -/
  inheritedParamsDataResolve : Heap → RouteId → ParamsInheritanceStrategy → Obj Value
  /-- The result of `getClosestRouteInjector(route)`; `none` when it is `null` or `undefined`. -/
  getClosestRouteInjector : Heap → RouteId → Option Injector
  /-- The result of `getTokenOrFunctionIdentity(tokenOrFunction, injector)`. -/
  getTokenOrFunctionIdentity : Token → Injector → Except Err Resolver
  /-- The call `resolver.resolve(futureARS, futureRSS)` on the object `id`. -/
  resolveMethod : Nat → Heap → RouteId → RouterStateSnapshot → Except Err ResolverValue
  /-- The call `resolver(futureARS, futureRSS)` of the function `id` inside
  `injector.runInContext`. -/
  runInContext : Injector → Nat → Heap → RouteId → RouterStateSnapshot → Except Err ResolverValue

/-- A call the stage makes to a collaborator. -/
inductive Effect where
  | injectorLookup (route : RouteId)
  | tokenLookup (token : Token) (injector : Injector)
  | resolveCall (resolver : Nat) (route : RouteId) (state : RouterStateSnapshot)
  | contextCall (injector : Injector) (resolver : Nat) (route : RouteId)
      (state : RouterStateSnapshot)
  deriving DecidableEq, Repr

/-- The state the stage runs in: the snapshot heap and the log of the calls made so far. -/
structure State where
  routes : Heap
  log : List Effect

/-- Appends a call to the log. -/
def State.record (s : State) (e : Effect) : State :=
  { s with log := s.log ++ [e] }

/-- Replaces the snapshot `route` by `f` of it. -/
def State.update (s : State) (route : RouteId) (f : ActivatedRouteSnapshot → ActivatedRouteSnapshot) :
    State :=
  { s with routes := fun r => if r = route then f (s.routes route) else s.routes r }

/-! ## The stage -/

/-- The function `hasStaticTitle(config)`: the title is a string or `null`. -/
def hasStaticTitle (config : Route) : Bool :=
  match config.title with
  | .str _ => true
  | .null => true
  | _ => false

/-- The function `getResolver(injectionToken, futureARS, futureRSS, injector)`: the observable of the
resolver declared by `injectionToken`, or the error thrown while obtaining it. -/
def getResolver (env : Env) (injectionToken : Token) (futureARS : RouteId)
    (futureRSS : RouterStateSnapshot) (injector : Injector) (s : State) :
    Except Err ResolverStream × State :=
  let closestInjector := (env.getClosestRouteInjector s.routes futureARS).getD injector
  let s1 := (s.record (.injectorLookup futureARS)).record (.tokenLookup injectionToken closestInjector)
  match env.getTokenOrFunctionIdentity injectionToken closestInjector with
  | .error e => (.error e, s1)
  | .ok (.object id) =>
    let s2 := s1.record (.resolveCall id futureARS futureRSS)
    match env.resolveMethod id s.routes futureARS futureRSS with
    | .error e => (.error e, s2)
    | .ok resolverValue => (.ok (wrapIntoObservable resolverValue), s2)
  | .ok (.function id) =>
    let s2 := s1.record (.contextCall closestInjector id futureARS futureRSS)
    match env.runInContext closestInjector id s.routes futureARS futureRSS with
    | .error e => (.error e, s2)
    | .ok resolverValue => (.ok (wrapIntoObservable resolverValue), s2)

/-- A notification: a value or an error. -/
inductive Notification where
  | next (value : Value)
  | error (e : Err)
  deriving DecidableEq, Repr

/-- The operator `first()`: the only notification that passes, with its tick: the first value of the source,
its error when it fails before any value, an `EmptyError` when it completes before any value;
`none` when the source stays pending without a value. -/
def first (o : ResolverStream) : Option (Nat × Notification) :=
  match o.values, o.term with
  | v :: _, _ => some (o.firstAt, .next v)
  | [], .complete => some (o.firstAt, .error .emptyError)
  | [], .error e => some (o.firstAt, .error e)
  | [], .never => none

/-- The inner observable `getResolver(...).pipe(first(), ...)` of one key, as the notification it
delivers. An error thrown by `getResolver` is delivered synchronously. -/
def innerNotification (r : Except Err ResolverStream) : Option (Nat × Notification) :=
  match r with
  | .error e => some (0, .error e)
  | .ok o => first o

/-- Whether the inner observable fails synchronously, while it is being subscribed to. -/
def failsOnSubscribe : Option (Nat × Notification) → Bool
  | some (0, .error _) => true
  | _ => false

/-- An inner subscription of the `mergeMap` over the keys of a route. -/
structure Subscription where
  key : Key
  outcome : Option (Nat × Notification)
  deriving DecidableEq, Repr

/-- The subscriptions `from(keys).pipe(mergeMap(key => getResolver(resolve[key], ...)))` makes:
one key after the other, synchronously, until an inner observable fails on subscription (which
ends the merged sequence, so that the remaining keys are not projected). -/
def subscribeKeys (env : Env) (resolve : Obj Token) (futureARS : RouteId)
    (futureRSS : RouterStateSnapshot) (injector : Injector) :
    List Key → State → List Subscription × State
  | [], s => ([], s)
  | key :: rest, s =>
    let (r, s1) := getResolver env ((objGet resolve key).getD .undefined) futureARS futureRSS
      injector s
    if failsOnSubscribe (innerNotification r) then
      ([⟨key, innerNotification r⟩], s1)
    else
      let (more, s2) := subscribeKeys env resolve futureARS futureRSS injector rest s1
      (⟨key, innerNotification r⟩ :: more, s2)

/-- A notification delivered to the merged sequence. -/
structure Delivery where
  key : Key
  time : Nat
  what : Notification
  deriving DecidableEq, Repr

/-- The delivery of a subscription, if it ever notifies. -/
def Subscription.delivery (sub : Subscription) : Option Delivery :=
  sub.outcome.map (fun o => ⟨sub.key, o.1, o.2⟩)

/-- The notifications of the subscriptions in the order of delivery: by tick, and within a tick
in the order of subscription. -/
def deliveries (subs : List Subscription) : List Delivery :=
  List.insertionSort (fun a b => a.time ≤ b.time) (subs.filterMap Subscription.delivery)

/-- The values delivered before the first error, with their keys, and that error. -/
def untilError : List Delivery → List (Key × Value) × Option Err
  | [] => ([], none)
  | d :: rest =>
    match d.what with
    | .error e => ([], some e)
    | .next v => ((d.key, v) :: (untilError rest).1, (untilError rest).2)

/-- The merged sequence of the inner observables: the values that get through, and its end: the
first error delivered, else pending if a subscription never notifies, else completion. -/
def merged (subs : List Subscription) : Observable Value :=
  ⟨(untilError (deliveries subs)).1.map Prod.snd,
    match (untilError (deliveries subs)).2 with
    | some e => .error e
    | none => if subs.all (fun sub => sub.outcome.isSome) then .complete else .never⟩

/-- The object `data` after the writes `data[key] = value` of the `tap`. -/
def tapped (subs : List Subscription) : Obj Value :=
  (untilError (deliveries subs)).1.foldl (fun data kv => objSet data kv.1 kv.2) []

/-- The function `resolveNode(resolve, futureARS, futureRSS, injector)`. -/
def resolveNode (env : Env) (resolve : Obj Token) (futureARS : RouteId)
    (futureRSS : RouterStateSnapshot) (injector : Injector) (s : State) :
    Observable (Obj Value) × State :=
  let keys := getDataKeys resolve
  if keys.length = 0 then
    (Observable.of [], s)
  else
    let (subs, s1) := subscribeKeys env resolve futureARS futureRSS injector keys s
    -- `const data = {}`, as the `tap` has filled it when `mapTo(data)` emits it
    let data := tapped subs
    (Observable.catchError
        (fun e => if isEmptyError e then Observable.EMPTY else Observable.throwError e)
        (Observable.mapTo data (Observable.takeLast 1 (merged subs))),
      s1)

/-- The function `runResolve` maps over the resolved data: it stores the data on the snapshot,
recomputes `data`, writes a static title over it, and returns `null`. -/
def attach (env : Env) (config : Option Route) (futureARS : RouteId)
    (paramsInheritanceStrategy : ParamsInheritanceStrategy) (resolvedData : Obj Value)
    (s : State) : Value × State :=
  let s1 := s.update futureARS (fun r => { r with _resolvedData := some resolvedData })
  let s2 := s1.update futureARS (fun r =>
    { r with data := env.inheritedParamsDataResolve s1.routes futureARS paramsInheritanceStrategy })
  let s3 :=
    match config with
    | some c =>
      if hasStaticTitle c then
        s2.update futureARS (fun r => { r with data := objSet r.data RouteTitleKey c.title.toValue })
      else s2
    | none => s2
  (.null, s3)

/-- The operator `map(f)` for a function with effects on the state. -/
def mapValues {α β : Type} (f : α → State → β × State) : List α → State → List β × State
  | [], s => ([], s)
  | a :: rest, s =>
    let (b, s1) := f a s
    let (bs, s2) := mapValues f rest s1
    (b :: bs, s2)

/-- The function `runResolve(futureARS, futureRSS, paramsInheritanceStrategy, injector)`. -/
def runResolve (env : Env) (futureARS : RouteId) (futureRSS : RouterStateSnapshot)
    (paramsInheritanceStrategy : ParamsInheritanceStrategy) (injector : Injector) (s : State) :
    Observable Value × State :=
  let config := (s.routes futureARS).routeConfig
  let s1 :=
    match config with
    | some c =>
      if c.title ≠ .undefined ∧ ¬ hasStaticTitle c then
        s.update futureARS (fun r =>
          { r with _resolve := objSet r._resolve RouteTitleKey c.title.toToken })
      else s
    | none => s
  let (node, s2) := resolveNode env (s1.routes futureARS)._resolve futureARS futureRSS injector s1
  let (values, s3) := mapValues (attach env config futureARS paramsInheritanceStrategy) node.values s2
  (⟨values, node.term⟩, s3)

/-- The sequence `from(list).pipe(concatMap(project))`: the inner observables one after the other, each
subscribed to when the one before it has completed. -/
def concatMap {α β : Type} (project : α → State → Observable β × State) :
    List α → State → Observable β × State
  | [], s => (⟨[], .complete⟩, s)
  | a :: rest, s =>
    let (inner, s1) := project a s
    match inner.term with
    | .complete =>
      let (r, s2) := concatMap project rest s1
      (⟨inner.values ++ r.values, r.term⟩, s2)
    | .error e => (⟨inner.values, .error e⟩, s1)
    | .never => (⟨inner.values, .never⟩, s1)

/-- The observable `resolveData(paramsInheritanceStrategy, injector)` maps the transition `t`
to, and the state it leaves. -/
def resolveData (env : Env) (paramsInheritanceStrategy : ParamsInheritanceStrategy)
    (injector : Injector) (t : NavigationTransition) (s : State) :
    Observable NavigationTransition × State :=
  let canActivateChecks := t.guards.canActivateChecks
  if canActivateChecks.length = 0 then
    (Observable.of t, s)
  else
    let (resolved, s1) := concatMap
      (fun check st => runResolve env check.route t.targetSnapshot paramsInheritanceStrategy
        injector st)
      canActivateChecks s
    -- `tap(() => canActivateChecksResolved++)`: one increment for each value that gets through,
    -- all of them made when `takeLast(1)` emits, on completion
    let canActivateChecksResolved := resolved.values.length
    (Observable.mergeMap
        (fun _ => if canActivateChecksResolved = canActivateChecks.length then Observable.of t
          else Observable.EMPTY)
        (Observable.takeLast 1 resolved),
      s1)

/-! ## Notions used in the statements -/

/-- What `getResolver(resolve[key], ...)` returns when the resolver declared under `key` is invoked
on `heap`: an observable, or the error thrown. -/
def resolverOf (env : Env) (resolve : Obj Token) (futureARS : RouteId)
    (futureRSS : RouterStateSnapshot) (injector : Injector) (heap : Heap) (key : Key) :
    Except Err ResolverStream :=
  (getResolver env ((objGet resolve key).getD .undefined) futureARS futureRSS injector ⟨heap, []⟩).1

/-- The notification that passes `first()` when the resolver declared under `key` is invoked on
`heap`; `none` when it stays pending for ever without a value. -/
def notificationOf (env : Env) (resolve : Obj Token) (futureARS : RouteId)
    (futureRSS : RouterStateSnapshot) (injector : Injector) (heap : Heap) (key : Key) :
    Option (Nat × Notification) :=
  innerNotification (resolverOf env resolve futureARS futureRSS injector heap key)

/-- The subscriptions up to and including the first one that fails on subscription. -/
def uptoFailure : List Subscription → List Subscription
  | [] => []
  | sub :: rest => if failsOnSubscribe sub.outcome then [sub] else sub :: uptoFailure rest

/-- The first error among the deliveries, in list order, with its tick. -/
def errAt : List Delivery → Option (Nat × Err)
  | [] => none
  | d :: rest =>
    match d.what with
    | .error e => some (d.time, e)
    | .next _ => errAt rest

/-- The earliest error among the deliveries, the first of them among simultaneous ones, with
its tick. -/
def minErr : List Delivery → Option (Nat × Err)
  | [] => none
  | d :: rest =>
    match d.what with
    | .next _ => minErr rest
    | .error e =>
      match minErr rest with
      | none => some (d.time, e)
      | some (n, e') => if d.time ≤ n then some (d.time, e) else some (n, e')

/-- The observable `resolveNode` builds from the subscriptions it made. -/
def settle (subs : List Subscription) : Observable (Obj Value) :=
  Observable.catchError
    (fun e => if isEmptyError e then Observable.EMPTY else Observable.throwError e)
    (Observable.mapTo (tapped subs) (Observable.takeLast 1 (merged subs)))

/-- The subscriptions `resolveNode` makes for `resolve` on `heap`. -/
def nodeSubs (env : Env) (resolve : Obj Token) (futureARS : RouteId)
    (futureRSS : RouterStateSnapshot) (injector : Injector) (heap : Heap) : List Subscription :=
  uptoFailure ((getDataKeys resolve).map
    (fun k => ⟨k, notificationOf env resolve futureARS futureRSS injector heap k⟩))

/-- The value the resolver under `key` notifies first, if it does. -/
def firstValue (env : Env) (resolve : Obj Token) (route : RouteId) (rss : RouterStateSnapshot)
    (injector : Injector) (heap : Heap) (key : Key) : Value :=
  match notificationOf env resolve route rss injector heap key with
  | some (_, .next v) => v
  | _ => .undefined

/-- The resolve map of a snapshot as `runResolve` passes it to `resolveNode`: with the title
resolver of the configuration under `RouteTitleKey`, when there is one. -/
def declared (snap : ActivatedRouteSnapshot) : Obj Token :=
  match snap.routeConfig with
  | some c =>
    if c.title ≠ .undefined ∧ ¬ hasStaticTitle c then
      objSet snap._resolve RouteTitleKey c.title.toToken
    else snap._resolve
  | none => snap._resolve

/-- The state in which `runResolve` calls `resolveNode`. -/
def declare (s : State) (route : RouteId) : State :=
  match (s.routes route).routeConfig with
  | some c =>
    if c.title ≠ .undefined ∧ ¬ hasStaticTitle c then
      s.update route (fun r => { r with _resolve := objSet r._resolve RouteTitleKey c.title.toToken })
    else s
  | none => s

/-- The value of `data` that `runResolve` leaves on a snapshot: the inherited data, with a static
title written over it. -/
def titled (config : Option Route) (inherited : Obj Value) : Obj Value :=
  match config with
  | some c => if hasStaticTitle c then objSet inherited RouteTitleKey c.title.toValue else inherited
  | none => inherited

/-- The snapshot `snap` of `route` has been written by a resolution: it holds resolved data,
and its `data` is what `runResolve` makes of the inherited data of a heap that held them. -/
def Written (env : Env) (paramsInheritanceStrategy : ParamsInheritanceStrategy) (route : RouteId)
    (snap : ActivatedRouteSnapshot) : Prop :=
  ∃ d heap, snap._resolvedData = some d ∧ (heap route)._resolvedData = some d ∧
    snap.data = titled snap.routeConfig
      (env.inheritedParamsDataResolve heap route paramsInheritanceStrategy)

/-- The sequential resolution of the checks: `from(canActivateChecks).pipe(concatMap(check =>
runResolve(check.route, targetSnapshot, paramsInheritanceStrategy, injector)))`. -/
def resolveChecks (env : Env) (paramsInheritanceStrategy : ParamsInheritanceStrategy)
    (injector : Injector) (targetSnapshot : RouterStateSnapshot) (checks : List CanActivate)
    (s : State) : Observable Value × State :=
  concatMap
    (fun check st => runResolve env check.route targetSnapshot paramsInheritanceStrategy injector st)
    checks s

/-! ## Behaviours of the resolvers -/

/-- Every resolver of the map emits at least one value, on whatever heap it is invoked. -/
def NodeSucceeds (env : Env) (resolve : Obj Token) (route : RouteId) (rss : RouterStateSnapshot)
    (injector : Injector) : Prop :=
  ∀ key ∈ getDataKeys resolve, ∀ heap : Heap,
    ∃ n v, notificationOf env resolve route rss injector heap key = some (n, .next v)

/-- No resolver of the map fails with an error other than the empty error. -/
def NodeNoError (env : Env) (resolve : Obj Token) (route : RouteId) (rss : RouterStateSnapshot)
    (injector : Injector) : Prop :=
  ∀ key ∈ getDataKeys resolve, ∀ (heap : Heap) (n : Nat) (e : Err),
    notificationOf env resolve route rss injector heap key = some (n, .error e) →
      isEmptyError e = true

/-- Some resolver of the map returns an observable that completes without a value. -/
def NodeHasEmpty (env : Env) (resolve : Obj Token) (route : RouteId) (rss : RouterStateSnapshot)
    (injector : Injector) : Prop :=
  ∃ key ∈ getDataKeys resolve, ∀ heap : Heap,
    ∃ o, resolverOf env resolve route rss injector heap key = .ok o ∧ o.values = [] ∧
      o.term = .complete

/-- Some resolver declared for one of the checks stays pending for ever without a value, on
some heap. -/
def SomePending (env : Env) (rss : RouterStateSnapshot) (injector : Injector)
    (checks : List CanActivate) (s : State) : Prop :=
  ∃ c ∈ checks, ∃ heap : Heap, ∃ key ∈ getDataKeys (declared (s.routes c.route)),
    notificationOf env (declared (s.routes c.route)) c.route rss injector heap key = none

/-- The resolver under some key of the map fails with `e` (it throws, or its observable fails
before any value), and every other resolver of the map that notifies before it (at an earlier
tick, or at the same tick when its key comes first) emits a value. -/
def NodeFailsWith (env : Env) (resolve : Obj Token) (route : RouteId) (rss : RouterStateSnapshot)
    (injector : Injector) (e : Err) : Prop :=
  ∃ (l1 : List Key) (k : Key) (l2 : List Key), getDataKeys resolve = l1 ++ k :: l2 ∧
    ∀ heap : Heap, ∃ n, notificationOf env resolve route rss injector heap k = some (n, .error e) ∧
      (∀ k' ∈ l1, ∀ n' e',
        notificationOf env resolve route rss injector heap k' = some (n', .error e') → n < n') ∧
      (∀ k' ∈ l2, ∀ n' e',
        notificationOf env resolve route rss injector heap k' = some (n', .error e') → n ≤ n')

/-- The three shapes of the contract: the transition once and completion, completion without a
value, or a failure without a value. -/
def ThreeShapes (t : NavigationTransition) (out : Observable NavigationTransition) : Prop :=
  out = ⟨[t], .complete⟩ ∨ out = ⟨[], .complete⟩ ∨ ∃ e, out = ⟨[], .error e⟩

/-! ## Examples -/

/-- An application in which the token `ref n` is the function `n`, which returns `returns n`
whatever it is given. No route has an injector of its own, and the inherited data of a route is
its own resolved data. -/
def functionsEnv (returns : Nat → Except Err ResolverValue) : Env where
  inheritedParamsDataResolve := fun heap r _ => ((heap r)._resolvedData).getD []
  getClosestRouteInjector := fun _ _ => none
  getTokenOrFunctionIdentity := fun token _ =>
    match token with
    | .ref n => .ok (.function n)
    | .undefined => .error (.other 0)
  resolveMethod := fun id _ _ _ => returns id
  runInContext := fun _ id _ _ _ => returns id

/-- The heap that holds the listed snapshots at `0`, `1`, ... -/
def heapOf (snapshots : List ActivatedRouteSnapshot) : Heap :=
  fun r => snapshots.getD r ⟨none, [], none, []⟩

/-- A transition whose checks are the listed routes. -/
def transitionOf (routes : List RouteId) : NavigationTransition :=
  ⟨1, 0, ⟨routes.map CanActivate.mk⟩⟩

/-- A fresh snapshot with the given title and resolve map. -/
def snapshotOf (title : Title) (resolve : Obj Token) : ActivatedRouteSnapshot :=
  ⟨some ⟨title⟩, resolve, none, []⟩

/-- Resolvers for the examples: `1` and `2` return plain values, `3` a promise that never
settles, `4` an observable that completes without a value, `5` an observable that fails with an
`EmptyError`, `6` throws, `7` a promise fulfilled later, `8` a promise rejected later; any other
returns `undefined`. -/
def sampleReturns : Nat → Except Err ResolverValue
  | 1 => .ok (.plain (.num 10))
  | 2 => .ok (.plain (.str "two"))
  | 3 => .ok (.promise .pending 0)
  | 4 => .ok (.observable ⟨0, [], .complete⟩)
  | 5 => .ok (.observable ⟨0, [], .error .emptyError⟩)
  | 6 => .error (.other 7)
  | 7 => .ok (.promise (.fulfilled (.num 70)) 2)
  | 8 => .ok (.promise (.rejected (.other 9)) 4)
  | _ => .ok (.plain .undefined)

/-- An application like `functionsEnv sampleReturns`, in which moreover the function `9` returns
what it reads under `a` in the `data` of the snapshot `0`. -/
def readerEnv : Env :=
  { functionsEnv sampleReturns with
    runInContext := fun _ id heap _ _ =>
      if id = 9 then .ok (.plain ((objGet (heap 0).data (.str "a")).getD .undefined))
      else sampleReturns id }

/-- A state for the examples: the route `0`, whose resolver under `a` returns `10`, and the
route `1`, whose resolver under `b` is the function `9`. -/
def parentChild : State :=
  ⟨heapOf [snapshotOf .undefined [(.str "a", .ref 1)],
    snapshotOf .undefined [(.str "b", .ref 9)]], []⟩

/-- The claim of C13 in its own words: the injector is the closest route injector when there is
one and the default injector otherwise; the token is resolved with it; an object with a `resolve`
member has that member called, a function is called inside `runInContext` of the same injector;
what is returned goes through `wrapIntoObservable`. The calls are logged in that order. -/
def getResolverInWords (env : Env) (injectionToken : Token) (route : RouteId)
    (routerState : RouterStateSnapshot) (defaultInjector : Injector) (s : State) :
    Except Err ResolverStream × State :=
  let used : Injector :=
    match env.getClosestRouteInjector s.routes route with
    | some closest => closest
    | none => defaultInjector
  match env.getTokenOrFunctionIdentity injectionToken used with
  | .error e =>
    (.error e, ⟨s.routes, s.log ++ [.injectorLookup route, .tokenLookup injectionToken used]⟩)
  | .ok (.object id) =>
    ((env.resolveMethod id s.routes route routerState).map wrapIntoObservable,
      ⟨s.routes, s.log ++ [.injectorLookup route, .tokenLookup injectionToken used,
        .resolveCall id route routerState]⟩)
  | .ok (.function id) =>
    ((env.runInContext used id s.routes route routerState).map wrapIntoObservable,
      ⟨s.routes, s.log ++ [.injectorLookup route, .tokenLookup injectionToken used,
        .contextCall used id route routerState]⟩)

/-- A state for the examples: the route `0`, whose resolver under `a` completes without a value,
and the route `1`, whose resolver under `b` returns `10`. -/
def emptyThenValue : State :=
  ⟨heapOf [snapshotOf .undefined [(.str "a", .ref 4)],
    snapshotOf .undefined [(.str "b", .ref 1)]], []⟩

end ResolveData

/-! # JavaScript values -/

namespace Js

/-- A JavaScript number: `NaN`, an infinity, or the finite value `mantissa × 2 ^ exponent`. -/
inductive JsNumber where
  | nan
  | infinity (negative : Bool)
  | finite (mantissa : Int) (exponent : Int)
  deriving DecidableEq, Repr

/-- The global `isNaN` on a number. -/
def isNaN : JsNumber → Bool
  | .nan => true
  | _ => false

/-- The difference `a - b`. It is `NaN` when an operand is `NaN` or when both are the same
infinity. The difference of finite numbers is taken exactly: rounding and overflow, which do
not produce `NaN`, are left out. -/
def JsNumber.sub : JsNumber → JsNumber → JsNumber
  | .nan, _ => .nan
  | _, .nan => .nan
  | .infinity n, .infinity m => if n = m then .nan else .infinity n
  | .infinity n, .finite _ _ => .infinity n
  | .finite _ _, .infinity m => .infinity (!m)
  | .finite m1 e1, .finite m2 e2 =>
    .finite (m1 * 2 ^ (e1 - min e1 e2).toNat - m2 * 2 ^ (e2 - min e1 e2).toNat) (min e1 e2)

/-- A JavaScript value, as far as the pipes and the assertion tell values apart: `object` stands
for any other value that converts to a text, with that text. Values whose conversion to a text
throws, such as a symbol, are left out. -/
inductive JsValue where
  | undefined
  | null
  | boolean (b : Bool)
  | number (n : JsNumber)
  | string (s : String)
  | object (text : String)
  deriving DecidableEq, Repr

/-- The built-in conversions, which the pipes use and do not define. -/
structure Builtins where
  /-- The conversion `Number(s)` of a string. -/
  Number : String → JsNumber
  /-- The function `parseFloat(s)` on a string. -/
  parseFloat : String → JsNumber
  /-- The text of a number in a template literal. -/
  numberToString : JsNumber → String

/-- The text of a value in a template literal. -/
def JsValue.text (js : Builtins) : JsValue → String
  | .undefined => "undefined"
  | .null => "null"
  | .boolean true => "true"
  | .boolean false => "false"
  | .number n => js.numberToString n
  | .string s => s
  | .object text => text

/-- Whether a value is truthy. -/
def JsValue.truthy : JsValue → Bool
  | .undefined => false
  | .null => false
  | .boolean b => b
  | .number .nan => false
  | .number (.finite 0 _) => false
  | .number _ => true
  | .string s => s ≠ ""
  | .object _ => true

/-- An optional string argument: not supplied (`undefined`), `null`, or a string. -/
inductive Arg where
  | undefined
  | null
  | string (s : String)
  deriving DecidableEq, Repr

/-- The value of `a || fallback` for a string `fallback`: the argument when it is a string that
is not empty, the fallback otherwise. -/
def Arg.orElse (a : Arg) (fallback : String) : String :=
  match a with
  | .string s => if s ≠ "" then s else fallback
  | _ => fallback

/-- The value of a parameter `a = fallback` with a default: the fallback when the argument is
`undefined`, the argument otherwise. -/
def Arg.withDefault (a : Arg) (fallback : String) : Arg :=
  match a with
  | .undefined => .string fallback
  | _ => a

/-- An `Error` with its message. -/
structure JsError where
  message : String
  deriving DecidableEq, Repr

end Js

/-! # The number pipes (`number_pipe.mjs`) -/

namespace NumberPipe

open Js

/-- The three pipe classes. -/
inductive PipeClass where
  | DecimalPipe
  | PercentPipe
  | CurrencyPipe
  deriving DecidableEq, Repr

/-- The second argument of `getCurrencySymbol`. -/
inductive SymbolFormat where
  | wide
  | narrow
  deriving DecidableEq, Repr

/-- What a `transform` throws: the error made by `invalidPipeArgumentError(type, message)`, or an
error that reaches the caller as it was raised. -/
inductive Thrown where
  | invalidPipeArgumentError (type : PipeClass) (message : String)
  | raised (error : JsError)
  deriving DecidableEq, Repr

/-- The functions the pipes import, each of which may throw, and what they find in their
environment. -/
structure Env where
  js : Builtins
  /-- The function `formatNumber(value, locale, digitsInfo)`. -/
  formatNumber : JsNumber → String → Arg → Except JsError String
  /-- The function `formatPercent(value, locale, digitsInfo)`. -/
  formatPercent : JsNumber → String → Arg → Except JsError String
  /-- The function `formatCurrency(value, locale, currency, currencyCode, digitsInfo)`. -/
  formatCurrency : JsNumber → String → String → Arg → Arg → Except JsError String
  /-- The function `getCurrencySymbol(code, format, locale)`. -/
  getCurrencySymbol : String → SymbolFormat → String → Except JsError String
  /-- Whether `typeof ngDevMode === 'undefined' || ngDevMode` holds. -/
  devMode : Bool
  /-- Whether `console && console.warn` holds. -/
  consoleWarn : Bool

/-- A call a `transform` makes. -/
inductive Call where
  | strToNumber (value : JsValue)
  | formatNumber (value : JsNumber) (locale : String) (digitsInfo : Arg)
  | formatPercent (value : JsNumber) (locale : String) (digitsInfo : Arg)
  | formatCurrency (value : JsNumber) (locale : String) (currency : String) (currencyCode : Arg)
      (digitsInfo : Arg)
  | getCurrencySymbol (code : String) (format : SymbolFormat) (locale : String)
  | warn (message : String)
  deriving DecidableEq, Repr

/-- What a `transform` does: the string or `null` it returns, or what it throws, and the calls it
has made, in order. -/
structure Outcome where
  result : Except Thrown (Option String)
  calls : List Call

/-- The function `isValue(value)`:
`!(value == null || value === '' || value !== value)`. -/
def isValue (value : JsValue) : Bool :=
  !(decide (value = .undefined ∨ value = .null) || decide (value = .string "") ||
    decide (value = .number .nan))

/-- The function `strToNumber(value)`. -/
def strToNumber (js : Builtins) (value : JsValue) : Except JsError JsNumber :=
  match value with
  | .string s =>
    -- `typeof value === 'string'`
    if !isNaN ((js.Number s).sub (js.parseFloat s)) then .ok (js.Number s)
    else .error ⟨value.text js ++ " is not a number"⟩
  | .number n => .ok n
  | _ => .error ⟨value.text js ++ " is not a number"⟩

/-- The body `try { const num = strToNumber(value); return format(num); } catch (error) { throw
invalidPipeArgumentError(type, error.message); }` shared by the three pipes, after the calls
`before`. -/
def tryFormat (env : Env) (type : PipeClass) (value : JsValue)
    (format : JsNumber → Except JsError String) (call : JsNumber → Call) (before : List Call) :
    Outcome :=
  match strToNumber env.js value with
  | .error error =>
    ⟨.error (.invalidPipeArgumentError type error.message), before ++ [.strToNumber value]⟩
  | .ok num =>
    match format num with
    | .ok text => ⟨.ok (some text), before ++ [.strToNumber value, call num]⟩
    | .error error =>
      ⟨.error (.invalidPipeArgumentError type error.message),
        before ++ [.strToNumber value, call num]⟩

/-- An instance of `DecimalPipe`. -/
structure DecimalPipe where
  _locale : String

/-- The method `DecimalPipe.transform(value, digitsInfo, locale)`. -/
def DecimalPipe.transform (env : Env) (self : DecimalPipe) (value : JsValue) (digitsInfo : Arg)
    (locale : Arg) : Outcome :=
  if !isValue value then ⟨.ok none, []⟩
  else
    let locale := locale.orElse self._locale
    tryFormat env .DecimalPipe value (fun num => env.formatNumber num locale digitsInfo)
      (fun num => .formatNumber num locale digitsInfo) []

/-- An instance of `PercentPipe`. -/
structure PercentPipe where
  _locale : String

/-- The method `PercentPipe.transform(value, digitsInfo, locale)`. -/
def PercentPipe.transform (env : Env) (self : PercentPipe) (value : JsValue) (digitsInfo : Arg)
    (locale : Arg) : Outcome :=
  if !isValue value then ⟨.ok none, []⟩
  else
    let locale := locale.orElse self._locale
    tryFormat env .PercentPipe value (fun num => env.formatPercent num locale digitsInfo)
      (fun num => .formatPercent num locale digitsInfo) []

/-- An instance of `CurrencyPipe`. -/
structure CurrencyPipe where
  _locale : String
  _defaultCurrencyCode : String

/-- The constructor `CurrencyPipe(_locale, _defaultCurrencyCode = 'USD')`; `none` is a default
currency code that is not supplied. -/
def CurrencyPipe.new (_locale : String) (_defaultCurrencyCode : Option String) : CurrencyPipe :=
  ⟨_locale, _defaultCurrencyCode.getD "USD"⟩

/-- The third argument of `CurrencyPipe.transform`: not supplied, a boolean, or a string. -/
inductive Display where
  | undefined
  | boolean (b : Bool)
  | string (s : String)
  deriving DecidableEq, Repr

/-- The warning of `CurrencyPipe.transform` for a boolean `display`. -/
def booleanDisplayWarning : String :=
  "Warning: the currency pipe has been changed in Angular v5. The symbolDisplay option (third parameter) is now a string instead of a boolean. The accepted values are \"code\", \"symbol\" or \"symbol-narrow\"."

/-- The method `CurrencyPipe.transform(value, currencyCode = this._defaultCurrencyCode,
display = 'symbol', digitsInfo, locale)`. -/
def CurrencyPipe.transform (env : Env) (self : CurrencyPipe) (value : JsValue)
    (currencyCode : Arg) (display : Display) (digitsInfo : Arg) (locale : Arg) : Outcome :=
  let currencyCode := currencyCode.withDefault self._defaultCurrencyCode
  if !isValue value then ⟨.ok none, []⟩
  else
    let locale := locale.orElse self._locale
    -- `if (typeof display === 'boolean') { ... display = display ? 'symbol' : 'code'; }`,
    -- and the default `display = 'symbol'`
    let warned : List Call :=
      match display with
      | .boolean _ => if env.devMode && env.consoleWarn then [.warn booleanDisplayWarning] else []
      | _ => []
    let display : String :=
      match display with
      | .undefined => "symbol"
      | .boolean b => if b then "symbol" else "code"
      | .string s => s
    let currency := currencyCode.orElse self._defaultCurrencyCode
    if display ≠ "code" then
      if display = "symbol" ∨ display = "symbol-narrow" then
        let format := if display = "symbol" then SymbolFormat.wide else SymbolFormat.narrow
        match env.getCurrencySymbol currency format locale with
        | .error error =>
          ⟨.error (.raised error), warned ++ [.getCurrencySymbol currency format locale]⟩
        | .ok symbol =>
          tryFormat env .CurrencyPipe value
            (fun num => env.formatCurrency num locale symbol currencyCode digitsInfo)
            (fun num => .formatCurrency num locale symbol currencyCode digitsInfo)
            (warned ++ [.getCurrencySymbol currency format locale])
      else
        tryFormat env .CurrencyPipe value
          (fun num => env.formatCurrency num locale display currencyCode digitsInfo)
          (fun num => .formatCurrency num locale display currencyCode digitsInfo) warned
    else
      tryFormat env .CurrencyPipe value
        (fun num => env.formatCurrency num locale currency currencyCode digitsInfo)
        (fun num => .formatCurrency num locale currency currencyCode digitsInfo) warned

/-- The values for which `isValue` is false: `null`, `undefined`, the empty string and `NaN`. -/
def NullLike (value : JsValue) : Prop :=
  value = .undefined ∨ value = .null ∨ value = .string "" ∨ value = .number .nan

/-- What a pipe makes of what its formatter returns or throws. -/
def wrap (type : PipeClass) : Except JsError String → Except Thrown (Option String)
  | .ok text => .ok (some text)
  | .error error => .error (.invalidPipeArgumentError type error.message)

/-- An environment for the examples: the formatters return fixed texts around the locale and the
currency they are given, the symbol of a code is the code in brackets, and a string converts to a
number when it is `"42"`. -/
def sampleEnv : Env where
  js := {
    Number := fun s => if s = "42" then .finite 42 0 else .nan
    parseFloat := fun s => if s = "42" then .finite 42 0 else .nan
    numberToString := fun _ => "number" }
  formatNumber := fun _ locale _ => .ok ("number in " ++ locale)
  formatPercent := fun _ locale _ => .ok ("percent in " ++ locale)
  formatCurrency := fun _ locale currency _ _ => .ok (currency ++ " in " ++ locale)
  getCurrencySymbol := fun code format _ =>
    match format with
    | .wide => .ok ("[" ++ code ++ "]")
    | .narrow => .ok ("(" ++ code ++ ")")
  devMode := true
  consoleWarn := true

/-- An environment for the examples of failures: the conversions to a number are those of
`sampleEnv`, every formatter throws, and so does the lookup of a narrow currency symbol. -/
def failingEnv : Env where
  js := sampleEnv.js
  formatNumber := fun _ _ _ => .error ⟨"bad digits"⟩
  formatPercent := fun _ _ _ => .error ⟨"bad percent digits"⟩
  formatCurrency := fun _ _ _ _ _ => .error ⟨"bad currency digits"⟩
  getCurrencySymbol := fun code format _ =>
    match format with
    | .wide => .ok ("[" ++ code ++ "]")
    | .narrow => .error ⟨"no narrow symbol"⟩
  devMode := true
  consoleWarn := true

end NumberPipe

/-! # The development-mode assertion (`asserts.mjs`) -/

namespace Asserts

open Js

/-- Modelled from the spec: the `RuntimeError` of `@angular/core`, by the code and the message it
is constructed with; the message of the error is formatted around that message. -/
structure RuntimeError where
  code : Int
  message : String
  deriving DecidableEq, Repr

/-- The function `assertDevMode(checkName)`, for a value of the global `ngDevMode`. -/
def assertDevMode (ngDevMode : JsValue) (checkName : String) : Except RuntimeError Unit :=
  if !ngDevMode.truthy then
    .error ⟨2958, "Unexpected invocation of the " ++ checkName ++ " in the prod mode. " ++
      "Please make sure that the prod mode is enabled for production builds."⟩
  else .ok ()

end Asserts

/-! # Lemmas and theorems about the resolve-data stage -/

namespace ResolveData


theorem objGet_objSet_self {α : Type} (o : Obj α) (k : Key) (v : α) :
    objGet (objSet o k v) k = some v := by
  induction o with
  | nil => simp [objSet, objGet]
  | cons p rest ih =>
    obtain ⟨k', v'⟩ := p
    by_cases h : k' = k
    · simp [objSet, objGet, h]
    · simp [objSet, objGet, h, ih]

theorem objGet_objSet_ne {α : Type} (o : Obj α) (k k' : Key) (v : α) (h : k' ≠ k) :
    objGet (objSet o k v) k' = objGet o k' := by
  induction o with
  | nil => simp [objSet, objGet, Ne.symm h]
  | cons p rest ih =>
    obtain ⟨k0, v0⟩ := p
    by_cases h0 : k0 = k
    · subst h0
      simp [objSet, objGet, Ne.symm h]
    · by_cases h1 : k0 = k'
      · subst h1
        simp [objSet, objGet, h0]
      · simp [objSet, objGet, h0, h1, ih]

theorem objSet_idem {α : Type} (o : Obj α) (k : Key) (v : α) :
    objSet (objSet o k v) k v = objSet o k v := by
  induction o with
  | nil => simp [objSet]
  | cons p rest ih =>
    obtain ⟨k0, v0⟩ := p
    by_cases h0 : k0 = k
    · simp [objSet, h0]
    · simp [objSet, h0, ih]

theorem mem_keys_objSet {α : Type} (o : Obj α) (k k' : Key) (v : α) :
    k' ∈ (objSet o k v).map Prod.fst ↔ k' = k ∨ k' ∈ o.map Prod.fst := by
  induction o with
  | nil => simp [objSet]
  | cons p rest ih =>
    obtain ⟨k0, v0⟩ := p
    by_cases h0 : k0 = k
    · subst h0
      simp [objSet]
    · simp only [objSet, h0, if_false, List.map_cons, List.mem_cons, ih]
      tauto

theorem nodup_keys_objSet {α : Type} (o : Obj α) (k : Key) (v : α)
    (h : (o.map Prod.fst).Nodup) : ((objSet o k v).map Prod.fst).Nodup := by
  induction o with
  | nil => simp [objSet]
  | cons p rest ih =>
    obtain ⟨k0, v0⟩ := p
    simp only [List.map_cons, List.nodup_cons] at h
    by_cases h0 : k0 = k
    · subst h0
      simpa [objSet] using h
    · simp only [objSet, h0, if_false, List.map_cons, List.nodup_cons]
      refine ⟨?_, ih h.2⟩
      rw [mem_keys_objSet]
      rintro (h1 | h1)
      · exact h0 h1
      · exact h.1 h1

theorem mem_getDataKeys {α : Type} (o : Obj α) (k : Key) :
    k ∈ getDataKeys o ↔ k ∈ o.map Prod.fst := by
  unfold getDataKeys
  simp only [List.mem_append, List.mem_filter]
  cases h : k.isString <;> simp [h]

theorem getResolver_routes (env : Env) (tok : Token) (r : RouteId) (rss : RouterStateSnapshot)
    (inj : Injector) (s : State) : (getResolver env tok r rss inj s).2.routes = s.routes := by
  simp only [getResolver]
  split
  · rfl
  · split <;> rfl
  · split <;> rfl

theorem getResolver_fst (env : Env) (tok : Token) (r : RouteId) (rss : RouterStateSnapshot)
    (inj : Injector) (s s' : State) (h : s.routes = s'.routes) :
    (getResolver env tok r rss inj s).1 = (getResolver env tok r rss inj s').1 := by
  simp only [getResolver, h]
  split
  · rfl
  · split <;> rfl
  · split <;> rfl

theorem subscribeKeys_routes (env : Env) (resolve : Obj Token) (r : RouteId)
    (rss : RouterStateSnapshot) (inj : Injector) (keys : List Key) (s : State) :
    (subscribeKeys env resolve r rss inj keys s).2.routes = s.routes := by
  induction keys generalizing s with
  | nil => rfl
  | cons k rest ih =>
    simp only [subscribeKeys]
    split
    · exact getResolver_routes _ _ _ _ _ _
    · rw [ih, getResolver_routes]

theorem subscribeKeys_fst (env : Env) (resolve : Obj Token) (r : RouteId)
    (rss : RouterStateSnapshot) (inj : Injector) (keys : List Key) (s : State) :
    (subscribeKeys env resolve r rss inj keys s).1 =
      uptoFailure (keys.map (fun k => ⟨k, notificationOf env resolve r rss inj s.routes k⟩)) := by
  induction keys generalizing s with
  | nil => rfl
  | cons k rest ih =>
    have hk : innerNotification
        (getResolver env ((objGet resolve k).getD .undefined) r rss inj s).1 =
        notificationOf env resolve r rss inj s.routes k := by
      unfold notificationOf resolverOf
      rw [getResolver_fst env _ r rss inj s ⟨s.routes, []⟩ rfl]
    simp only [subscribeKeys, List.map_cons, uptoFailure, hk]
    split
    · rfl
    · rw [ih, getResolver_routes]

theorem mem_uptoFailure {subs : List Subscription} {sub : Subscription}
    (h : sub ∈ uptoFailure subs) : sub ∈ subs := by
  induction subs with
  | nil => simp [uptoFailure] at h
  | cons a rest ih =>
    simp only [uptoFailure] at h
    split at h
    · simp at h
      simp [h]
    · rcases List.mem_cons.1 h with h1 | h1
      · simp [h1]
      · exact List.mem_cons_of_mem _ (ih h1)

theorem uptoFailure_eq_self {subs : List Subscription}
    (h : ∀ sub ∈ subs, failsOnSubscribe sub.outcome = false) : uptoFailure subs = subs := by
  induction subs with
  | nil => rfl
  | cons a rest ih =>
    simp only [uptoFailure, h a (List.mem_cons_self _ _)]
    simp [ih (fun sub hs => h sub (List.mem_cons_of_mem _ hs))]

theorem uptoFailure_ne_nil {subs : List Subscription} (h : subs ≠ []) : uptoFailure subs ≠ [] := by
  cases subs with
  | nil => exact absurd rfl h
  | cons a rest =>
    simp only [uptoFailure]
    split <;> simp

theorem errAt_mem {L : List Delivery} {n : Nat} {e : Err} (h : errAt L = some (n, e)) :
    ∃ d ∈ L, d.time = n ∧ d.what = .error e := by
  induction L with
  | nil => simp [errAt] at h
  | cons d rest ih =>
    simp only [errAt] at h
    split at h
    · next e' he =>
      simp only [Option.some.injEq, Prod.mk.injEq] at h
      exact ⟨d, List.mem_cons_self _ _, h.1, by rw [he, h.2]⟩
    · obtain ⟨d', hd', h1⟩ := ih h
      exact ⟨d', List.mem_cons_of_mem _ hd', h1⟩

theorem errAt_eq_none {L : List Delivery} :
    errAt L = none ↔ ∀ d ∈ L, ∃ v, d.what = .next v := by
  induction L with
  | nil => simp [errAt]
  | cons d rest ih =>
    simp only [errAt, List.mem_cons, forall_eq_or_imp]
    cases hd : d.what with
    | error e => simp
    | next v => simp [ih]

theorem untilError_snd (L : List Delivery) : (untilError L).2 = (errAt L).map Prod.snd := by
  induction L with
  | nil => rfl
  | cons d rest ih =>
    simp only [untilError, errAt]
    cases d.what with
    | error e => rfl
    | next v => simpa using ih

theorem errAt_orderedInsert (d : Delivery) (L : List Delivery)
    (hs : L.Sorted (fun a b => a.time ≤ b.time)) :
    errAt (L.orderedInsert (fun a b => a.time ≤ b.time) d) =
      match d.what with
      | .next _ => errAt L
      | .error e =>
        match errAt L with
        | none => some (d.time, e)
        | some (n, e') => if d.time ≤ n then some (d.time, e) else some (n, e') := by
  induction L with
  | nil =>
    simp only [List.orderedInsert, errAt]
    cases d.what <;> rfl
  | cons b rest ih =>
    have hs' := hs.of_cons
    have hb := List.rel_of_sorted_cons hs
    simp only [List.orderedInsert]
    by_cases hdb : d.time ≤ b.time
    · simp only [hdb, if_true]
      cases hd : d.what with
      | next v => simp [errAt, hd]
      | error e =>
        simp only [errAt, hd]
        cases hbw : b.what with
        | error e' => simp [hdb]
        | next v =>
          simp only
          cases hr : errAt rest with
          | none => rfl
          | some p =>
            obtain ⟨n, e'⟩ := p
            obtain ⟨d', hd', ht, _⟩ := errAt_mem hr
            have : b.time ≤ d'.time := hb d' hd'
            have : d.time ≤ n := by omega
            simp [this]
    · simp only [hdb, if_false]
      have ih' := ih hs'
      cases hbw : b.what with
      | error e' =>
        simp only [errAt, hbw]
        cases hd : d.what with
        | next v => rfl
        | error e => simp [hdb]
      | next v =>
        simp only [errAt, hbw]
        exact ih'

theorem sorted_insertionSort_time (D : List Delivery) :
    (D.insertionSort (fun a b => a.time ≤ b.time)).Sorted (fun a b => a.time ≤ b.time) := by
  haveI : IsTotal Delivery (fun a b => a.time ≤ b.time) := ⟨fun a b => Nat.le_total _ _⟩
  haveI : IsTrans Delivery (fun a b => a.time ≤ b.time) := ⟨fun a b c h1 h2 => Nat.le_trans h1 h2⟩
  exact List.sorted_insertionSort _ D

theorem errAt_insertionSort (D : List Delivery) :
    errAt (D.insertionSort (fun a b => a.time ≤ b.time)) = minErr D := by
  induction D with
  | nil => rfl
  | cons d rest ih =>
    simp only [List.insertionSort, minErr]
    rw [errAt_orderedInsert d _ (sorted_insertionSort_time rest), ih]

theorem minErr_eq_none {D : List Delivery} :
    minErr D = none ↔ ∀ d ∈ D, ∃ v, d.what = .next v := by
  rw [← errAt_insertionSort, errAt_eq_none]
  simp only [List.mem_insertionSort]

theorem untilError_fst_length {L : List Delivery} (h : errAt L = none) :
    (untilError L).1.length = L.length := by
  induction L with
  | nil => rfl
  | cons d rest ih =>
    simp only [errAt] at h
    simp only [untilError]
    cases hd : d.what with
    | error e => simp [hd] at h
    | next v =>
      simp only [hd] at h
      simp [ih h]

theorem mem_untilError_fst {L : List Delivery} {p : Key × Value} (h : p ∈ (untilError L).1) :
    ∃ d ∈ L, d.key = p.1 ∧ d.what = .next p.2 := by
  induction L with
  | nil => simp [untilError] at h
  | cons d rest ih =>
    simp only [untilError] at h
    cases hd : d.what with
    | error e => simp [hd] at h
    | next v =>
      simp only [hd, List.mem_cons] at h
      rcases h with h | h
      · exact ⟨d, List.mem_cons_self _ _, by simp [h], by simp [h, hd]⟩
      · obtain ⟨d', hd', h1⟩ := ih h
        exact ⟨d', List.mem_cons_of_mem _ hd', h1⟩

theorem keys_untilError_fst {L : List Delivery} (h : errAt L = none) :
    (untilError L).1.map Prod.fst = L.map Delivery.key := by
  induction L with
  | nil => rfl
  | cons d rest ih =>
    simp only [errAt] at h
    simp only [untilError]
    cases hd : d.what with
    | error e => simp [hd] at h
    | next v =>
      simp only [hd] at h
      simp [ih h]

theorem objGet_foldl_objSet (g : Key → Value) (pairs : List (Key × Value)) (init : Obj Value)
    (k : Key) (h : ∀ p ∈ pairs, p.2 = g p.1) :
    objGet (pairs.foldl (fun data kv => objSet data kv.1 kv.2) init) k =
      if k ∈ pairs.map Prod.fst then some (g k) else objGet init k := by
  induction pairs generalizing init with
  | nil => simp
  | cons p rest ih =>
    simp only [List.foldl_cons, List.map_cons, List.mem_cons]
    rw [ih _ (fun q hq => h q (List.mem_cons_of_mem _ hq))]
    by_cases hk : k ∈ rest.map Prod.fst
    · simp [hk]
    · by_cases hp : k = p.1
      · subst hp
        simp only [hk, if_false, true_or, if_true, objGet_objSet_self]
        rw [h p (List.mem_cons_self _ _)]
      · simp only [hk, if_false, hp, or_self]
        exact objGet_objSet_ne _ _ _ _ hp

theorem mem_keys_foldl_objSet (pairs : List (Key × Value)) (init : Obj Value) (k : Key) :
    k ∈ (pairs.foldl (fun data kv => objSet data kv.1 kv.2) init).map Prod.fst ↔
      k ∈ pairs.map Prod.fst ∨ k ∈ init.map Prod.fst := by
  induction pairs generalizing init with
  | nil => simp
  | cons p rest ih =>
    simp only [List.foldl_cons, List.map_cons, List.mem_cons]
    rw [ih, mem_keys_objSet]
    tauto

theorem nodup_keys_foldl_objSet (pairs : List (Key × Value)) (init : Obj Value)
    (h : (init.map Prod.fst).Nodup) :
    ((pairs.foldl (fun data kv => objSet data kv.1 kv.2) init).map Prod.fst).Nodup := by
  induction pairs generalizing init with
  | nil => simpa using h
  | cons p rest ih =>
    simp only [List.foldl_cons]
    exact ih _ (nodup_keys_objSet _ _ _ h)

theorem resolveNode_fst (env : Env) (resolve : Obj Token) (r : RouteId)
    (rss : RouterStateSnapshot) (inj : Injector) (s : State) :
    (resolveNode env resolve r rss inj s).1 =
      if getDataKeys resolve = [] then Observable.of []
      else settle (nodeSubs env resolve r rss inj s.routes) := by
  unfold resolveNode
  by_cases h : getDataKeys resolve = []
  · simp [h]
  · have h' : ¬ (getDataKeys resolve).length = 0 := by
      simpa [List.length_eq_zero] using h
    simp only [h', h, if_false]
    unfold nodeSubs
    rw [← subscribeKeys_fst env resolve r rss inj (getDataKeys resolve) s]
    rfl

theorem resolveNode_routes (env : Env) (resolve : Obj Token) (r : RouteId)
    (rss : RouterStateSnapshot) (inj : Injector) (s : State) :
    (resolveNode env resolve r rss inj s).2.routes = s.routes := by
  unfold resolveNode
  by_cases h : (getDataKeys resolve).length = 0
  · simp [h]
  · simp only [h, if_false]
    exact subscribeKeys_routes env resolve r rss inj _ s

theorem length_deliveries_of_all {subs : List Subscription}
    (h : subs.all (fun sub => sub.outcome.isSome) = true) :
    (deliveries subs).length = subs.length := by
  unfold deliveries
  rw [List.length_insertionSort]
  induction subs with
  | nil => rfl
  | cons a rest ih =>
    simp only [List.all_cons, Bool.and_eq_true] at h
    obtain ⟨o, ho⟩ := Option.isSome_iff_exists.1 h.1
    simp [List.filterMap_cons, Subscription.delivery, ho, ih h.2]

theorem settle_eq (subs : List Subscription) (hne : subs ≠ []) :
    settle subs =
      match minErr (subs.filterMap Subscription.delivery) with
      | some (_, e) => if isEmptyError e then ⟨[], .complete⟩ else ⟨[], .error e⟩
      | none =>
        if subs.all (fun sub => sub.outcome.isSome) then ⟨[tapped subs], .complete⟩
        else ⟨[], .never⟩ := by
  have herr : (untilError (deliveries subs)).2 =
      (minErr (subs.filterMap Subscription.delivery)).map Prod.snd := by
    rw [untilError_snd]
    unfold deliveries
    rw [errAt_insertionSort]
  cases hm : minErr (subs.filterMap Subscription.delivery) with
  | some p =>
    obtain ⟨n, e⟩ := p
    rw [hm] at herr
    simp only [Option.map_some'] at herr
    simp only [settle, merged, herr, Observable.takeLast, Observable.mapTo, Observable.catchError]
    by_cases he : isEmptyError e = true
    · simp [he, Observable.EMPTY]
    · simp [he, Observable.throwError]
  | none =>
    rw [hm] at herr
    simp only [Option.map_none'] at herr
    by_cases hall : subs.all (fun sub => sub.outcome.isSome) = true
    · have hlen : ((untilError (deliveries subs)).1.map Prod.snd).length = subs.length := by
        rw [List.length_map, untilError_fst_length, length_deliveries_of_all hall]
        unfold deliveries
        rw [errAt_insertionSort]
        exact hm
      have hpos : 0 < subs.length := List.length_pos.2 hne
      simp only [settle, merged, herr, hall, if_true, Observable.takeLast, Observable.mapTo,
        Observable.catchError]
      have : (List.drop (((untilError (deliveries subs)).1.map Prod.snd).length - 1)
          ((untilError (deliveries subs)).1.map Prod.snd)).length = 1 := by
        rw [List.length_drop]
        omega
      obtain ⟨x, hx⟩ := List.length_eq_one.1 this
      rw [hx]
      rfl
    · simp only [settle, merged, herr, hall, Observable.takeLast, Observable.mapTo,
        Observable.catchError]
      rfl

theorem update_routes_self (s : State) (r : RouteId)
    (f : ActivatedRouteSnapshot → ActivatedRouteSnapshot) :
    (s.update r f).routes r = f (s.routes r) := by
  simp [State.update]

theorem update_routes_ne (s : State) (r x : RouteId)
    (f : ActivatedRouteSnapshot → ActivatedRouteSnapshot) (h : x ≠ r) :
    (s.update r f).routes x = s.routes x := by
  simp [State.update, h]

theorem update_log (s : State) (r : RouteId)
    (f : ActivatedRouteSnapshot → ActivatedRouteSnapshot) : (s.update r f).log = s.log := rfl

theorem declare_log (s : State) (r : RouteId) : (declare s r).log = s.log := by
  unfold declare
  split
  · split <;> rfl
  · rfl

theorem declare_routes_ne (s : State) (r x : RouteId) (h : x ≠ r) :
    (declare s r).routes x = s.routes x := by
  unfold declare
  split
  · split
    · exact update_routes_ne _ _ _ _ h
    · rfl
  · rfl

theorem declare_routes_self (s : State) (r : RouteId) :
    (declare s r).routes r = { s.routes r with _resolve := declared (s.routes r) } := by
  unfold declare declared
  cases hc : (s.routes r).routeConfig with
  | none => simp
  | some c =>
    by_cases h : c.title ≠ .undefined ∧ ¬ hasStaticTitle c
    · dsimp only
      rw [if_pos h, if_pos h, update_routes_self]
    · dsimp only
      rw [if_neg h, if_neg h]

theorem attach_log (env : Env) (config : Option Route) (r : RouteId)
    (strat : ParamsInheritanceStrategy) (d : Obj Value) (s : State) :
    (attach env config r strat d s).2.log = s.log := by
  unfold attach
  cases config with
  | none => rfl
  | some c =>
    by_cases h : hasStaticTitle c = true
    · simp [h, update_log]
    · simp [h, update_log]

theorem attach_routes_ne (env : Env) (config : Option Route) (r x : RouteId)
    (strat : ParamsInheritanceStrategy) (d : Obj Value) (s : State) (h : x ≠ r) :
    (attach env config r strat d s).2.routes x = s.routes x := by
  unfold attach
  cases config with
  | none => simp [update_routes_ne, h]
  | some c =>
    by_cases hc : hasStaticTitle c = true
    · simp [hc, update_routes_ne, h]
    · simp [hc, update_routes_ne, h]

theorem attach_routes_self (env : Env) (config : Option Route) (r : RouteId)
    (strat : ParamsInheritanceStrategy) (d : Obj Value) (s : State) :
    (attach env config r strat d s).2.routes r =
      { s.routes r with
        _resolvedData := some d
        data := titled config (env.inheritedParamsDataResolve
          (s.update r (fun x => { x with _resolvedData := some d })).routes r strat) } := by
  unfold attach titled
  cases config with
  | none => simp [update_routes_self]
  | some c =>
    by_cases hc : hasStaticTitle c = true
    · simp [hc, update_routes_self]
    · simp [hc, update_routes_self]

theorem mapValues_attach_fst (env : Env) (config : Option Route) (r : RouteId)
    (strat : ParamsInheritanceStrategy) (l : List (Obj Value)) (s : State) :
    (mapValues (attach env config r strat) l s).1 = l.map (fun _ => Value.null) := by
  induction l generalizing s with
  | nil => rfl
  | cons d rest ih =>
    simp only [mapValues, List.map_cons]
    rw [ih]
    rfl

theorem mapValues_nil {α β : Type} (f : α → State → β × State) (s : State) :
    mapValues f [] s = ([], s) := rfl

theorem mapValues_singleton_snd {α β : Type} (f : α → State → β × State) (a : α) (s : State) :
    (mapValues f [a] s).2 = (f a s).2 := rfl

/-- The observable `runResolve` builds on `resolveNode`. -/
theorem runResolve_fst (env : Env) (r : RouteId) (rss : RouterStateSnapshot)
    (strat : ParamsInheritanceStrategy) (inj : Injector) (s : State) :
    (runResolve env r rss strat inj s).1 =
      ⟨(resolveNode env (declared (s.routes r)) r rss inj (declare s r)).1.values.map
          (fun _ => Value.null),
        (resolveNode env (declared (s.routes r)) r rss inj (declare s r)).1.term⟩ := by
  have h1 : ((declare s r).routes r)._resolve = declared (s.routes r) := by
    rw [declare_routes_self]
  unfold runResolve
  simp only
  rw [mapValues_attach_fst]
  change (⟨((resolveNode env (((declare s r).routes r)._resolve) r rss inj (declare s r)).1.values.map
    (fun _ => Value.null)), (resolveNode env (((declare s r).routes r)._resolve) r rss inj
      (declare s r)).1.term⟩ : Observable Value) = _
  rw [h1]

theorem runResolve_snd (env : Env) (r : RouteId) (rss : RouterStateSnapshot)
    (strat : ParamsInheritanceStrategy) (inj : Injector) (s : State) :
    (runResolve env r rss strat inj s).2 =
      (mapValues (attach env (s.routes r).routeConfig r strat)
        (resolveNode env (declared (s.routes r)) r rss inj (declare s r)).1.values
        (resolveNode env (declared (s.routes r)) r rss inj (declare s r)).2).2 := by
  have h1 : ((declare s r).routes r)._resolve = declared (s.routes r) := by
    rw [declare_routes_self]
  unfold runResolve
  simp only
  change (mapValues (attach env (s.routes r).routeConfig r strat)
    (resolveNode env (((declare s r).routes r)._resolve) r rss inj (declare s r)).1.values
    (resolveNode env (((declare s r).routes r)._resolve) r rss inj (declare s r)).2).2 = _
  rw [h1]

theorem nodeSubs_ne_nil (env : Env) (resolve : Obj Token) (r : RouteId)
    (rss : RouterStateSnapshot) (inj : Injector) (heap : Heap) (h : getDataKeys resolve ≠ []) :
    nodeSubs env resolve r rss inj heap ≠ [] := by
  unfold nodeSubs
  apply uptoFailure_ne_nil
  simpa using h

theorem mem_nodeSubs {env : Env} {resolve : Obj Token} {r : RouteId}
    {rss : RouterStateSnapshot} {inj : Injector} {heap : Heap} {sub : Subscription}
    (h : sub ∈ nodeSubs env resolve r rss inj heap) :
    sub.key ∈ getDataKeys resolve ∧
      sub.outcome = notificationOf env resolve r rss inj heap sub.key := by
  have := mem_uptoFailure h
  simp only [List.mem_map] at this
  obtain ⟨k, hk, rfl⟩ := this
  exact ⟨hk, rfl⟩

theorem minErr_mem {D : List Delivery} {n : Nat} {e : Err} (h : minErr D = some (n, e)) :
    ∃ d ∈ D, d.time = n ∧ d.what = .error e := by
  rw [← errAt_insertionSort] at h
  obtain ⟨d, hd, h1⟩ := errAt_mem h
  exact ⟨d, (List.mem_insertionSort _).1 hd, h1⟩

/-- The four shapes of the observable of `resolveNode`. -/
theorem resolveNode_shape (env : Env) (resolve : Obj Token) (r : RouteId)
    (rss : RouterStateSnapshot) (inj : Injector) (s : State) :
    (∃ d, (resolveNode env resolve r rss inj s).1 = ⟨[d], .complete⟩) ∨
    (resolveNode env resolve r rss inj s).1 = ⟨[], .complete⟩ ∨
    (∃ e, isEmptyError e = false ∧ (resolveNode env resolve r rss inj s).1 = ⟨[], .error e⟩) ∨
    ((resolveNode env resolve r rss inj s).1 = ⟨[], .never⟩ ∧
      ∃ k ∈ getDataKeys resolve, notificationOf env resolve r rss inj s.routes k = none) := by
  rw [resolveNode_fst]
  by_cases h : getDataKeys resolve = []
  · left
    exact ⟨[], by simp [h, Observable.of]⟩
  · simp only [h, if_false]
    rw [settle_eq _ (nodeSubs_ne_nil env resolve r rss inj s.routes h)]
    cases hm : minErr ((nodeSubs env resolve r rss inj s.routes).filterMap Subscription.delivery) with
    | some p =>
      obtain ⟨n, e⟩ := p
      by_cases he : isEmptyError e = true
      · right; left
        simp [he]
      · right; right; left
        refine ⟨e, by simpa using he, ?_⟩
        simp [he]
    | none =>
      by_cases hall : (nodeSubs env resolve r rss inj s.routes).all
          (fun sub => sub.outcome.isSome) = true
      · left
        exact ⟨tapped (nodeSubs env resolve r rss inj s.routes), by simp [hall]⟩
      · right; right; right
        refine ⟨by simp [hall], ?_⟩
        simp only [List.all_eq_true, not_forall] at hall
        obtain ⟨sub, hsub, hnone⟩ := hall
        obtain ⟨hk, ho⟩ := mem_nodeSubs hsub
        refine ⟨sub.key, hk, ?_⟩
        rw [← ho]
        simpa using hnone

theorem mapValues_attach_routes_ne (env : Env) (config : Option Route) (r x : RouteId)
    (strat : ParamsInheritanceStrategy) (l : List (Obj Value)) (s : State) (h : x ≠ r) :
    (mapValues (attach env config r strat) l s).2.routes x = s.routes x := by
  induction l generalizing s with
  | nil => rfl
  | cons d rest ih =>
    simp only [mapValues]
    rw [ih, attach_routes_ne _ _ _ _ _ _ _ h]

theorem mapValues_attach_config (env : Env) (config : Option Route) (r : RouteId)
    (strat : ParamsInheritanceStrategy) (l : List (Obj Value)) (s : State) :
    ((mapValues (attach env config r strat) l s).2.routes r).routeConfig =
        (s.routes r).routeConfig ∧
      ((mapValues (attach env config r strat) l s).2.routes r)._resolve = (s.routes r)._resolve := by
  induction l generalizing s with
  | nil => exact ⟨rfl, rfl⟩
  | cons d rest ih =>
    simp only [mapValues]
    obtain ⟨h1, h2⟩ := ih (attach env config r strat d s).2
    rw [h1, h2, attach_routes_self]
    exact ⟨rfl, rfl⟩

theorem mapValues_attach_log (env : Env) (config : Option Route) (r : RouteId)
    (strat : ParamsInheritanceStrategy) (l : List (Obj Value)) (s : State) :
    (mapValues (attach env config r strat) l s).2.log = s.log := by
  induction l generalizing s with
  | nil => rfl
  | cons d rest ih =>
    simp only [mapValues]
    rw [ih, attach_log]

theorem runResolve_routes_ne (env : Env) (r x : RouteId) (rss : RouterStateSnapshot)
    (strat : ParamsInheritanceStrategy) (inj : Injector) (s : State) (h : x ≠ r) :
    (runResolve env r rss strat inj s).2.routes x = s.routes x := by
  rw [runResolve_snd, mapValues_attach_routes_ne _ _ _ _ _ _ _ h, resolveNode_routes,
    declare_routes_ne _ _ _ h]

theorem runResolve_config (env : Env) (r x : RouteId) (rss : RouterStateSnapshot)
    (strat : ParamsInheritanceStrategy) (inj : Injector) (s : State) :
    ((runResolve env r rss strat inj s).2.routes x).routeConfig = (s.routes x).routeConfig := by
  by_cases h : x = r
  · subst h
    rw [runResolve_snd, (mapValues_attach_config _ _ _ _ _ _).1, resolveNode_routes,
      declare_routes_self]
  · rw [runResolve_routes_ne _ _ _ _ _ _ _ h]

theorem runResolve_resolve (env : Env) (r : RouteId) (rss : RouterStateSnapshot)
    (strat : ParamsInheritanceStrategy) (inj : Injector) (s : State) :
    ((runResolve env r rss strat inj s).2.routes r)._resolve = declared (s.routes r) := by
  rw [runResolve_snd, (mapValues_attach_config _ _ _ _ _ _).2, resolveNode_routes,
    declare_routes_self]

theorem declared_idem (snap : ActivatedRouteSnapshot) :
    declared { snap with _resolve := declared snap } = declared snap := by
  unfold declared
  cases hc : snap.routeConfig with
  | none => rfl
  | some c =>
    dsimp only
    by_cases h : c.title ≠ .undefined ∧ ¬ hasStaticTitle c
    · rw [if_pos h, if_pos h, objSet_idem]
    · rw [if_neg h, if_neg h]

theorem declared_congr {a b : ActivatedRouteSnapshot} (h1 : a.routeConfig = b.routeConfig)
    (h2 : a._resolve = b._resolve) : declared a = declared b := by
  unfold declared
  rw [h1, h2]

theorem runResolve_declared (env : Env) (r x : RouteId) (rss : RouterStateSnapshot)
    (strat : ParamsInheritanceStrategy) (inj : Injector) (s : State) :
    declared ((runResolve env r rss strat inj s).2.routes x) = declared (s.routes x) := by
  by_cases h : x = r
  · subst h
    rw [← declared_idem (s.routes x)]
    exact declared_congr (runResolve_config _ _ _ _ _ _ _) (runResolve_resolve _ _ _ _ _ _)
  · rw [runResolve_routes_ne _ _ _ _ _ _ _ h]

/-- The four shapes of the observable of `runResolve`. -/
theorem runResolve_shape (env : Env) (r : RouteId) (rss : RouterStateSnapshot)
    (strat : ParamsInheritanceStrategy) (inj : Injector) (s : State) :
    (runResolve env r rss strat inj s).1 = ⟨[.null], .complete⟩ ∨
    (runResolve env r rss strat inj s).1 = ⟨[], .complete⟩ ∨
    (∃ e, isEmptyError e = false ∧ (runResolve env r rss strat inj s).1 = ⟨[], .error e⟩) ∨
    ((runResolve env r rss strat inj s).1 = ⟨[], .never⟩ ∧
      ∃ k ∈ getDataKeys (declared (s.routes r)),
        notificationOf env (declared (s.routes r)) r rss inj (declare s r).routes k = none) := by
  rw [runResolve_fst]
  rcases resolveNode_shape env (declared (s.routes r)) r rss inj (declare s r) with
    ⟨d, h⟩ | h | ⟨e, he, h⟩ | ⟨h, hk⟩
  · left; rw [h]; rfl
  · right; left; rw [h]; rfl
  · right; right; left; exact ⟨e, he, by rw [h]; rfl⟩
  · right; right; right; exact ⟨by rw [h]; rfl, hk⟩

theorem resolveData_eq (env : Env) (strat : ParamsInheritanceStrategy) (inj : Injector)
    (t : NavigationTransition) (s : State) :
    resolveData env strat inj t s =
      if t.guards.canActivateChecks.length = 0 then (Observable.of t, s)
      else
        (Observable.mergeMap
          (fun _ =>
            if (resolveChecks env strat inj t.targetSnapshot t.guards.canActivateChecks s).1.values.length
                = t.guards.canActivateChecks.length then Observable.of t
            else Observable.EMPTY)
          (Observable.takeLast 1
            (resolveChecks env strat inj t.targetSnapshot t.guards.canActivateChecks s).1),
        (resolveChecks env strat inj t.targetSnapshot t.guards.canActivateChecks s).2) := rfl

theorem resolveChecks_nil (env : Env) (strat : ParamsInheritanceStrategy) (inj : Injector)
    (rss : RouterStateSnapshot) (s : State) :
    resolveChecks env strat inj rss [] s = (⟨[], .complete⟩, s) := rfl

theorem resolveChecks_cons (env : Env) (strat : ParamsInheritanceStrategy) (inj : Injector)
    (rss : RouterStateSnapshot) (c : CanActivate) (rest : List CanActivate) (s : State) :
    resolveChecks env strat inj rss (c :: rest) s =
      match (runResolve env c.route rss strat inj s).1.term with
      | .complete =>
        (⟨(runResolve env c.route rss strat inj s).1.values ++
            (resolveChecks env strat inj rss rest (runResolve env c.route rss strat inj s).2).1.values,
          (resolveChecks env strat inj rss rest (runResolve env c.route rss strat inj s).2).1.term⟩,
          (resolveChecks env strat inj rss rest (runResolve env c.route rss strat inj s).2).2)
      | .error e => (⟨(runResolve env c.route rss strat inj s).1.values, .error e⟩,
          (runResolve env c.route rss strat inj s).2)
      | .never => (⟨(runResolve env c.route rss strat inj s).1.values, .never⟩,
          (runResolve env c.route rss strat inj s).2) := by
  simp only [resolveChecks, concatMap]

/-- What the stage delivers, from the sequential resolution of a non-empty list of checks. -/
theorem resolveData_fst (env : Env) (strat : ParamsInheritanceStrategy) (inj : Injector)
    (t : NavigationTransition) (s : State) (h : t.guards.canActivateChecks ≠ []) :
    (resolveData env strat inj t s).1 =
      match (resolveChecks env strat inj t.targetSnapshot t.guards.canActivateChecks s).1.term with
      | .complete =>
        if (resolveChecks env strat inj t.targetSnapshot t.guards.canActivateChecks s).1.values.length
            = t.guards.canActivateChecks.length then ⟨[t], .complete⟩
        else ⟨[], .complete⟩
      | .error e => ⟨[], .error e⟩
      | .never => ⟨[], .never⟩ := by
  have hlen : ¬ t.guards.canActivateChecks.length = 0 := by
    simpa [List.length_eq_zero] using h
  have hpos : 0 < t.guards.canActivateChecks.length := Nat.pos_of_ne_zero hlen
  rw [resolveData_eq]
  simp only [hlen, if_false]
  generalize (resolveChecks env strat inj t.targetSnapshot t.guards.canActivateChecks s).1 = resolved
  obtain ⟨values, term⟩ := resolved
  cases term with
  | error e => rfl
  | never => rfl
  | complete =>
    simp only [Observable.takeLast, Observable.mergeMap]
    by_cases hv : values.length = t.guards.canActivateChecks.length
    · have h1 : (values.drop (values.length - 1)).length = 1 := by
        rw [List.length_drop]
        omega
      obtain ⟨x, hx⟩ := List.length_eq_one.1 h1
      rw [hx]
      simp [mergeMapValues, hv, Observable.of]
    · simp only [hv, if_false]
      generalize values.drop (values.length - 1) = l
      induction l with
      | nil => rfl
      | cons a rest ih =>
        simp only [mergeMapValues, Observable.EMPTY] at ih ⊢
        rw [ih]
        rfl

theorem mem_filterMap_delivery {subs : List Subscription} {d : Delivery}
    (h : d ∈ subs.filterMap Subscription.delivery) :
    ∃ sub ∈ subs, sub.key = d.key ∧ sub.outcome = some (d.time, d.what) := by
  simp only [List.mem_filterMap, Subscription.delivery, Option.map_eq_some'] at h
  obtain ⟨sub, hsub, o, ho, rfl⟩ := h
  exact ⟨sub, hsub, rfl, ho⟩

theorem minErr_nodeSubs_source {env : Env} {resolve : Obj Token} {r : RouteId}
    {rss : RouterStateSnapshot} {inj : Injector} {heap : Heap} {n : Nat} {e : Err}
    (h : minErr ((nodeSubs env resolve r rss inj heap).filterMap Subscription.delivery) =
      some (n, e)) :
    ∃ k ∈ getDataKeys resolve, notificationOf env resolve r rss inj heap k = some (n, .error e) := by
  obtain ⟨d, hd, ht, hw⟩ := minErr_mem h
  obtain ⟨sub, hsub, _, ho⟩ := mem_filterMap_delivery hd
  obtain ⟨hk, hn⟩ := mem_nodeSubs hsub
  exact ⟨sub.key, hk, by rw [← hn, ho, ht, hw]⟩

theorem resolveNode_error_source {env : Env} {resolve : Obj Token} {r : RouteId}
    {rss : RouterStateSnapshot} {inj : Injector} {s : State} {e : Err}
    (h : (resolveNode env resolve r rss inj s).1.term = .error e) :
    ∃ k ∈ getDataKeys resolve, ∃ n,
      notificationOf env resolve r rss inj s.routes k = some (n, .error e) := by
  rw [resolveNode_fst] at h
  by_cases hk : getDataKeys resolve = []
  · simp [hk, Observable.of] at h
  · simp only [hk, if_false] at h
    rw [settle_eq _ (nodeSubs_ne_nil env resolve r rss inj s.routes hk)] at h
    cases hm : minErr ((nodeSubs env resolve r rss inj s.routes).filterMap
        Subscription.delivery) with
    | none =>
      rw [hm] at h
      simp only at h
      split at h <;> simp at h
    | some p =>
      obtain ⟨n, e'⟩ := p
      rw [hm] at h
      simp only at h
      split at h
      · simp at h
      · simp only [Completion.error.injEq] at h
        subst h
        obtain ⟨k, hk1, hk2⟩ := minErr_nodeSubs_source hm
        exact ⟨k, hk1, n, hk2⟩

theorem runResolve_error_source {env : Env} {r : RouteId} {rss : RouterStateSnapshot}
    {strat : ParamsInheritanceStrategy} {inj : Injector} {s : State} {e : Err}
    (h : (runResolve env r rss strat inj s).1.term = .error e) :
    ∃ k ∈ getDataKeys (declared (s.routes r)), ∃ n,
      notificationOf env (declared (s.routes r)) r rss inj (declare s r).routes k =
        some (n, .error e) := by
  rw [runResolve_fst] at h
  exact resolveNode_error_source h

theorem settle_of_all_next {subs : List Subscription} (hne : subs ≠ [])
    (h : ∀ sub ∈ subs, ∃ n v, sub.outcome = some (n, .next v)) :
    settle subs = ⟨[tapped subs], .complete⟩ := by
  rw [settle_eq subs hne]
  have hm : minErr (subs.filterMap Subscription.delivery) = none := by
    rw [minErr_eq_none]
    intro d hd
    obtain ⟨sub, hsub, _, ho⟩ := mem_filterMap_delivery hd
    obtain ⟨n, v, hv⟩ := h sub hsub
    rw [hv] at ho
    simp only [Option.some.injEq, Prod.mk.injEq] at ho
    exact ⟨v, ho.2.symm⟩
  have hall : subs.all (fun sub => sub.outcome.isSome) = true := by
    rw [List.all_eq_true]
    intro sub hsub
    obtain ⟨n, v, hv⟩ := h sub hsub
    simp [hv]
  rw [hm]
  simp [hall]

theorem nodeSubs_of_next {env : Env} {resolve : Obj Token} {r : RouteId}
    {rss : RouterStateSnapshot} {inj : Injector} {heap : Heap}
    (h : ∀ key ∈ getDataKeys resolve,
      ∃ n v, notificationOf env resolve r rss inj heap key = some (n, .next v)) :
    nodeSubs env resolve r rss inj heap =
      (getDataKeys resolve).map (fun k => ⟨k, notificationOf env resolve r rss inj heap k⟩) := by
  unfold nodeSubs
  apply uptoFailure_eq_self
  intro sub hsub
  simp only [List.mem_map] at hsub
  obtain ⟨k, hk, rfl⟩ := hsub
  obtain ⟨n, v, hn⟩ := h k hk
  simp [hn, failsOnSubscribe]

theorem resolveNode_of_next {env : Env} {resolve : Obj Token} {r : RouteId}
    {rss : RouterStateSnapshot} {inj : Injector} (s : State)
    (h : ∀ key ∈ getDataKeys resolve,
      ∃ n v, notificationOf env resolve r rss inj s.routes key = some (n, .next v)) :
    (resolveNode env resolve r rss inj s).1 =
      ⟨[if getDataKeys resolve = [] then []
        else tapped (nodeSubs env resolve r rss inj s.routes)], .complete⟩ := by
  rw [resolveNode_fst]
  by_cases hk : getDataKeys resolve = []
  · simp [hk, Observable.of]
  · simp only [hk, if_false]
    apply settle_of_all_next (nodeSubs_ne_nil env resolve r rss inj s.routes hk)
    intro sub hsub
    obtain ⟨hk1, ho⟩ := mem_nodeSubs hsub
    obtain ⟨n, v, hv⟩ := h sub.key hk1
    exact ⟨n, v, by rw [ho, hv]⟩

theorem runResolve_of_succeeds {env : Env} {r : RouteId} {rss : RouterStateSnapshot}
    {inj : Injector} (strat : ParamsInheritanceStrategy) (s : State)
    (h : NodeSucceeds env (declared (s.routes r)) r rss inj) :
    (runResolve env r rss strat inj s).1 = ⟨[.null], .complete⟩ := by
  rw [runResolve_fst, resolveNode_of_next _ (fun key hkey => h key hkey _)]
  rfl

theorem resolveChecks_declared (env : Env) (strat : ParamsInheritanceStrategy) (inj : Injector)
    (rss : RouterStateSnapshot) (checks : List CanActivate) (s : State) (x : RouteId) :
    declared ((resolveChecks env strat inj rss checks s).2.routes x) = declared (s.routes x) := by
  induction checks generalizing s with
  | nil => rfl
  | cons c rest ih =>
    rw [resolveChecks_cons]
    cases (runResolve env c.route rss strat inj s).1.term with
    | complete =>
      simp only
      rw [ih, runResolve_declared]
    | error e => exact runResolve_declared _ _ _ _ _ _ _
    | never => exact runResolve_declared _ _ _ _ _ _ _

/-- When every resolver of every check emits a value, each check delivers once. -/
theorem resolveChecks_of_succeed (env : Env) (strat : ParamsInheritanceStrategy) (inj : Injector)
    (rss : RouterStateSnapshot) (checks : List CanActivate) (s : State)
    (h : ∀ c ∈ checks, NodeSucceeds env (declared (s.routes c.route)) c.route rss inj) :
    (resolveChecks env strat inj rss checks s).1 =
      ⟨List.replicate checks.length .null, .complete⟩ := by
  induction checks generalizing s with
  | nil => rfl
  | cons c rest ih =>
    rw [resolveChecks_cons, runResolve_of_succeeds strat s (h c (List.mem_cons_self _ _))]
    simp only
    rw [ih]
    · rfl
    · intro c' hc'
      rw [runResolve_declared]
      exact h c' (List.mem_cons_of_mem _ hc')

theorem resolveChecks_length_le (env : Env) (strat : ParamsInheritanceStrategy) (inj : Injector)
    (rss : RouterStateSnapshot) (checks : List CanActivate) (s : State) :
    (resolveChecks env strat inj rss checks s).1.values.length ≤ checks.length := by
  induction checks generalizing s with
  | nil => simp [resolveChecks_nil]
  | cons c rest ih =>
    rw [resolveChecks_cons]
    have ih' := ih (runResolve env c.route rss strat inj s).2
    rcases runResolve_shape env c.route rss strat inj s with h | h | ⟨e, _, h⟩ | ⟨h, _⟩ <;>
      rw [h] <;> simp <;> omega

theorem resolveChecks_never {env : Env} {strat : ParamsInheritanceStrategy} {inj : Injector}
    {rss : RouterStateSnapshot} {checks : List CanActivate} {s : State}
    (h : (resolveChecks env strat inj rss checks s).1.term = .never) :
    SomePending env rss inj checks s := by
  induction checks generalizing s with
  | nil => simp [resolveChecks_nil] at h
  | cons c rest ih =>
    rw [resolveChecks_cons] at h
    have step : (resolveChecks env strat inj rss rest
        (runResolve env c.route rss strat inj s).2).1.term = .never →
        SomePending env rss inj (c :: rest) s := by
      intro h'
      obtain ⟨c', hc', heap, key, hkey, hn⟩ := ih h'
      rw [runResolve_declared] at hkey hn
      exact ⟨c', List.mem_cons_of_mem _ hc', heap, key, hkey, hn⟩
    rcases runResolve_shape env c.route rss strat inj s with
      h1 | h1 | ⟨e, _, h1⟩ | ⟨h1, k, hk, hk'⟩
    · rw [h1] at h
      exact step h
    · rw [h1] at h
      exact step h
    · rw [h1] at h
      simp at h
    · exact ⟨c, List.mem_cons_self _ _, (declare s c.route).routes, k, hk, hk'⟩

theorem exists_error_uptoFailure {subs : List Subscription}
    (h : ∃ sub ∈ subs, ∃ n e, sub.outcome = some (n, .error e)) :
    ∃ sub ∈ uptoFailure subs, ∃ n e, sub.outcome = some (n, .error e) := by
  induction subs with
  | nil => simp at h
  | cons a rest ih =>
    simp only [uptoFailure]
    by_cases hf : failsOnSubscribe a.outcome = true
    · simp only [hf, if_true, List.mem_singleton, exists_eq_left]
      unfold failsOnSubscribe at hf
      split at hf
      · next e heq => exact ⟨0, e, heq⟩
      · simp at hf
    · simp only [hf]
      obtain ⟨sub, hsub, hn⟩ := h
      rcases List.mem_cons.1 hsub with h1 | h1
      · exact ⟨a, List.mem_cons_self _ _, by rw [← h1]; exact hn⟩
      · obtain ⟨sub', hsub', hn'⟩ := ih ⟨sub, h1, hn⟩
        exact ⟨sub', List.mem_cons_of_mem _ hsub', hn'⟩

theorem notificationOf_of_empty {env : Env} {resolve : Obj Token} {r : RouteId}
    {rss : RouterStateSnapshot} {inj : Injector} {heap : Heap} {key : Key} {o : ResolverStream}
    (h : resolverOf env resolve r rss inj heap key = .ok o) (hv : o.values = [])
    (ht : o.term = .complete) :
    notificationOf env resolve r rss inj heap key = some (o.firstAt, .error .emptyError) := by
  unfold notificationOf
  rw [h]
  simp [innerNotification, first, hv, ht]

theorem runResolve_of_empty {env : Env} {r : RouteId} {rss : RouterStateSnapshot}
    {inj : Injector} (strat : ParamsInheritanceStrategy) (s : State)
    (hempty : NodeHasEmpty env (declared (s.routes r)) r rss inj)
    (hno : NodeNoError env (declared (s.routes r)) r rss inj) :
    (runResolve env r rss strat inj s).1 = ⟨[], .complete⟩ := by
  obtain ⟨k, hk, hk'⟩ := hempty
  obtain ⟨o, ho, hv, ht⟩ := hk' (declare s r).routes
  have hkeys : getDataKeys (declared (s.routes r)) ≠ [] := List.ne_nil_of_mem hk
  rw [runResolve_fst, resolveNode_fst]
  simp only [hkeys, if_false]
  rw [settle_eq _ (nodeSubs_ne_nil env _ r rss inj _ hkeys)]
  cases hm : minErr ((nodeSubs env (declared (s.routes r)) r rss inj
      (declare s r).routes).filterMap Subscription.delivery) with
  | none =>
    exfalso
    rw [minErr_eq_none] at hm
    have hex : ∃ sub ∈ nodeSubs env (declared (s.routes r)) r rss inj (declare s r).routes,
        ∃ n e, sub.outcome = some (n, .error e) := by
      apply exists_error_uptoFailure
      refine ⟨⟨k, notificationOf env (declared (s.routes r)) r rss inj (declare s r).routes k⟩,
        List.mem_map.2 ⟨k, hk, rfl⟩, o.firstAt, .emptyError, ?_⟩
      exact notificationOf_of_empty ho hv ht
    obtain ⟨sub, hsub, n, e, hne⟩ := hex
    have hd : (⟨sub.key, n, .error e⟩ : Delivery) ∈
        (nodeSubs env (declared (s.routes r)) r rss inj (declare s r).routes).filterMap
          Subscription.delivery := by
      rw [List.mem_filterMap]
      exact ⟨sub, hsub, by simp [Subscription.delivery, hne]⟩
    obtain ⟨v, hv'⟩ := hm _ hd
    simp at hv'
  | some p =>
    obtain ⟨n, e⟩ := p
    obtain ⟨k', hk1, hk2⟩ := minErr_nodeSubs_source hm
    have := hno k' hk1 _ n e hk2
    simp [this]

theorem runResolve_noError {env : Env} {r : RouteId} {rss : RouterStateSnapshot}
    {inj : Injector} (strat : ParamsInheritanceStrategy) (s : State)
    (hno : NodeNoError env (declared (s.routes r)) r rss inj) (e : Err) :
    (runResolve env r rss strat inj s).1.term ≠ .error e := by
  intro h
  obtain ⟨k, hk, n, hn⟩ := runResolve_error_source h
  have he := hno k hk _ n e hn
  rcases runResolve_shape env r rss strat inj s with h1 | h1 | ⟨e', he', h1⟩ | ⟨h1, _⟩
  · rw [h1] at h; simp at h
  · rw [h1] at h; simp at h
  · rw [h1] at h
    simp only [Completion.error.injEq] at h
    subst h
    rw [he] at he'
    simp at he'
  · rw [h1] at h; simp at h

/-- When no resolver fails with an error other than the empty error, the sequential resolution
does not fail; when moreover a resolver of some check completes without a value, fewer values
are delivered than there are checks. -/
theorem resolveChecks_of_empty (env : Env) (strat : ParamsInheritanceStrategy) (inj : Injector)
    (rss : RouterStateSnapshot) (checks : List CanActivate) (s : State)
    (hno : ∀ c ∈ checks, NodeNoError env (declared (s.routes c.route)) c.route rss inj) :
    (∀ e, (resolveChecks env strat inj rss checks s).1.term ≠ .error e) ∧
    ((∃ c ∈ checks, NodeHasEmpty env (declared (s.routes c.route)) c.route rss inj) →
      (resolveChecks env strat inj rss checks s).1.values.length < checks.length) := by
  induction checks generalizing s with
  | nil => simp [resolveChecks_nil]
  | cons c rest ih =>
    have hno' : ∀ c' ∈ rest, NodeNoError env
        (declared ((runResolve env c.route rss strat inj s).2.routes c'.route)) c'.route rss
        inj := by
      intro c' hc'
      rw [runResolve_declared]
      exact hno c' (List.mem_cons_of_mem _ hc')
    obtain ⟨ih1, ih2⟩ := ih (runResolve env c.route rss strat inj s).2 hno'
    have hle := resolveChecks_length_le env strat inj rss rest
      (runResolve env c.route rss strat inj s).2
    have hc := runResolve_noError strat s (hno c (List.mem_cons_self _ _))
    rw [resolveChecks_cons]
    rcases runResolve_shape env c.route rss strat inj s with h1 | h1 | ⟨e', _, h1⟩ | ⟨h1, _⟩
    · rw [h1]
      refine ⟨ih1, ?_⟩
      rintro ⟨c', hc', hempty⟩
      rcases List.mem_cons.1 hc' with h2 | h2
      · subst h2
        have := runResolve_of_empty strat s hempty (hno c' (List.mem_cons_self _ _))
        rw [h1] at this
        simp at this
      · have := ih2 ⟨c', h2, by rw [runResolve_declared]; exact hempty⟩
        simp only [List.length_append, List.length_cons, List.length_nil]
        omega
    · rw [h1]
      refine ⟨ih1, fun _ => ?_⟩
      simp only [List.nil_append, List.length_cons]
      omega
    · exact absurd (by rw [h1]) (hc e')
    · rw [h1]
      exact ⟨fun e => by simp, fun _ => by simp⟩

theorem uptoFailure_append_of_ok {A B : List Subscription}
    (h : ∀ sub ∈ A, failsOnSubscribe sub.outcome = false) :
    uptoFailure (A ++ B) = A ++ uptoFailure B := by
  induction A with
  | nil => rfl
  | cons a rest ih =>
    simp only [List.cons_append, uptoFailure, h a (List.mem_cons_self _ _)]
    simp [ih (fun sub hs => h sub (List.mem_cons_of_mem _ hs))]

theorem minErr_append_later {A B : List Delivery} {n : Nat} {e : Err}
    (hA : ∀ d ∈ A, ∀ e', d.what = .error e' → n < d.time) (hB : minErr B = some (n, e)) :
    minErr (A ++ B) = some (n, e) := by
  induction A with
  | nil => exact hB
  | cons a rest ih =>
    have ih' := ih (fun d hd => hA d (List.mem_cons_of_mem _ hd))
    simp only [List.cons_append, minErr]
    cases ha : a.what with
    | next v => exact ih'
    | error e' =>
      have := hA a (List.mem_cons_self _ _) e' ha
      have hlt : ¬ a.time ≤ n := by omega
      have ih2 : minErr (rest.append B) = some (n, e) := ih'
      simp only [ih2]
      simp [hlt]

theorem minErr_cons_first {d : Delivery} {B : List Delivery} {e : Err}
    (hd : d.what = .error e)
    (hB : ∀ d' ∈ B, ∀ e', d'.what = .error e' → d.time ≤ d'.time) :
    minErr (d :: B) = some (d.time, e) := by
  simp only [minErr, hd]
  cases hm : minErr B with
  | none => rfl
  | some p =>
    obtain ⟨n', e'⟩ := p
    obtain ⟨d', hd', ht, hw⟩ := minErr_mem hm
    have := hB d' hd' e' hw
    have hle : d.time ≤ n' := by omega
    simp [hle]

theorem failsOnSubscribe_eq_false_of_pos {o : Option (Nat × Notification)}
    (h : ∀ n e, o = some (n, .error e) → 0 < n) : failsOnSubscribe o = false := by
  unfold failsOnSubscribe
  split
  · next e => exact absurd (h 0 e rfl) (by omega)
  · rfl

theorem minErr_nodeSubs_of_fails {env : Env} {resolve : Obj Token} {r : RouteId}
    {rss : RouterStateSnapshot} {inj : Injector} {e : Err} (heap : Heap)
    (h : NodeFailsWith env resolve r rss inj e) :
    ∃ n, minErr ((nodeSubs env resolve r rss inj heap).filterMap Subscription.delivery) =
      some (n, e) := by
  obtain ⟨l1, k, l2, hkeys, hall⟩ := h
  obtain ⟨n, hk, h1, h2⟩ := hall heap
  refine ⟨n, ?_⟩
  unfold nodeSubs
  rw [hkeys, List.map_append, List.map_cons, uptoFailure_append_of_ok, List.filterMap_append]
  · apply minErr_append_later
    · intro d hd e' he'
      obtain ⟨sub, hsub, hkey, ho⟩ := mem_filterMap_delivery hd
      simp only [List.mem_map] at hsub
      obtain ⟨k', hk', rfl⟩ := hsub
      rw [he'] at ho
      exact h1 k' hk' d.time e' ho
    · have hcons : ∀ rest : List Subscription,
          (∀ sub ∈ rest, sub ∈ l2.map
            (fun k => (⟨k, notificationOf env resolve r rss inj heap k⟩ : Subscription))) →
          minErr (((⟨k, notificationOf env resolve r rss inj heap k⟩ : Subscription) ::
            rest).filterMap Subscription.delivery) = some (n, e) := by
        intro rest hrest
        have : ((⟨k, notificationOf env resolve r rss inj heap k⟩ : Subscription) ::
            rest).filterMap Subscription.delivery =
            (⟨k, n, .error e⟩ : Delivery) :: rest.filterMap Subscription.delivery := by
          simp [List.filterMap_cons, Subscription.delivery, hk]
        rw [this]
        apply minErr_cons_first (d := ⟨k, n, .error e⟩) rfl
        intro d' hd' e' he'
        obtain ⟨sub, hsub, _, ho⟩ := mem_filterMap_delivery hd'
        have := hrest sub hsub
        simp only [List.mem_map] at this
        obtain ⟨k', hk', rfl⟩ := this
        rw [he'] at ho
        exact h2 k' hk' d'.time e' ho
      simp only [uptoFailure]
      split
      · exact hcons [] (by simp)
      · exact hcons _ (fun sub hsub => mem_uptoFailure hsub)
  · intro sub hsub
    simp only [List.mem_map] at hsub
    obtain ⟨k', hk', rfl⟩ := hsub
    apply failsOnSubscribe_eq_false_of_pos
    intro n' e' hn'
    have := h1 k' hk' n' e' hn'
    omega

theorem runResolve_of_fails {env : Env} {r : RouteId} {rss : RouterStateSnapshot}
    {inj : Injector} {e : Err} (strat : ParamsInheritanceStrategy) (s : State)
    (h : NodeFailsWith env (declared (s.routes r)) r rss inj e) :
    (runResolve env r rss strat inj s).1 =
      if isEmptyError e then ⟨[], .complete⟩ else ⟨[], .error e⟩ := by
  have hkeys : getDataKeys (declared (s.routes r)) ≠ [] := by
    obtain ⟨l1, k, l2, hk, _⟩ := h
    rw [hk]
    simp
  obtain ⟨n, hm⟩ := minErr_nodeSubs_of_fails (declare s r).routes h
  rw [runResolve_fst, resolveNode_fst]
  simp only [hkeys, if_false]
  rw [settle_eq _ (nodeSubs_ne_nil env _ r rss inj _ hkeys), hm]
  by_cases he : isEmptyError e = true
  · simp [he]
  · simp [he]

/-- When the checks before `c` succeed and a resolver of `c` is the first of its route to fail,
with an error that is not the empty error, the sequential resolution fails with that error. -/
theorem resolveChecks_of_fails (env : Env) (strat : ParamsInheritanceStrategy) (inj : Injector)
    (rss : RouterStateSnapshot) (pre : List CanActivate) (c : CanActivate)
    (post : List CanActivate) (e : Err) (s : State)
    (hpre : ∀ c' ∈ pre, NodeSucceeds env (declared (s.routes c'.route)) c'.route rss inj)
    (hc : NodeFailsWith env (declared (s.routes c.route)) c.route rss inj e)
    (he : isEmptyError e = false) :
    (resolveChecks env strat inj rss (pre ++ c :: post) s).1.term = .error e := by
  induction pre generalizing s with
  | nil =>
    rw [List.nil_append, resolveChecks_cons, runResolve_of_fails strat s hc]
    simp [he]
  | cons a rest ih =>
    rw [List.cons_append, resolveChecks_cons,
      runResolve_of_succeeds strat s (hpre a (List.mem_cons_self _ _))]
    simp only
    apply ih
    · intro c' hc'
      rw [runResolve_declared]
      exact hpre c' (List.mem_cons_of_mem _ hc')
    · rw [runResolve_declared]
      exact hc

theorem resolveData_values (env : Env) (strat : ParamsInheritanceStrategy) (inj : Injector)
    (t : NavigationTransition) (s : State) :
    (resolveData env strat inj t s).1 = ⟨[t], .complete⟩ ∨
    (resolveData env strat inj t s).1 = ⟨[], .complete⟩ ∨
    (∃ e, (resolveData env strat inj t s).1 = ⟨[], .error e⟩) ∨
    ((resolveData env strat inj t s).1 = ⟨[], .never⟩ ∧
      SomePending env t.targetSnapshot inj t.guards.canActivateChecks s) := by
  by_cases h : t.guards.canActivateChecks = []
  · left
    rw [resolveData_eq]
    simp [h, Observable.of]
  · rw [resolveData_fst env strat inj t s h]
    cases hterm : (resolveChecks env strat inj t.targetSnapshot t.guards.canActivateChecks
        s).1.term with
    | complete =>
      simp only
      split
      · left; rfl
      · right; left; rfl
    | error e => right; right; left; exact ⟨e, rfl⟩
    | never => right; right; right; exact ⟨rfl, resolveChecks_never hterm⟩

/-- C1 (as amended): the stage never emits more than one value and never a value other than the
transition; its output has one of the three shapes (the transition once and completion, nothing
and completion, or a failure) or else stays pending without a value, and it stays pending only
when some resolver declared for one of the checks stays pending for ever. -/
theorem resolveData_shapes (env : Env) (strat : ParamsInheritanceStrategy) (inj : Injector)
    (t : NavigationTransition) (s : State) :
    ((resolveData env strat inj t s).1.values = [] ∨
      (resolveData env strat inj t s).1.values = [t]) ∧
    (ThreeShapes t (resolveData env strat inj t s).1 ∨
      ((resolveData env strat inj t s).1 = ⟨[], .never⟩ ∧
        SomePending env t.targetSnapshot inj t.guards.canActivateChecks s)) := by
  rcases resolveData_values env strat inj t s with h | h | ⟨e, h⟩ | ⟨h, hn⟩
  · exact ⟨Or.inr (by rw [h]), Or.inl (Or.inl h)⟩
  · exact ⟨Or.inl (by rw [h]), Or.inl (Or.inr (Or.inl h))⟩
  · exact ⟨Or.inl (by rw [h]), Or.inl (Or.inr (Or.inr ⟨e, h⟩))⟩
  · exact ⟨Or.inl (by rw [h]), Or.inr ⟨h, hn⟩⟩

/-- C1 (as stated) fails: with a resolver that returns a promise that never settles, the stage
neither emits, nor completes, nor fails. -/
theorem resolveData_pending :
    (resolveData (functionsEnv sampleReturns) .emptyOnly 0 (transitionOf [0])
      ⟨heapOf [snapshotOf .undefined [(.str "a", .ref 3)]], []⟩).1 = ⟨[], .never⟩ ∧
    ¬ ThreeShapes (transitionOf [0])
      (resolveData (functionsEnv sampleReturns) .emptyOnly 0 (transitionOf [0])
        ⟨heapOf [snapshotOf .undefined [(.str "a", .ref 3)]], []⟩).1 := by
  have h : (resolveData (functionsEnv sampleReturns) .emptyOnly 0 (transitionOf [0])
      ⟨heapOf [snapshotOf .undefined [(.str "a", .ref 3)]], []⟩).1 = ⟨[], .never⟩ := by decide
  refine ⟨h, ?_⟩
  rw [h]
  unfold ThreeShapes
  simp

/-- C2: when the list of checks is not empty and every declared resolver of every check emits
at least one value, the stage emits the transition exactly once and completes, and the number of
checks counted as resolved is the length of the list. -/
theorem resolveData_of_succeed (env : Env) (strat : ParamsInheritanceStrategy) (inj : Injector)
    (t : NavigationTransition) (s : State) (hne : t.guards.canActivateChecks ≠ [])
    (h : ∀ c ∈ t.guards.canActivateChecks,
      NodeSucceeds env (declared (s.routes c.route)) c.route t.targetSnapshot inj) :
    (resolveData env strat inj t s).1 = ⟨[t], .complete⟩ ∧
    (resolveChecks env strat inj t.targetSnapshot t.guards.canActivateChecks s).1.values.length =
      t.guards.canActivateChecks.length := by
  have hr := resolveChecks_of_succeed env strat inj t.targetSnapshot _ s h
  rw [resolveData_fst env strat inj t s hne, hr]
  simp

/-- An instance of C2: two checks, three resolvers that return plain values, one of them a title
resolver. -/
theorem resolveData_of_succeed_witness :
    (resolveData (functionsEnv (fun _ => .ok (.plain (.num 1)))) .emptyOnly 0 (transitionOf [0, 1])
      ⟨heapOf [snapshotOf .undefined [(.str "a", .ref 1), (.sym 4, .ref 2)],
        snapshotOf (.resolver (.ref 3)) []], []⟩).1 = ⟨[transitionOf [0, 1]], .complete⟩ ∧
    (resolveChecks (functionsEnv (fun _ => .ok (.plain (.num 1)))) .emptyOnly 0
      (transitionOf [0, 1]).targetSnapshot (transitionOf [0, 1]).guards.canActivateChecks
      ⟨heapOf [snapshotOf .undefined [(.str "a", .ref 1), (.sym 4, .ref 2)],
        snapshotOf (.resolver (.ref 3)) []], []⟩).1.values.length =
      (transitionOf [0, 1]).guards.canActivateChecks.length :=
  resolveData_of_succeed _ .emptyOnly 0 (transitionOf [0, 1]) _ (by decide) (by
    intro c hc key hkey heap
    have hc' : c = ⟨0⟩ ∨ c = ⟨1⟩ := by simpa [transitionOf] using hc
    rcases hc' with rfl | rfl
    · have hk : key = .str "a" ∨ key = .sym 4 := by
        simpa [declared, heapOf, snapshotOf] using (mem_getDataKeys _ _).1 hkey
      rcases hk with rfl | rfl
      · exact ⟨0, .num 1, rfl⟩
      · exact ⟨0, .num 1, rfl⟩
    · have hk : key = RouteTitleKey := by
        simpa [declared, heapOf, snapshotOf, hasStaticTitle, objSet] using
          (mem_getDataKeys _ _).1 hkey
      subst hk
      exact ⟨0, .num 1, rfl⟩)

/-- C3 (as amended): when a resolver of some check, at any position in the list, completes
without a value and no resolver fails with an error other than the empty error, the stage emits
nothing and does not fail: it completes, unless some resolver declared for one of the checks
stays pending for ever, in which case it may stay pending. -/
theorem resolveData_of_empty (env : Env) (strat : ParamsInheritanceStrategy) (inj : Injector)
    (t : NavigationTransition) (s : State)
    (hno : ∀ c ∈ t.guards.canActivateChecks,
      NodeNoError env (declared (s.routes c.route)) c.route t.targetSnapshot inj)
    (hempty : ∃ c ∈ t.guards.canActivateChecks,
      NodeHasEmpty env (declared (s.routes c.route)) c.route t.targetSnapshot inj) :
    (resolveData env strat inj t s).1 = ⟨[], .complete⟩ ∨
    ((resolveData env strat inj t s).1 = ⟨[], .never⟩ ∧
      SomePending env t.targetSnapshot inj t.guards.canActivateChecks s) := by
  have hne : t.guards.canActivateChecks ≠ [] := by
    obtain ⟨c, hc, _⟩ := hempty
    exact List.ne_nil_of_mem hc
  obtain ⟨h1, h2⟩ := resolveChecks_of_empty env strat inj t.targetSnapshot _ s hno
  have hlt := h2 hempty
  rw [resolveData_fst env strat inj t s hne]
  cases hterm : (resolveChecks env strat inj t.targetSnapshot t.guards.canActivateChecks
      s).1.term with
  | complete =>
    have hneq : ¬ (resolveChecks env strat inj t.targetSnapshot t.guards.canActivateChecks
        s).1.values.length = t.guards.canActivateChecks.length := by omega
    simp [hneq]
  | error e => exact absurd hterm (h1 e)
  | never => exact Or.inr ⟨rfl, resolveChecks_never hterm⟩

/-- An instance of C3: the last resolver of the second check completes without a value. -/
theorem resolveData_of_empty_witness :
    (resolveData (functionsEnv sampleReturns) .always 0 (transitionOf [0, 1])
      ⟨heapOf [snapshotOf .undefined [(.str "a", .ref 1)],
        snapshotOf .undefined [(.str "b", .ref 2), (.str "c", .ref 4)]], []⟩).1 =
          ⟨[], .complete⟩ ∨
    ((resolveData (functionsEnv sampleReturns) .always 0 (transitionOf [0, 1])
      ⟨heapOf [snapshotOf .undefined [(.str "a", .ref 1)],
        snapshotOf .undefined [(.str "b", .ref 2), (.str "c", .ref 4)]], []⟩).1 =
          ⟨[], .never⟩ ∧
      SomePending (functionsEnv sampleReturns) (transitionOf [0, 1]).targetSnapshot 0
        (transitionOf [0, 1]).guards.canActivateChecks
        ⟨heapOf [snapshotOf .undefined [(.str "a", .ref 1)],
          snapshotOf .undefined [(.str "b", .ref 2), (.str "c", .ref 4)]], []⟩) :=
  resolveData_of_empty _ .always 0 (transitionOf [0, 1]) _
    (by
      intro c hc key hkey heap n e hn
      have hc' : c = ⟨0⟩ ∨ c = ⟨1⟩ := by simpa [transitionOf] using hc
      rcases hc' with rfl | rfl
      · have hk : key = .str "a" := by
          simpa [declared, heapOf, snapshotOf] using (mem_getDataKeys _ _).1 hkey
        subst hk
        have h2 : some (n, Notification.error e) = some (0, Notification.next (.num 10)) :=
          hn.symm.trans rfl
        simp at h2
      · have hk : key = .str "b" ∨ key = .str "c" := by
          simpa [declared, heapOf, snapshotOf] using (mem_getDataKeys _ _).1 hkey
        rcases hk with rfl | rfl
        · have h2 : some (n, Notification.error e) = some (0, Notification.next (.str "two")) :=
            hn.symm.trans rfl
          simp at h2
        · have : (n, Notification.error e) = (0, Notification.error .emptyError) :=
            Option.some.inj (hn.symm.trans rfl)
          simp only [Prod.mk.injEq, Notification.error.injEq] at this
          rw [this.2]
          rfl)
    ⟨⟨1⟩, by decide, .str "c", by decide, fun _ => ⟨⟨0, [], .complete⟩, rfl, rfl, rfl⟩⟩

/-- C3 (as stated) fails: the resolver of the first check completes without a value, no
resolver fails, and the stage goes on to the second check, whose resolver stays pending: the
output is not a completion without a value: it never completes. -/
theorem resolveData_empty_then_pending :
    (∀ c ∈ (transitionOf [0, 1]).guards.canActivateChecks,
      NodeNoError (functionsEnv sampleReturns)
        (declared ((heapOf [snapshotOf .undefined [(.str "a", .ref 4)],
          snapshotOf .undefined [(.str "b", .ref 3)]]) c.route)) c.route 0 0) ∧
    (∃ c ∈ (transitionOf [0, 1]).guards.canActivateChecks,
      NodeHasEmpty (functionsEnv sampleReturns)
        (declared ((heapOf [snapshotOf .undefined [(.str "a", .ref 4)],
          snapshotOf .undefined [(.str "b", .ref 3)]]) c.route)) c.route 0 0) ∧
    (resolveData (functionsEnv sampleReturns) .always 0 (transitionOf [0, 1])
      ⟨heapOf [snapshotOf .undefined [(.str "a", .ref 4)],
        snapshotOf .undefined [(.str "b", .ref 3)]], []⟩).1 = ⟨[], .never⟩ := by
  refine ⟨?_, ⟨⟨0⟩, by decide, .str "a", by decide, fun _ => ⟨⟨0, [], .complete⟩, rfl, rfl, rfl⟩⟩,
    by decide⟩
  intro c hc key hkey heap n e hn
  have hc' : c = ⟨0⟩ ∨ c = ⟨1⟩ := by simpa [transitionOf] using hc
  rcases hc' with rfl | rfl
  · have hk : key = .str "a" := by
      simpa [declared, heapOf, snapshotOf] using (mem_getDataKeys _ _).1 hkey
    subst hk
    have : (n, Notification.error e) = (0, Notification.error .emptyError) :=
      Option.some.inj (hn.symm.trans rfl)
    simp only [Prod.mk.injEq, Notification.error.injEq] at this
    rw [this.2]
    rfl
  · have hk : key = .str "b" := by
      simpa [declared, heapOf, snapshotOf] using (mem_getDataKeys _ _).1 hkey
    subst hk
    have h2 : some (n, Notification.error e) = none := hn.symm.trans rfl
    simp at h2

/-- C4 (as amended): when the checks before `c` succeed, a resolver of `c` fails with `e`, by a
throw or by a failure of its observable, every resolver of that route that notifies before it
emits a value, and `e` is not the empty error, the stage fails with exactly `e`. -/
theorem resolveData_of_fails (env : Env) (strat : ParamsInheritanceStrategy) (inj : Injector)
    (t : NavigationTransition) (s : State) (pre : List CanActivate) (c : CanActivate)
    (post : List CanActivate) (e : Err)
    (hchecks : t.guards.canActivateChecks = pre ++ c :: post)
    (hpre : ∀ c' ∈ pre, NodeSucceeds env (declared (s.routes c'.route)) c'.route
      t.targetSnapshot inj)
    (hc : NodeFailsWith env (declared (s.routes c.route)) c.route t.targetSnapshot inj e)
    (he : isEmptyError e = false) :
    (resolveData env strat inj t s).1 = ⟨[], .error e⟩ := by
  have hne : t.guards.canActivateChecks ≠ [] := by
    rw [hchecks]
    simp
  have := resolveChecks_of_fails env strat inj t.targetSnapshot pre c post e s hpre hc he
  rw [← hchecks] at this
  rw [resolveData_fst env strat inj t s hne, this]

/-- An instance of C4: in the second of three checks the resolver under `c` throws, the one
before it is a promise fulfilled later and the one after it would complete without a value. -/
theorem resolveData_of_fails_witness :
    (resolveData (functionsEnv sampleReturns) .emptyOnly 0 (transitionOf [0, 1, 2])
      ⟨heapOf [snapshotOf .undefined [(.str "a", .ref 1)],
        snapshotOf .undefined [(.str "b", .ref 7), (.str "c", .ref 6), (.str "d", .ref 4)],
        snapshotOf .undefined [(.str "e", .ref 2)]], []⟩).1 = ⟨[], .error (.other 7)⟩ :=
  resolveData_of_fails _ .emptyOnly 0 (transitionOf [0, 1, 2]) _ [⟨0⟩] ⟨1⟩ [⟨2⟩] (.other 7) rfl
    (by
      intro c hc key hkey heap
      have hc' : c = ⟨0⟩ := by simpa using hc
      subst hc'
      have hk : key = .str "a" := by
        simpa [declared, heapOf, snapshotOf] using (mem_getDataKeys _ _).1 hkey
      subst hk
      exact ⟨0, .num 10, rfl⟩)
    ⟨[.str "b"], .str "c", [.str "d"], by decide, fun _ => ⟨0, rfl,
      by
        intro k hk n e hn
        have hk' : k = .str "b" := by simpa using hk
        subst hk'
        have h2 : some (n, Notification.error e) = some (3, Notification.next (.num 70)) :=
          hn.symm.trans rfl
        simp at h2,
      by
        intro k hk n e hn
        exact Nat.zero_le _⟩⟩
    rfl

/-- C4 (as stated) fails: the only resolver fails with an `EmptyError`, and the stage completes
without a value instead of failing with that error. -/
theorem resolveData_fails_with_emptyError :
    NodeFailsWith (functionsEnv sampleReturns)
      (declared ((heapOf [snapshotOf .undefined [(.str "a", .ref 5)]]) 0)) 0 0 0 .emptyError ∧
    (resolveData (functionsEnv sampleReturns) .emptyOnly 0 (transitionOf [0])
      ⟨heapOf [snapshotOf .undefined [(.str "a", .ref 5)]], []⟩).1 = ⟨[], .complete⟩ := by
  refine ⟨⟨[], .str "a", [], by decide, fun _ => ⟨0, rfl, by simp, by simp⟩⟩, by decide⟩

/-- An example of the order of notification within a route: the resolver under `a` is invoked
first and its promise is rejected later; the resolver under `b`, invoked after it, completes
without a value at once, and the stage completes without a value before the rejection arrives. -/
theorem resolveData_empty_before_rejection :
    (resolveData (functionsEnv sampleReturns) .emptyOnly 0 (transitionOf [0])
      ⟨heapOf [snapshotOf .undefined [(.str "a", .ref 8), (.str "b", .ref 4)]], []⟩).1 =
      ⟨[], .complete⟩ := by
  decide

/-- C5: when the list of checks is empty, the stage emits the transition and completes, and
leaves the state as it is: no snapshot is written, the injector and the resolvers are not
called. -/
theorem resolveData_of_no_checks (env : Env) (strat : ParamsInheritanceStrategy) (inj : Injector)
    (t : NavigationTransition) (s : State) (h : t.guards.canActivateChecks = []) :
    resolveData env strat inj t s = (⟨[t], .complete⟩, s) := by
  rw [resolveData_eq]
  simp [h, Observable.of]

/-- An instance of C5: no checks, on a heap whose only resolver would throw. -/
theorem resolveData_of_no_checks_witness :
    resolveData (functionsEnv sampleReturns) .always 0 (transitionOf [])
      ⟨heapOf [snapshotOf (.str "Fixed") [(.str "a", .ref 6)]], []⟩ =
      (⟨[transitionOf []], .complete⟩,
        ⟨heapOf [snapshotOf (.str "Fixed") [(.str "a", .ref 6)]], []⟩) :=
  resolveData_of_no_checks _ .always 0 (transitionOf []) _ rfl

theorem tapped_pairs {env : Env} {resolve : Obj Token} {r : RouteId}
    {rss : RouterStateSnapshot} {inj : Injector} {heap : Heap} {p : Key × Value}
    (h : p ∈ (untilError (deliveries (nodeSubs env resolve r rss inj heap))).1) :
    p.1 ∈ getDataKeys resolve ∧ p.2 = firstValue env resolve r rss inj heap p.1 := by
  obtain ⟨d, hd, hkey, hwhat⟩ := mem_untilError_fst h
  unfold deliveries at hd
  rw [List.mem_insertionSort] at hd
  obtain ⟨sub, hsub, hk, ho⟩ := mem_filterMap_delivery hd
  obtain ⟨hk1, hn⟩ := mem_nodeSubs hsub
  rw [hk, hkey] at hk1 hn
  refine ⟨hk1, ?_⟩
  unfold firstValue
  rw [← hn, ho, hwhat]

theorem keys_of_next {env : Env} {resolve : Obj Token} {r : RouteId}
    {rss : RouterStateSnapshot} {inj : Injector} {heap : Heap}
    (h : ∀ key ∈ getDataKeys resolve,
      ∃ n v, notificationOf env resolve r rss inj heap key = some (n, .next v)) (k : Key) :
    k ∈ (untilError (deliveries (nodeSubs env resolve r rss inj heap))).1.map Prod.fst ↔
      k ∈ getDataKeys resolve := by
  constructor
  · intro hk
    obtain ⟨p, hp, rfl⟩ := List.mem_map.1 hk
    exact (tapped_pairs hp).1
  · intro hk
    have herr : errAt (deliveries (nodeSubs env resolve r rss inj heap)) = none := by
      unfold deliveries
      rw [errAt_insertionSort, minErr_eq_none]
      intro d hd
      obtain ⟨sub, hsub, _, ho⟩ := mem_filterMap_delivery hd
      obtain ⟨hk1, hn⟩ := mem_nodeSubs hsub
      obtain ⟨n, v, hv⟩ := h sub.key hk1
      rw [hn, hv] at ho
      simp only [Option.some.injEq, Prod.mk.injEq] at ho
      exact ⟨v, ho.2.symm⟩
    rw [keys_untilError_fst herr]
    obtain ⟨n, v, hv⟩ := h k hk
    refine List.mem_map.2 ⟨⟨k, n, .next v⟩, ?_, rfl⟩
    unfold deliveries
    rw [List.mem_insertionSort, List.mem_filterMap]
    refine ⟨⟨k, notificationOf env resolve r rss inj heap k⟩, ?_, by
      simp [Subscription.delivery, hv]⟩
    rw [nodeSubs_of_next h]
    exact List.mem_map.2 ⟨k, hk, rfl⟩

theorem declared_of_no_title {snap : ActivatedRouteSnapshot}
    (h : ∀ c, snap.routeConfig = some c → c.title = .undefined) :
    declared snap = snap._resolve := by
  unfold declared
  cases hc : snap.routeConfig with
  | none => rfl
  | some c => simp [h c hc]

theorem declare_of_no_title {s : State} {r : RouteId}
    (h : ∀ c, (s.routes r).routeConfig = some c → c.title = .undefined) :
    declare s r = s := by
  unfold declare
  cases hc : (s.routes r).routeConfig with
  | none => rfl
  | some c => simp [h c hc]

/-- After a resolution that delivered, the snapshot carries the data `resolveNode` emitted. -/
theorem runResolve_written {env : Env} {r : RouteId} {rss : RouterStateSnapshot}
    {strat : ParamsInheritanceStrategy} {inj : Injector} {s : State}
    (h : (runResolve env r rss strat inj s).1.values ≠ []) :
    ∃ d, (resolveNode env (declared (s.routes r)) r rss inj (declare s r)).1 =
        ⟨[d], .complete⟩ ∧
      (runResolve env r rss strat inj s).2 =
        (attach env (s.routes r).routeConfig r strat d
          (resolveNode env (declared (s.routes r)) r rss inj (declare s r)).2).2 := by
  rw [runResolve_fst] at h
  rcases resolveNode_shape env (declared (s.routes r)) r rss inj (declare s r) with
    ⟨d, h1⟩ | h1 | ⟨e, _, h1⟩ | ⟨h1, _⟩
  · refine ⟨d, h1, ?_⟩
    rw [runResolve_snd, h1]
    rfl
  · rw [h1] at h; simp at h
  · rw [h1] at h; simp at h
  · rw [h1] at h; simp at h

theorem resolveChecks_append (env : Env) (strat : ParamsInheritanceStrategy) (inj : Injector)
    (rss : RouterStateSnapshot) (l1 l2 : List CanActivate) (s : State) :
    resolveChecks env strat inj rss (l1 ++ l2) s =
      if (resolveChecks env strat inj rss l1 s).1.term = .complete then
        (⟨(resolveChecks env strat inj rss l1 s).1.values ++
            (resolveChecks env strat inj rss l2 (resolveChecks env strat inj rss l1 s).2).1.values,
          (resolveChecks env strat inj rss l2 (resolveChecks env strat inj rss l1 s).2).1.term⟩,
          (resolveChecks env strat inj rss l2 (resolveChecks env strat inj rss l1 s).2).2)
      else resolveChecks env strat inj rss l1 s := by
  induction l1 generalizing s with
  | nil => simp [resolveChecks_nil]
  | cons c rest ih =>
    rw [List.cons_append, resolveChecks_cons, resolveChecks_cons]
    cases hterm : (runResolve env c.route rss strat inj s).1.term with
    | complete =>
      simp only
      rw [ih]
      by_cases h : (resolveChecks env strat inj rss rest
          (runResolve env c.route rss strat inj s).2).1.term = .complete
      · simp [h]
      · simp [h]
    | error e => simp
    | never => simp

theorem runResolve_written_snapshot {env : Env} {r : RouteId} {rss : RouterStateSnapshot}
    {strat : ParamsInheritanceStrategy} {inj : Injector} {s : State}
    (h : (runResolve env r rss strat inj s).1.values ≠ []) :
    Written env strat r ((runResolve env r rss strat inj s).2.routes r) := by
  obtain ⟨d, _, hs⟩ := runResolve_written h
  have hcfg : ((resolveNode env (declared (s.routes r)) r rss inj (declare s r)).2.routes
      r).routeConfig = (s.routes r).routeConfig := by
    rw [resolveNode_routes, declare_routes_self]
  rw [hs, attach_routes_self]
  refine ⟨d, ((resolveNode env (declared (s.routes r)) r rss inj (declare s r)).2.update r
    (fun x => { x with _resolvedData := some d })).routes, rfl, ?_, ?_⟩
  · rw [update_routes_self]
  · simp only [hcfg]

theorem runResolve_preserves_written (env : Env) (r x : RouteId) (rss : RouterStateSnapshot)
    (strat : ParamsInheritanceStrategy) (inj : Injector) (s : State)
    (h : Written env strat x (s.routes x)) :
    Written env strat x ((runResolve env r rss strat inj s).2.routes x) := by
  by_cases hx : x = r
  · subst hx
    by_cases hv : (runResolve env x rss strat inj s).1.values = []
    · have hnode : (resolveNode env (declared (s.routes x)) x rss inj (declare s x)).1.values =
          [] := by
        rw [runResolve_fst] at hv
        simpa using hv
      have hsnap : (runResolve env x rss strat inj s).2.routes x =
          { s.routes x with _resolve := declared (s.routes x) } := by
        rw [runResolve_snd, hnode, mapValues_nil, resolveNode_routes, declare_routes_self]
      rw [hsnap]
      exact h
    · exact runResolve_written_snapshot hv
  · rw [runResolve_routes_ne _ _ _ _ _ _ _ hx]
    exact h

theorem resolveChecks_preserves_written (env : Env) (strat : ParamsInheritanceStrategy)
    (inj : Injector) (rss : RouterStateSnapshot) (checks : List CanActivate) (s : State)
    (x : RouteId) (h : Written env strat x (s.routes x)) :
    Written env strat x ((resolveChecks env strat inj rss checks s).2.routes x) := by
  induction checks generalizing s with
  | nil => exact h
  | cons c rest ih =>
    have h1 := runResolve_preserves_written env c.route x rss strat inj s h
    rw [resolveChecks_cons]
    cases (runResolve env c.route rss strat inj s).1.term with
    | complete => exact ih _ h1
    | error e => exact h1
    | never => exact h1

theorem declare_preserves_written (env : Env) (strat : ParamsInheritanceStrategy) (s : State)
    (r x : RouteId) (h : Written env strat x (s.routes x)) :
    Written env strat x ((declare s r).routes x) := by
  by_cases hx : x = r
  · subst hx
    rw [declare_routes_self]
    exact h
  · rw [declare_routes_ne _ _ _ hx]
    exact h

/-- C6: the checks are resolved in list order. The resolution of `cj` and of the checks after it
starts from the state left by the resolution of all the checks before it, and only if each of
these has completed; when the earlier check `ci` has delivered, that state holds resolved data
and the data written for the route of `ci`, and so does the heap that the resolvers of `cj` are
invoked on. -/
theorem resolveChecks_in_order (env : Env) (strat : ParamsInheritanceStrategy) (inj : Injector)
    (rss : RouterStateSnapshot) (pre : List CanActivate) (ci : CanActivate)
    (mid : List CanActivate) (cj : CanActivate) (post : List CanActivate) (s : State)
    (hpre : (resolveChecks env strat inj rss pre s).1.term = .complete)
    (hci : (runResolve env ci.route rss strat inj
      (resolveChecks env strat inj rss pre s).2).1.values ≠ []) :
    resolveChecks env strat inj rss (pre ++ ci :: (mid ++ cj :: post)) s =
      (if (resolveChecks env strat inj rss (pre ++ ci :: mid) s).1.term = .complete then
        (⟨(resolveChecks env strat inj rss (pre ++ ci :: mid) s).1.values ++
            (resolveChecks env strat inj rss (cj :: post)
              (resolveChecks env strat inj rss (pre ++ ci :: mid) s).2).1.values,
          (resolveChecks env strat inj rss (cj :: post)
            (resolveChecks env strat inj rss (pre ++ ci :: mid) s).2).1.term⟩,
          (resolveChecks env strat inj rss (cj :: post)
            (resolveChecks env strat inj rss (pre ++ ci :: mid) s).2).2)
      else resolveChecks env strat inj rss (pre ++ ci :: mid) s) ∧
    Written env strat ci.route
      ((resolveChecks env strat inj rss (pre ++ ci :: mid) s).2.routes ci.route) ∧
    Written env strat ci.route
      ((declare (resolveChecks env strat inj rss (pre ++ ci :: mid) s).2 cj.route).routes
        ci.route) := by
  have hw : Written env strat ci.route
      ((resolveChecks env strat inj rss (pre ++ ci :: mid) s).2.routes ci.route) := by
    have hrun : (runResolve env ci.route rss strat inj
        (resolveChecks env strat inj rss pre s).2).1 = ⟨[.null], .complete⟩ := by
      obtain ⟨d, hnode, _⟩ := runResolve_written hci
      rw [runResolve_fst, hnode]
      rfl
    rw [resolveChecks_append, if_pos hpre, resolveChecks_cons, hrun]
    simp only
    exact resolveChecks_preserves_written env strat inj rss mid _ ci.route
      (runResolve_written_snapshot hci)
  refine ⟨?_, hw, declare_preserves_written env strat _ cj.route ci.route hw⟩
  have : pre ++ ci :: (mid ++ cj :: post) = (pre ++ ci :: mid) ++ cj :: post := by simp
  rw [this]
  exact resolveChecks_append env strat inj rss _ _ s

/-- An instance of C6: two checks, the resolver of the second reads the data of the first route. -/
theorem resolveChecks_in_order_witness :
    resolveChecks readerEnv .emptyOnly 0 0 ([] ++ ⟨0⟩ :: ([] ++ ⟨1⟩ :: [])) parentChild =
      (if (resolveChecks readerEnv .emptyOnly 0 0 ([] ++ ⟨0⟩ :: []) parentChild).1.term =
          .complete then
        (⟨(resolveChecks readerEnv .emptyOnly 0 0 ([] ++ ⟨0⟩ :: []) parentChild).1.values ++
            (resolveChecks readerEnv .emptyOnly 0 0 (⟨1⟩ :: [])
              (resolveChecks readerEnv .emptyOnly 0 0 ([] ++ ⟨0⟩ :: []) parentChild).2).1.values,
          (resolveChecks readerEnv .emptyOnly 0 0 (⟨1⟩ :: [])
            (resolveChecks readerEnv .emptyOnly 0 0 ([] ++ ⟨0⟩ :: []) parentChild).2).1.term⟩,
          (resolveChecks readerEnv .emptyOnly 0 0 (⟨1⟩ :: [])
            (resolveChecks readerEnv .emptyOnly 0 0 ([] ++ ⟨0⟩ :: []) parentChild).2).2)
      else resolveChecks readerEnv .emptyOnly 0 0 ([] ++ ⟨0⟩ :: []) parentChild) ∧
    Written readerEnv .emptyOnly (⟨0⟩ : CanActivate).route
      ((resolveChecks readerEnv .emptyOnly 0 0 ([] ++ ⟨0⟩ :: []) parentChild).2.routes
        (⟨0⟩ : CanActivate).route) ∧
    Written readerEnv .emptyOnly (⟨0⟩ : CanActivate).route
      ((declare (resolveChecks readerEnv .emptyOnly 0 0 ([] ++ ⟨0⟩ :: []) parentChild).2
        (⟨1⟩ : CanActivate).route).routes (⟨0⟩ : CanActivate).route) :=
  resolveChecks_in_order readerEnv .emptyOnly 0 0 [] ⟨0⟩ [] ⟨1⟩ [] parentChild rfl (by decide)

/-- An example of the order of resolution: the resolver of the second check reads, in the data
of the first route, the value that the resolution of the first check has just written. -/
theorem child_reads_parent_data :
    ((resolveData readerEnv .emptyOnly 0 (transitionOf [0, 1])
      parentChild).2.routes 1)._resolvedData =
      some [(.str "b", .num 10)] := by
  decide

/-- C7: for a route without a title whose resolve map is not empty and whose resolvers each emit
a value, the map stored as `_resolvedData` has exactly the keys of the resolve map, each once,
and under each key the first value of the resolver declared under it. -/
theorem resolvedData_of_resolvers (env : Env) (r : RouteId) (rss : RouterStateSnapshot)
    (strat : ParamsInheritanceStrategy) (inj : Injector) (s : State)
    (htitle : ∀ c, (s.routes r).routeConfig = some c → c.title = .undefined)
    (hne : getDataKeys (s.routes r)._resolve ≠ [])
    (hv : ∀ key ∈ getDataKeys (s.routes r)._resolve, ∃ o v rest,
      resolverOf env (s.routes r)._resolve r rss inj s.routes key = .ok o ∧
        o.values = v :: rest) :
    ∃ d, ((runResolve env r rss strat inj s).2.routes r)._resolvedData = some d ∧
      (d.map Prod.fst).Nodup ∧
      (∀ k, k ∈ d.map Prod.fst ↔ k ∈ getDataKeys (s.routes r)._resolve) ∧
      (∀ key ∈ getDataKeys (s.routes r)._resolve, ∀ o,
        resolverOf env (s.routes r)._resolve r rss inj s.routes key = .ok o →
          objGet d key = o.values.head?) := by
  have hnext : ∀ key ∈ getDataKeys (s.routes r)._resolve, ∃ n v,
      notificationOf env (s.routes r)._resolve r rss inj s.routes key = some (n, .next v) := by
    intro key hkey
    obtain ⟨o, v, rest, ho, hvals⟩ := hv key hkey
    refine ⟨o.firstAt, v, ?_⟩
    unfold notificationOf
    rw [ho]
    simp [innerNotification, first, hvals]
  have hD := declared_of_no_title htitle
  have hS := declare_of_no_title htitle
  have hnode := resolveNode_of_next s hnext
  simp only [hne, if_false] at hnode
  refine ⟨tapped (nodeSubs env (s.routes r)._resolve r rss inj s.routes), ?_, ?_, ?_, ?_⟩
  · rw [runResolve_snd, hD, hS, hnode, mapValues_singleton_snd, attach_routes_self]
  · exact nodup_keys_foldl_objSet _ [] List.nodup_nil
  · intro k
    unfold tapped
    rw [mem_keys_foldl_objSet, keys_of_next hnext]
    simp
  · intro key hkey o ho
    unfold tapped
    rw [objGet_foldl_objSet (firstValue env (s.routes r)._resolve r rss inj s.routes) _ [] key
      (fun p hp => (tapped_pairs hp).2)]
    rw [if_pos ((keys_of_next hnext key).2 hkey)]
    obtain ⟨o', v, rest, ho', hvals⟩ := hv key hkey
    rw [ho] at ho'
    cases ho'
    unfold firstValue notificationOf
    rw [ho]
    simp [innerNotification, first, hvals]

/-- An instance of C7: a string key whose resolver returns a promise and a symbol key whose
resolver returns a plain value. -/
theorem resolvedData_of_resolvers_witness :
    ∃ d, ((runResolve (functionsEnv sampleReturns) 0 0 .emptyOnly 0
        ⟨heapOf [snapshotOf .undefined [(.str "a", .ref 7), (.sym 3, .ref 2)]], []⟩).2.routes
          0)._resolvedData = some d ∧
      (d.map Prod.fst).Nodup ∧
      (∀ k, k ∈ d.map Prod.fst ↔ k ∈ getDataKeys
        ((heapOf [snapshotOf .undefined [(.str "a", .ref 7), (.sym 3, .ref 2)]]) 0)._resolve) ∧
      (∀ key ∈ getDataKeys
          ((heapOf [snapshotOf .undefined [(.str "a", .ref 7), (.sym 3, .ref 2)]]) 0)._resolve,
        ∀ o, resolverOf (functionsEnv sampleReturns)
            ((heapOf [snapshotOf .undefined [(.str "a", .ref 7), (.sym 3, .ref 2)]]) 0)._resolve
            0 0 0 (heapOf [snapshotOf .undefined [(.str "a", .ref 7), (.sym 3, .ref 2)]]) key =
              .ok o →
          objGet d key = o.values.head?) :=
  resolvedData_of_resolvers (functionsEnv sampleReturns) 0 0 .emptyOnly 0
    ⟨heapOf [snapshotOf .undefined [(.str "a", .ref 7), (.sym 3, .ref 2)]], []⟩
    (by
      intro c hc
      have : c = ⟨.undefined⟩ := by
        simpa [heapOf, snapshotOf] using hc.symm
      rw [this])
    (by decide)
    (by
      intro key hkey
      have hk : key = .str "a" ∨ key = .sym 3 := by
        simpa [heapOf, snapshotOf] using (mem_getDataKeys _ _).1 hkey
      rcases hk with rfl | rfl
      · exact ⟨⟨3, [.num 70], .complete⟩, .num 70, [], rfl, rfl⟩
      · exact ⟨⟨0, [.str "two"], .complete⟩, .str "two", [], rfl, rfl⟩)

/-- C8: for a route without a title whose resolve map has no key, the resolution emits exactly
once and completes, stores an empty map as `_resolvedData`, and calls neither the injector nor
a resolver. -/
theorem runResolve_of_no_resolvers (env : Env) (r : RouteId) (rss : RouterStateSnapshot)
    (strat : ParamsInheritanceStrategy) (inj : Injector) (s : State)
    (htitle : ∀ c, (s.routes r).routeConfig = some c → c.title = .undefined)
    (h : (s.routes r)._resolve = []) :
    (runResolve env r rss strat inj s).1 = ⟨[.null], .complete⟩ ∧
    ((runResolve env r rss strat inj s).2.routes r)._resolvedData = some [] ∧
    (runResolve env r rss strat inj s).2.log = s.log := by
  have hD : declared (s.routes r) = [] := by rw [declared_of_no_title htitle, h]
  have hS := declare_of_no_title htitle
  have hnode : resolveNode env [] r rss inj s = (Observable.of [], s) := rfl
  refine ⟨?_, ?_, ?_⟩
  · rw [runResolve_fst, hD, hS, hnode]
    rfl
  · rw [runResolve_snd, hD, hS, hnode]
    simp only [Observable.of]
    rw [mapValues_singleton_snd, attach_routes_self]
  · rw [runResolve_snd, hD, hS, hnode, mapValues_attach_log]

/-- An instance of C8: the route `1` has no configuration and an empty resolve map. -/
theorem runResolve_of_no_resolvers_witness :
    (runResolve (functionsEnv sampleReturns) 1 0 .always 0
      ⟨heapOf [snapshotOf .undefined [(.str "a", .ref 6)], ⟨none, [], none, []⟩], []⟩).1 =
        ⟨[.null], .complete⟩ ∧
    ((runResolve (functionsEnv sampleReturns) 1 0 .always 0
      ⟨heapOf [snapshotOf .undefined [(.str "a", .ref 6)], ⟨none, [], none, []⟩], []⟩).2.routes
        1)._resolvedData = some [] ∧
    (runResolve (functionsEnv sampleReturns) 1 0 .always 0
      ⟨heapOf [snapshotOf .undefined [(.str "a", .ref 6)], ⟨none, [], none, []⟩], []⟩).2.log =
        [] :=
  runResolve_of_no_resolvers (functionsEnv sampleReturns) 1 0 .always 0
    ⟨heapOf [snapshotOf .undefined [(.str "a", .ref 6)], ⟨none, [], none, []⟩], []⟩
    (by
      intro c hc
      have h2 : (none : Option Route) = some c := hc
      simp at h2)
    rfl

/-- C9: for a route whose configured title is a string or `null`, whatever the strategy and
whatever `inheritedParamsDataResolve` returns, once the resolution of the route has delivered
`data[RouteTitleKey]` is the configured title. -/
theorem static_title_in_data (env : Env) (r : RouteId) (rss : RouterStateSnapshot)
    (strat : ParamsInheritanceStrategy) (inj : Injector) (s : State) (c : Route)
    (hc : (s.routes r).routeConfig = some c) (hstatic : hasStaticTitle c = true)
    (hok : (runResolve env r rss strat inj s).1.values ≠ []) :
    objGet ((runResolve env r rss strat inj s).2.routes r).data RouteTitleKey =
      some c.title.toValue := by
  obtain ⟨d, _, hs⟩ := runResolve_written hok
  rw [hs, attach_routes_self, hc]
  simp only [titled, hstatic, if_true]
  exact objGet_objSet_self _ _ _

/-- An instance of C9: the title `Fixed`, and a resolver declared under `RouteTitleKey` whose
value the inherited data carries. -/
theorem static_title_in_data_witness :
    objGet ((runResolve (functionsEnv sampleReturns) 0 0 .always 0
      ⟨heapOf [snapshotOf (.str "Fixed") [(RouteTitleKey, .ref 2), (.str "a", .ref 1)]],
        []⟩).2.routes 0).data RouteTitleKey = some (Title.str "Fixed").toValue :=
  static_title_in_data (functionsEnv sampleReturns) 0 0 .always 0
    ⟨heapOf [snapshotOf (.str "Fixed") [(RouteTitleKey, .ref 2), (.str "a", .ref 1)]], []⟩
    ⟨.str "Fixed"⟩ rfl rfl (by decide)

/-- C10 (as amended): a title that is a resolver is written into the resolve map under
`RouteTitleKey` before the resolvers are run, and `resolveNode` runs on the map so extended, in
a state that already has it, so that the title resolver is among the keys it processes; a title
that is a string or `null` is not written into the resolve map, which is left as it is. -/
theorem runResolve_title (env : Env) (r : RouteId) (rss : RouterStateSnapshot)
    (strat : ParamsInheritanceStrategy) (inj : Injector) (s : State) (c : Route)
    (hc : (s.routes r).routeConfig = some c) :
    ((runResolve env r rss strat inj s).2.routes r)._resolve =
      (match c.title with
        | .resolver token => objSet (s.routes r)._resolve RouteTitleKey token
        | _ => (s.routes r)._resolve) ∧
    (RouteTitleKey ∈ getDataKeys ((runResolve env r rss strat inj s).2.routes r)._resolve ↔
      (∃ token, c.title = .resolver token) ∨ RouteTitleKey ∈ getDataKeys (s.routes r)._resolve) ∧
    ((declare s r).routes r)._resolve = ((runResolve env r rss strat inj s).2.routes r)._resolve ∧
    (runResolve env r rss strat inj s).1 =
      ⟨(resolveNode env ((runResolve env r rss strat inj s).2.routes r)._resolve r rss inj
          (declare s r)).1.values.map (fun _ => Value.null),
        (resolveNode env ((runResolve env r rss strat inj s).2.routes r)._resolve r rss inj
          (declare s r)).1.term⟩ := by
  have hD : declared (s.routes r) =
      (match c.title with
        | .resolver token => objSet (s.routes r)._resolve RouteTitleKey token
        | _ => (s.routes r)._resolve) := by
    unfold declared
    rw [hc]
    cases ht : c.title <;> simp [hasStaticTitle, ht, Title.toToken]
  refine ⟨?_, ?_, ?_, ?_⟩
  · rw [runResolve_resolve, hD]
  · rw [runResolve_resolve, hD, mem_getDataKeys, mem_getDataKeys]
    cases ht : c.title with
    | resolver token =>
      simp only [mem_keys_objSet]
      simp
    | undefined => simp
    | null => simp
    | str str => simp
  · rw [runResolve_resolve, declare_routes_self]
  · rw [runResolve_resolve]
    exact runResolve_fst env r rss strat inj s

/-- An instance of C10: a title that is the resolver `2`. -/
theorem runResolve_title_witness :
    ((runResolve (functionsEnv sampleReturns) 0 0 .always 0
      ⟨heapOf [snapshotOf (.resolver (.ref 2)) [(.str "a", .ref 1)]], []⟩).2.routes 0)._resolve =
      [(.str "a", .ref 1), (RouteTitleKey, .ref 2)] ∧
    (RouteTitleKey ∈ getDataKeys ((runResolve (functionsEnv sampleReturns) 0 0 .always 0
      ⟨heapOf [snapshotOf (.resolver (.ref 2)) [(.str "a", .ref 1)]], []⟩).2.routes 0)._resolve ↔
      (∃ token, (⟨.resolver (.ref 2)⟩ : Route).title = .resolver token) ∨
        RouteTitleKey ∈ getDataKeys
          ((heapOf [snapshotOf (.resolver (.ref 2)) [(.str "a", .ref 1)]]) 0)._resolve) ∧
    ((declare ⟨heapOf [snapshotOf (.resolver (.ref 2)) [(.str "a", .ref 1)]], []⟩ 0).routes
        0)._resolve =
      ((runResolve (functionsEnv sampleReturns) 0 0 .always 0
        ⟨heapOf [snapshotOf (.resolver (.ref 2)) [(.str "a", .ref 1)]], []⟩).2.routes
          0)._resolve ∧
    (runResolve (functionsEnv sampleReturns) 0 0 .always 0
      ⟨heapOf [snapshotOf (.resolver (.ref 2)) [(.str "a", .ref 1)]], []⟩).1 =
      ⟨(resolveNode (functionsEnv sampleReturns)
          ((runResolve (functionsEnv sampleReturns) 0 0 .always 0
            ⟨heapOf [snapshotOf (.resolver (.ref 2)) [(.str "a", .ref 1)]], []⟩).2.routes
              0)._resolve 0 0 0
          (declare ⟨heapOf [snapshotOf (.resolver (.ref 2)) [(.str "a", .ref 1)]], []⟩
            0)).1.values.map (fun _ => Value.null),
        (resolveNode (functionsEnv sampleReturns)
          ((runResolve (functionsEnv sampleReturns) 0 0 .always 0
            ⟨heapOf [snapshotOf (.resolver (.ref 2)) [(.str "a", .ref 1)]], []⟩).2.routes
              0)._resolve 0 0 0
          (declare ⟨heapOf [snapshotOf (.resolver (.ref 2)) [(.str "a", .ref 1)]], []⟩
            0)).1.term⟩ :=
  runResolve_title (functionsEnv sampleReturns) 0 0 .always 0
    ⟨heapOf [snapshotOf (.resolver (.ref 2)) [(.str "a", .ref 1)]], []⟩ ⟨.resolver (.ref 2)⟩ rfl

/-- C10 (as stated) fails: for a route with the literal title `"Fixed"`, the resolve map has no
entry under `RouteTitleKey` after `runResolve`, and no resolver has been looked up. -/
theorem static_title_not_in_resolve_map :
    hasStaticTitle ⟨.str "Fixed"⟩ = true ∧
    objGet ((runResolve (functionsEnv sampleReturns) 0 0 .always 0
      ⟨heapOf [snapshotOf (.str "Fixed") []], []⟩).2.routes 0)._resolve RouteTitleKey = none ∧
    RouteTitleKey ∉ getDataKeys ((runResolve (functionsEnv sampleReturns) 0 0 .always 0
      ⟨heapOf [snapshotOf (.str "Fixed") []], []⟩).2.routes 0)._resolve ∧
    (runResolve (functionsEnv sampleReturns) 0 0 .always 0
      ⟨heapOf [snapshotOf (.str "Fixed") []], []⟩).2.log = [] := by
  decide

/-- C11: when the resolution of a route whose configuration has no static title delivers, the
`data` of the route is what `inheritedParamsDataResolve` returns for a heap in which the map just
resolved is already stored as the `_resolvedData` of the route (and which is otherwise the heap
the resolvers were invoked on). -/
theorem runResolve_data (env : Env) (r : RouteId) (rss : RouterStateSnapshot)
    (strat : ParamsInheritanceStrategy) (inj : Injector) (s : State)
    (hok : (runResolve env r rss strat inj s).1.values ≠ [])
    (hstatic : ∀ c, (s.routes r).routeConfig = some c → hasStaticTitle c = false) :
    ∃ d, (resolveNode env (declared (s.routes r)) r rss inj (declare s r)).1 =
        ⟨[d], .complete⟩ ∧
      ((runResolve env r rss strat inj s).2.routes r)._resolvedData = some d ∧
      ((runResolve env r rss strat inj s).2.routes r).data =
        env.inheritedParamsDataResolve
          (fun x => if x = r then { (declare s r).routes r with _resolvedData := some d }
            else (declare s r).routes x) r strat := by
  obtain ⟨d, hnode, hs⟩ := runResolve_written hok
  refine ⟨d, hnode, ?_, ?_⟩
  · rw [hs, attach_routes_self]
  · have htitled : ∀ m, titled (s.routes r).routeConfig m = m := by
      intro m
      unfold titled
      cases hc : (s.routes r).routeConfig with
      | none => rfl
      | some c => simp [hstatic c hc]
    rw [hs, attach_routes_self]
    simp only [htitled]
    unfold State.update
    simp only [resolveNode_routes]

/-- An instance of C11: a route without a title whose two resolvers return plain values. -/
theorem runResolve_data_witness :
    ∃ d, (resolveNode (functionsEnv sampleReturns)
        (declared ((heapOf [snapshotOf .undefined [(.str "a", .ref 1), (.str "b", .ref 2)]]) 0))
        0 0 0
        (declare ⟨heapOf [snapshotOf .undefined [(.str "a", .ref 1), (.str "b", .ref 2)]], []⟩
          0)).1 = ⟨[d], .complete⟩ ∧
      ((runResolve (functionsEnv sampleReturns) 0 0 .always 0
        ⟨heapOf [snapshotOf .undefined [(.str "a", .ref 1), (.str "b", .ref 2)]], []⟩).2.routes
          0)._resolvedData = some d ∧
      ((runResolve (functionsEnv sampleReturns) 0 0 .always 0
        ⟨heapOf [snapshotOf .undefined [(.str "a", .ref 1), (.str "b", .ref 2)]], []⟩).2.routes
          0).data =
        (functionsEnv sampleReturns).inheritedParamsDataResolve
          (fun x => if x = 0 then
              { (declare ⟨heapOf [snapshotOf .undefined [(.str "a", .ref 1), (.str "b", .ref 2)]],
                  []⟩ 0).routes 0 with _resolvedData := some d }
            else (declare ⟨heapOf [snapshotOf .undefined [(.str "a", .ref 1),
              (.str "b", .ref 2)]], []⟩ 0).routes x) 0 .always :=
  runResolve_data (functionsEnv sampleReturns) 0 0 .always 0
    ⟨heapOf [snapshotOf .undefined [(.str "a", .ref 1), (.str "b", .ref 2)]], []⟩
    (by decide)
    (by
      intro c hc
      have h2 : c = ⟨.undefined⟩ := by simpa [heapOf, snapshotOf] using hc.symm
      rw [h2]
      rfl)

/-- C12 (as amended): when the resolution of a check completes without a value, the sequence is
not cut short: the checks after it are resolved, in order, from the state that check left, and
what they deliver follows what the checks before it delivered; the stage then emits nothing. -/
theorem resolveChecks_after_empty (env : Env) (strat : ParamsInheritanceStrategy)
    (inj : Injector) (t : NavigationTransition) (pre : List CanActivate) (ci : CanActivate)
    (post : List CanActivate) (s : State)
    (hchecks : t.guards.canActivateChecks = pre ++ ci :: post)
    (hpre : (resolveChecks env strat inj t.targetSnapshot pre s).1.term = .complete)
    (hci : (runResolve env ci.route t.targetSnapshot strat inj
      (resolveChecks env strat inj t.targetSnapshot pre s).2).1 = ⟨[], .complete⟩) :
    resolveChecks env strat inj t.targetSnapshot (pre ++ ci :: post) s =
      (⟨(resolveChecks env strat inj t.targetSnapshot pre s).1.values ++
          (resolveChecks env strat inj t.targetSnapshot post
            (runResolve env ci.route t.targetSnapshot strat inj
              (resolveChecks env strat inj t.targetSnapshot pre s).2).2).1.values,
        (resolveChecks env strat inj t.targetSnapshot post
          (runResolve env ci.route t.targetSnapshot strat inj
            (resolveChecks env strat inj t.targetSnapshot pre s).2).2).1.term⟩,
        (resolveChecks env strat inj t.targetSnapshot post
          (runResolve env ci.route t.targetSnapshot strat inj
            (resolveChecks env strat inj t.targetSnapshot pre s).2).2).2) ∧
    (resolveData env strat inj t s).2 =
      (resolveChecks env strat inj t.targetSnapshot post
        (runResolve env ci.route t.targetSnapshot strat inj
          (resolveChecks env strat inj t.targetSnapshot pre s).2).2).2 ∧
    (resolveData env strat inj t s).1.values = [] := by
  have heq : resolveChecks env strat inj t.targetSnapshot (pre ++ ci :: post) s =
      (⟨(resolveChecks env strat inj t.targetSnapshot pre s).1.values ++
          (resolveChecks env strat inj t.targetSnapshot post
            (runResolve env ci.route t.targetSnapshot strat inj
              (resolveChecks env strat inj t.targetSnapshot pre s).2).2).1.values,
        (resolveChecks env strat inj t.targetSnapshot post
          (runResolve env ci.route t.targetSnapshot strat inj
            (resolveChecks env strat inj t.targetSnapshot pre s).2).2).1.term⟩,
        (resolveChecks env strat inj t.targetSnapshot post
          (runResolve env ci.route t.targetSnapshot strat inj
            (resolveChecks env strat inj t.targetSnapshot pre s).2).2).2) := by
    rw [resolveChecks_append, if_pos hpre, resolveChecks_cons, hci]
    simp
  have hne : t.guards.canActivateChecks ≠ [] := by
    rw [hchecks]
    simp
  refine ⟨heq, ?_, ?_⟩
  · rw [resolveData_eq]
    have hlen : ¬ t.guards.canActivateChecks.length = 0 := by
      simpa [List.length_eq_zero] using hne
    simp only [hlen, if_false]
    rw [hchecks, heq]
  · have h1 := resolveChecks_length_le env strat inj t.targetSnapshot pre s
    have h2 := resolveChecks_length_le env strat inj t.targetSnapshot post
      (runResolve env ci.route t.targetSnapshot strat inj
        (resolveChecks env strat inj t.targetSnapshot pre s).2).2
    rw [resolveData_fst env strat inj t s hne, hchecks, heq]
    simp only
    cases (resolveChecks env strat inj t.targetSnapshot post
        (runResolve env ci.route t.targetSnapshot strat inj
          (resolveChecks env strat inj t.targetSnapshot pre s).2).2).1.term with
    | complete =>
      simp only [List.length_append, List.length_cons]
      have : ¬ (resolveChecks env strat inj t.targetSnapshot pre s).1.values.length +
          (resolveChecks env strat inj t.targetSnapshot post
            (runResolve env ci.route t.targetSnapshot strat inj
              (resolveChecks env strat inj t.targetSnapshot pre s).2).2).1.values.length =
          pre.length + (post.length + 1) := by omega
      simp [this]
    | error e => rfl
    | never => rfl

/-- An instance of C12: the first of two checks completes without a value. -/
theorem resolveChecks_after_empty_witness :
    resolveChecks (functionsEnv sampleReturns) .always 0 (transitionOf [0, 1]).targetSnapshot
        ([] ++ ⟨0⟩ :: [⟨1⟩]) emptyThenValue =
      (⟨(resolveChecks (functionsEnv sampleReturns) .always 0
            (transitionOf [0, 1]).targetSnapshot [] emptyThenValue).1.values ++
          (resolveChecks (functionsEnv sampleReturns) .always 0
            (transitionOf [0, 1]).targetSnapshot [⟨1⟩]
            (runResolve (functionsEnv sampleReturns) (⟨0⟩ : CanActivate).route
              (transitionOf [0, 1]).targetSnapshot .always 0
              (resolveChecks (functionsEnv sampleReturns) .always 0
                (transitionOf [0, 1]).targetSnapshot [] emptyThenValue).2).2).1.values,
        (resolveChecks (functionsEnv sampleReturns) .always 0
          (transitionOf [0, 1]).targetSnapshot [⟨1⟩]
          (runResolve (functionsEnv sampleReturns) (⟨0⟩ : CanActivate).route
            (transitionOf [0, 1]).targetSnapshot .always 0
            (resolveChecks (functionsEnv sampleReturns) .always 0
              (transitionOf [0, 1]).targetSnapshot [] emptyThenValue).2).2).1.term⟩,
        (resolveChecks (functionsEnv sampleReturns) .always 0
          (transitionOf [0, 1]).targetSnapshot [⟨1⟩]
          (runResolve (functionsEnv sampleReturns) (⟨0⟩ : CanActivate).route
            (transitionOf [0, 1]).targetSnapshot .always 0
            (resolveChecks (functionsEnv sampleReturns) .always 0
              (transitionOf [0, 1]).targetSnapshot [] emptyThenValue).2).2).2) ∧
    (resolveData (functionsEnv sampleReturns) .always 0 (transitionOf [0, 1]) emptyThenValue).2 =
      (resolveChecks (functionsEnv sampleReturns) .always 0
        (transitionOf [0, 1]).targetSnapshot [⟨1⟩]
        (runResolve (functionsEnv sampleReturns) (⟨0⟩ : CanActivate).route
          (transitionOf [0, 1]).targetSnapshot .always 0
          (resolveChecks (functionsEnv sampleReturns) .always 0
            (transitionOf [0, 1]).targetSnapshot [] emptyThenValue).2).2).2 ∧
    (resolveData (functionsEnv sampleReturns) .always 0 (transitionOf [0, 1])
      emptyThenValue).1.values = [] :=
  resolveChecks_after_empty (functionsEnv sampleReturns) .always 0 (transitionOf [0, 1]) []
    ⟨0⟩ [⟨1⟩] emptyThenValue rfl rfl (by decide)

/-- C12 (as stated) fails: the resolution of the first check completes without a value, and the
resolver of the second check is invoked all the same, and the resolved data of its route, which
the route did not have, are written. -/
theorem later_check_resolved_after_empty :
    (runResolve (functionsEnv sampleReturns) 0 0 .always 0 emptyThenValue).1 =
      ⟨[], .complete⟩ ∧
    (emptyThenValue.routes 1)._resolvedData = none ∧
    ((resolveData (functionsEnv sampleReturns) .always 0 (transitionOf [0, 1])
      emptyThenValue).2.routes 1)._resolvedData = some [(.str "b", .num 10)] ∧
    ((resolveData (functionsEnv sampleReturns) .always 0 (transitionOf [0, 1])
      emptyThenValue).2.routes 1).data = [(.str "b", .num 10)] ∧
    Effect.contextCall 0 1 1 0 ∈ (resolveData (functionsEnv sampleReturns) .always 0
      (transitionOf [0, 1]) emptyThenValue).2.log := by
  decide

/-- C13: `getResolver` uses the injector that `getClosestRouteInjector(route)` returns when it is
neither `null` nor `undefined`, and the default injector otherwise, both to resolve the token and
to run the call; it calls the `resolve` member of what the token resolves to when there is one,
and calls it as a function inside `runInContext` of that injector otherwise; and it passes what
is returned through `wrapIntoObservable`: it is, result and calls, `getResolverInWords`. -/
theorem getResolver_eq_inWords (env : Env) (injectionToken : Token) (route : RouteId)
    (routerState : RouterStateSnapshot) (defaultInjector : Injector) (s : State) :
    getResolver env injectionToken route routerState defaultInjector s =
      getResolverInWords env injectionToken route routerState defaultInjector s := by
  unfold getResolver getResolverInWords State.record
  cases hclosest : env.getClosestRouteInjector s.routes route with
  | none =>
    simp only [Option.getD]
    split
    · simp_all
    · split <;> simp_all [Except.map]
    · split <;> simp_all [Except.map]
  | some closest =>
    simp only [Option.getD]
    split
    · simp_all
    · split <;> simp_all [Except.map]
    · split <;> simp_all [Except.map]

end ResolveData

/-! # Lemmas and theorems about the number pipes -/

namespace NumberPipe

open Js

theorem isValue_eq_false_iff (value : JsValue) : isValue value = false ↔ NullLike value := by
  unfold isValue NullLike
  simp only [Bool.not_eq_false', Bool.or_eq_true, decide_eq_true_eq]
  tauto

theorem isValue_eq_true_iff (value : JsValue) : isValue value = true ↔ ¬ NullLike value := by
  rw [← isValue_eq_false_iff]
  cases isValue value <;> simp

theorem tryFormat_of_ok (env : Env) (type : PipeClass) (value : JsValue)
    (format : JsNumber → Except JsError String) (call : JsNumber → Call) (before : List Call)
    (num : JsNumber) (h : strToNumber env.js value = .ok num) :
    tryFormat env type value format call before =
      ⟨wrap type (format num), before ++ [.strToNumber value, call num]⟩ := by
  unfold tryFormat wrap
  rw [h]
  cases hf : format num <;> simp [hf]

theorem tryFormat_cases (env : Env) (type : PipeClass) (value : JsValue)
    (format : JsNumber → Except JsError String) (call : JsNumber → Call) (before : List Call) :
    (∃ num text, strToNumber env.js value = .ok num ∧ format num = .ok text ∧
      (tryFormat env type value format call before).result = .ok (some text)) ∨
    (∃ e, (tryFormat env type value format call before).result = .error e) := by
  cases hnum : strToNumber env.js value with
  | error error =>
    refine Or.inr ⟨.invalidPipeArgumentError type error.message, ?_⟩
    unfold tryFormat
    rw [hnum]
  | ok num =>
    rw [tryFormat_of_ok env type value format call before num hnum]
    cases hf : format num with
    | ok text => exact Or.inl ⟨num, text, rfl, hf, rfl⟩
    | error error => exact Or.inr ⟨_, rfl⟩

theorem currency_transform_cases (env : Env) (self : CurrencyPipe) (value : JsValue)
    (currencyCode : Arg) (display : Display) (digitsInfo locale : Arg)
    (hv : isValue value = true) :
    (∃ num loc currency code text, strToNumber env.js value = .ok num ∧
      env.formatCurrency num loc currency code digitsInfo = .ok text ∧
      (self.transform env value currencyCode display digitsInfo locale).result =
        .ok (some text)) ∨
    (∃ e, (self.transform env value currencyCode display digitsInfo locale).result =
      .error e) := by
  unfold CurrencyPipe.transform
  simp only [hv, Bool.not_true, Bool.false_eq_true, if_false]
  split
  · split
    · split
      · exact Or.inr ⟨_, rfl⟩
      · rcases tryFormat_cases env .CurrencyPipe value _ _ _ with
          ⟨num, text, h1, h2, h3⟩ | ⟨e, h⟩
        · exact Or.inl ⟨num, _, _, _, text, h1, h2, h3⟩
        · exact Or.inr ⟨e, h⟩
    · rcases tryFormat_cases env .CurrencyPipe value _ _ _ with
        ⟨num, text, h1, h2, h3⟩ | ⟨e, h⟩
      · exact Or.inl ⟨num, _, _, _, text, h1, h2, h3⟩
      · exact Or.inr ⟨e, h⟩
  · rcases tryFormat_cases env .CurrencyPipe value _ _ _ with
      ⟨num, text, h1, h2, h3⟩ | ⟨e, h⟩
    · exact Or.inl ⟨num, _, _, _, text, h1, h2, h3⟩
    · exact Or.inr ⟨e, h⟩

/-- C14: each of the three pipes returns `null` exactly for the values `null`, `undefined`, the
empty string and `NaN`, and then makes no call and throws nothing; for any other value it returns
what its formatter returns for the number `strToNumber` gives, or it throws. -/
theorem transform_null_iff (env : Env) (decimal : DecimalPipe) (percent : PercentPipe)
    (currency : CurrencyPipe) (value : JsValue) (digitsInfo locale currencyCode : Arg)
    (display : Display) :
    (NullLike value ∧
      decimal.transform env value digitsInfo locale = ⟨.ok none, []⟩ ∧
      percent.transform env value digitsInfo locale = ⟨.ok none, []⟩ ∧
      currency.transform env value currencyCode display digitsInfo locale = ⟨.ok none, []⟩) ∨
    (¬ NullLike value ∧
      ((∃ num loc text, strToNumber env.js value = .ok num ∧
          env.formatNumber num loc digitsInfo = .ok text ∧
          (decimal.transform env value digitsInfo locale).result = .ok (some text)) ∨
        ∃ e, (decimal.transform env value digitsInfo locale).result = .error e) ∧
      ((∃ num loc text, strToNumber env.js value = .ok num ∧
          env.formatPercent num loc digitsInfo = .ok text ∧
          (percent.transform env value digitsInfo locale).result = .ok (some text)) ∨
        ∃ e, (percent.transform env value digitsInfo locale).result = .error e) ∧
      ((∃ num loc cur code text, strToNumber env.js value = .ok num ∧
          env.formatCurrency num loc cur code digitsInfo = .ok text ∧
          (currency.transform env value currencyCode display digitsInfo locale).result =
            .ok (some text)) ∨
        ∃ e, (currency.transform env value currencyCode display digitsInfo locale).result =
          .error e)) := by
  by_cases hv : isValue value = true
  · right
    refine ⟨(isValue_eq_true_iff value).1 hv, ?_, ?_, currency_transform_cases env currency value
      currencyCode display digitsInfo locale hv⟩
    · unfold DecimalPipe.transform
      simp only [hv, Bool.not_true, Bool.false_eq_true, if_false]
      rcases tryFormat_cases env .DecimalPipe value
        (fun num => env.formatNumber num (locale.orElse decimal._locale) digitsInfo)
        (fun num => .formatNumber num (locale.orElse decimal._locale) digitsInfo) [] with
        ⟨num, text, h1, h2, h3⟩ | ⟨e, h⟩
      · exact Or.inl ⟨num, _, text, h1, h2, h3⟩
      · exact Or.inr ⟨e, h⟩
    · unfold PercentPipe.transform
      simp only [hv, Bool.not_true, Bool.false_eq_true, if_false]
      rcases tryFormat_cases env .PercentPipe value
        (fun num => env.formatPercent num (locale.orElse percent._locale) digitsInfo)
        (fun num => .formatPercent num (locale.orElse percent._locale) digitsInfo) [] with
        ⟨num, text, h1, h2, h3⟩ | ⟨e, h⟩
      · exact Or.inl ⟨num, _, text, h1, h2, h3⟩
      · exact Or.inr ⟨e, h⟩
  · left
    have hv' : isValue value = false := by simpa using hv
    refine ⟨(isValue_eq_false_iff value).1 hv', ?_, ?_, ?_⟩
    · simp [DecimalPipe.transform, hv']
    · simp [PercentPipe.transform, hv']
    · simp [CurrencyPipe.transform, hv']

theorem mem_tryFormat_calls {env : Env} {type : PipeClass} {value : JsValue}
    {format : JsNumber → Except JsError String} {callOf : JsNumber → Call} {before : List Call}
    {call : Call} (h : call ∈ (tryFormat env type value format callOf before).calls) :
    call ∈ before ∨ call = .strToNumber value ∨
      ∃ num, strToNumber env.js value = .ok num ∧ call = callOf num := by
  cases hnum : strToNumber env.js value with
  | error error =>
    unfold tryFormat at h
    rw [hnum] at h
    simp only [List.mem_append, List.mem_singleton] at h
    tauto
  | ok num =>
    rw [tryFormat_of_ok env type value format callOf before num hnum] at h
    simp only [List.mem_append, List.mem_cons, List.mem_singleton, List.not_mem_nil,
      or_false] at h
    rcases h with h | h | h
    · exact Or.inl h
    · exact Or.inr (Or.inl h)
    · exact Or.inr (Or.inr ⟨num, rfl, h⟩)

theorem mem_currency_calls {env : Env} {self : CurrencyPipe} {value : JsValue}
    {currencyCode : Arg} {display : Display} {digitsInfo locale : Arg} {call : Call}
    (h : call ∈ (self.transform env value currencyCode display digitsInfo locale).calls) :
    call = .warn booleanDisplayWarning ∨
    (∃ format, call = .getCurrencySymbol
      ((currencyCode.withDefault self._defaultCurrencyCode).orElse self._defaultCurrencyCode)
      format (locale.orElse self._locale)) ∨
    call = .strToNumber value ∨
    ∃ num currency, strToNumber env.js value = .ok num ∧
      call = .formatCurrency num (locale.orElse self._locale) currency
        (currencyCode.withDefault self._defaultCurrencyCode) digitsInfo := by
  have hwarned : ∀ c : Call, c ∈ (match display with
      | .boolean _ =>
        if (env.devMode && env.consoleWarn) = true then [Call.warn booleanDisplayWarning] else []
      | _ => []) → c = .warn booleanDisplayWarning := by
    intro c hc
    cases display with
    | boolean b =>
      simp only at hc
      split at hc <;> simp at hc
      exact hc
    | undefined => simp at hc
    | string s => simp at hc
  unfold CurrencyPipe.transform at h
  by_cases hv : isValue value = true
  · simp only [hv, Bool.not_true, Bool.false_eq_true, if_false] at h
    split at h
    · split at h
      · split at h
        · simp only [List.mem_append, List.mem_singleton] at h
          rcases h with h | h
          · exact Or.inl (hwarned _ h)
          · exact Or.inr (Or.inl ⟨_, h⟩)
        · rcases mem_tryFormat_calls h with h | h | ⟨num, hn, h⟩
          · simp only [List.mem_append, List.mem_singleton] at h
            rcases h with h | h
            · exact Or.inl (hwarned _ h)
            · exact Or.inr (Or.inl ⟨_, h⟩)
          · exact Or.inr (Or.inr (Or.inl h))
          · exact Or.inr (Or.inr (Or.inr ⟨num, _, hn, h⟩))
      · rcases mem_tryFormat_calls h with h | h | ⟨num, hn, h⟩
        · exact Or.inl (hwarned _ h)
        · exact Or.inr (Or.inr (Or.inl h))
        · exact Or.inr (Or.inr (Or.inr ⟨num, _, hn, h⟩))
    · rcases mem_tryFormat_calls h with h | h | ⟨num, hn, h⟩
      · exact Or.inl (hwarned _ h)
      · exact Or.inr (Or.inr (Or.inl h))
      · exact Or.inr (Or.inr (Or.inr ⟨num, _, hn, h⟩))
  · have hv' : isValue value = false := by simpa using hv
    simp [hv'] at h

theorem orElse_of_used {locale : Arg} {fallback used : String}
    (h : ((locale = .undefined ∨ locale = .null ∨ locale = .string "") ∧ used = fallback) ∨
      (∃ l, l ≠ "" ∧ locale = .string l ∧ used = l)) :
    locale.orElse fallback = used := by
  rcases h with ⟨h | h | h, rfl⟩ | ⟨l, hl, rfl, rfl⟩
  · rw [h]; rfl
  · rw [h]; rfl
  · rw [h]; simp [Arg.orElse]
  · simp [Arg.orElse, hl]

theorem currency_transform_code (env : Env) (self : CurrencyPipe) (value : JsValue)
    (currencyCode digitsInfo locale : Arg) (num : JsNumber) (hv : isValue value = true)
    (hnum : strToNumber env.js value = .ok num) :
    self.transform env value currencyCode (.string "code") digitsInfo locale =
      ⟨wrap .CurrencyPipe (env.formatCurrency num (locale.orElse self._locale)
          ((currencyCode.withDefault self._defaultCurrencyCode).orElse self._defaultCurrencyCode)
          (currencyCode.withDefault self._defaultCurrencyCode) digitsInfo),
        [.strToNumber value, .formatCurrency num (locale.orElse self._locale)
          ((currencyCode.withDefault self._defaultCurrencyCode).orElse self._defaultCurrencyCode)
          (currencyCode.withDefault self._defaultCurrencyCode) digitsInfo]⟩ := by
  unfold CurrencyPipe.transform
  simp only [hv, Bool.not_true, Bool.false_eq_true, if_false, ne_eq, not_true_eq_false]
  rw [tryFormat_of_ok env _ value _ _ _ num hnum]
  rfl

/-- C15: the formatter of each pipe is called with the injected `_locale` when the locale argument
is `undefined`, `null` or the empty string, and with the locale argument when it is a string that
is not empty; in particular `DecimalPipe.transform(v, d, undefined)` is what
`formatNumber(strToNumber(v), _locale, d)` returns. -/
theorem transform_locale (env : Env) (_locale defaultCode : String) (value : JsValue)
    (num : JsNumber) (digitsInfo locale currencyCode : Arg) (display : Display) (used : String)
    (hv : isValue value = true) (hnum : strToNumber env.js value = .ok num)
    (hused : ((locale = .undefined ∨ locale = .null ∨ locale = .string "") ∧ used = _locale) ∨
      (∃ l, l ≠ "" ∧ locale = .string l ∧ used = l)) :
    DecimalPipe.transform env ⟨_locale⟩ value digitsInfo locale =
      ⟨wrap .DecimalPipe (env.formatNumber num used digitsInfo),
        [.strToNumber value, .formatNumber num used digitsInfo]⟩ ∧
    PercentPipe.transform env ⟨_locale⟩ value digitsInfo locale =
      ⟨wrap .PercentPipe (env.formatPercent num used digitsInfo),
        [.strToNumber value, .formatPercent num used digitsInfo]⟩ ∧
    CurrencyPipe.transform env ⟨_locale, defaultCode⟩ value currencyCode (.string "code")
        digitsInfo locale =
      ⟨wrap .CurrencyPipe (env.formatCurrency num used
          ((currencyCode.withDefault defaultCode).orElse defaultCode)
          (currencyCode.withDefault defaultCode) digitsInfo),
        [.strToNumber value, .formatCurrency num used
          ((currencyCode.withDefault defaultCode).orElse defaultCode)
          (currencyCode.withDefault defaultCode) digitsInfo]⟩ ∧
    (∀ call ∈ (CurrencyPipe.transform env ⟨_locale, defaultCode⟩ value currencyCode display
        digitsInfo locale).calls,
      (∀ n l c cc d, call = .formatCurrency n l c cc d → l = used) ∧
      (∀ c f l, call = .getCurrencySymbol c f l → l = used)) := by
  have hloc := orElse_of_used hused
  refine ⟨?_, ?_, ?_, ?_⟩
  · unfold DecimalPipe.transform
    simp only [hv, Bool.not_true, Bool.false_eq_true, if_false]
    rw [tryFormat_of_ok env _ value _ _ _ num hnum, hloc]
    rfl
  · unfold PercentPipe.transform
    simp only [hv, Bool.not_true, Bool.false_eq_true, if_false]
    rw [tryFormat_of_ok env _ value _ _ _ num hnum, hloc]
    rfl
  · rw [currency_transform_code env _ value currencyCode digitsInfo locale num hv hnum]
    simp only [hloc]
  · intro call hcall
    rcases mem_currency_calls hcall with h | ⟨f, h⟩ | h | ⟨n, cur, _, h⟩
    · subst h
      exact ⟨fun _ _ _ _ _ h => (by cases h), fun _ _ _ h => by cases h⟩
    · subst h
      refine ⟨fun _ _ _ _ _ h => (by cases h), fun _ _ _ h => ?_⟩
      simp only [Call.getCurrencySymbol.injEq] at h
      rw [← h.2.2]
      exact hloc
    · subst h
      exact ⟨fun _ _ _ _ _ h => (by cases h), fun _ _ _ h => by cases h⟩
    · subst h
      refine ⟨fun _ _ _ _ _ h => ?_, fun _ _ _ h => by cases h⟩
      simp only [Call.formatCurrency.injEq] at h
      rw [← h.2.1]
      exact hloc

/-- An instance of C15: the locale argument is not supplied and the injected locale is
`en-US`. -/
theorem transform_locale_witness :
    DecimalPipe.transform sampleEnv ⟨"en-US"⟩ (.string "42") .undefined .undefined =
      ⟨wrap .DecimalPipe (sampleEnv.formatNumber (.finite 42 0) "en-US" .undefined),
        [.strToNumber (.string "42"), .formatNumber (.finite 42 0) "en-US" .undefined]⟩ ∧
    PercentPipe.transform sampleEnv ⟨"en-US"⟩ (.string "42") .undefined .undefined =
      ⟨wrap .PercentPipe (sampleEnv.formatPercent (.finite 42 0) "en-US" .undefined),
        [.strToNumber (.string "42"), .formatPercent (.finite 42 0) "en-US" .undefined]⟩ ∧
    CurrencyPipe.transform sampleEnv ⟨"en-US", "USD"⟩ (.string "42") .undefined (.string "code")
        .undefined .undefined =
      ⟨wrap .CurrencyPipe (sampleEnv.formatCurrency (.finite 42 0) "en-US"
          ((Arg.undefined.withDefault "USD").orElse "USD")
          (Arg.undefined.withDefault "USD") .undefined),
        [.strToNumber (.string "42"), .formatCurrency (.finite 42 0) "en-US"
          ((Arg.undefined.withDefault "USD").orElse "USD")
          (Arg.undefined.withDefault "USD") .undefined]⟩ ∧
    (∀ call ∈ (CurrencyPipe.transform sampleEnv ⟨"en-US", "USD"⟩ (.string "42") .undefined
        .undefined .undefined .undefined).calls,
      (∀ n l c cc d, call = .formatCurrency n l c cc d → l = "en-US") ∧
      (∀ c f l, call = .getCurrencySymbol c f l → l = "en-US")) :=
  transform_locale sampleEnv "en-US" "USD" (.string "42") (.finite 42 0) .undefined .undefined
    .undefined .undefined "en-US" (by decide) rfl (Or.inl ⟨Or.inl rfl, rfl⟩)

theorem orElse_of_code {currencyCode : Arg} {fallback c : String}
    (h : (∃ s, s ≠ "" ∧ currencyCode = .string s ∧ c = s) ∨
      ((currencyCode = .undefined ∨ currencyCode = .null ∨ currencyCode = .string "") ∧
        c = fallback)) :
    (currencyCode.withDefault fallback).orElse fallback = c := by
  rcases h with ⟨s, hs, rfl, rfl⟩ | ⟨h | h | h, rfl⟩
  · simp [Arg.withDefault, Arg.orElse, hs]
  · rw [h]; simp [Arg.withDefault, Arg.orElse]
  · rw [h]; rfl
  · rw [h]; simp [Arg.withDefault, Arg.orElse]

/-- C16: for a valid value and a string `display`, the currency indicator passed to
`formatCurrency` is the currency code for `code`, what `getCurrencySymbol` returns for the code
and `wide` for `symbol`, what it returns for the code and `narrow` for `symbol-narrow`, and the
`display` string itself otherwise; the code is `currencyCode` when it is truthy and the default
currency code otherwise. Before that call the pipe has called `getCurrencySymbol` for the code,
at most, and `strToNumber`. -/
theorem currency_indicator (env : Env) (self : CurrencyPipe) (value : JsValue) (num : JsNumber)
    (currencyCode digitsInfo locale : Arg) (display c indicator : String)
    (hv : isValue value = true) (hnum : strToNumber env.js value = .ok num)
    (hc : (∃ s, s ≠ "" ∧ currencyCode = .string s ∧ c = s) ∨
      ((currencyCode = .undefined ∨ currencyCode = .null ∨ currencyCode = .string "") ∧
        c = self._defaultCurrencyCode))
    (hindicator : (display = "code" ∧ indicator = c) ∨
      (display = "symbol" ∧
        env.getCurrencySymbol c .wide (locale.orElse self._locale) = .ok indicator) ∨
      (display = "symbol-narrow" ∧
        env.getCurrencySymbol c .narrow (locale.orElse self._locale) = .ok indicator) ∨
      (display ≠ "code" ∧ display ≠ "symbol" ∧ display ≠ "symbol-narrow" ∧
        indicator = display)) :
    (self.transform env value currencyCode (.string display) digitsInfo locale).result =
      wrap .CurrencyPipe (env.formatCurrency num (locale.orElse self._locale) indicator
        (currencyCode.withDefault self._defaultCurrencyCode) digitsInfo) ∧
    ∃ before,
      (self.transform env value currencyCode (.string display) digitsInfo locale).calls =
        before ++ [.strToNumber value, .formatCurrency num (locale.orElse self._locale) indicator
          (currencyCode.withDefault self._defaultCurrencyCode) digitsInfo] ∧
      ∀ call ∈ before, ∃ format,
        call = .getCurrencySymbol c format (locale.orElse self._locale) := by
  have hcur := orElse_of_code hc
  unfold CurrencyPipe.transform
  simp only [hv, Bool.not_true, Bool.false_eq_true, if_false, hcur]
  rcases hindicator with ⟨rfl, rfl⟩ | ⟨rfl, hwide⟩ | ⟨rfl, hnarrow⟩ | ⟨h1, h2, h3, rfl⟩
  · simp only [ne_eq, not_true_eq_false, if_false]
    rw [tryFormat_of_ok env _ value _ _ _ num hnum]
    exact ⟨rfl, [], rfl, by simp⟩
  · have hne : ("symbol" : String) ≠ "code" := by decide
    simp only [ne_eq, hne, not_false_eq_true, if_true, true_or, hwide]
    rw [tryFormat_of_ok env _ value _ _ _ num hnum]
    exact ⟨rfl, [.getCurrencySymbol c .wide (locale.orElse self._locale)], rfl, by simp⟩
  · have hne : ("symbol-narrow" : String) ≠ "code" := by decide
    have hne2 : ("symbol-narrow" : String) ≠ "symbol" := by decide
    simp only [ne_eq, hne, not_false_eq_true, if_true, or_true, hne2, if_false, hnarrow]
    rw [tryFormat_of_ok env _ value _ _ _ num hnum]
    exact ⟨rfl, [.getCurrencySymbol c .narrow (locale.orElse self._locale)], rfl, by simp⟩
  · simp only [ne_eq, h1, not_false_eq_true, if_true, h2, h3, or_self, if_false]
    rw [tryFormat_of_ok env _ value _ _ _ num hnum]
    exact ⟨rfl, [], rfl, by simp⟩

/-- An instance of C16: for `symbol-narrow` the indicator is the narrow symbol of the code. -/
theorem currency_indicator_witness :
    (CurrencyPipe.transform sampleEnv ⟨"en-US", "USD"⟩ (.string "42") (.string "EUR")
        (.string "symbol-narrow") .undefined .undefined).result =
      wrap .CurrencyPipe (sampleEnv.formatCurrency (.finite 42 0)
        (Arg.undefined.orElse "en-US") "(EUR)" ((Arg.string "EUR").withDefault "USD")
        .undefined) ∧
    ∃ before,
      (CurrencyPipe.transform sampleEnv ⟨"en-US", "USD"⟩ (.string "42") (.string "EUR")
          (.string "symbol-narrow") .undefined .undefined).calls =
        before ++ [.strToNumber (.string "42"), .formatCurrency (.finite 42 0)
          (Arg.undefined.orElse "en-US") "(EUR)" ((Arg.string "EUR").withDefault "USD")
          .undefined] ∧
      ∀ call ∈ before, ∃ format,
        call = .getCurrencySymbol "EUR" format (Arg.undefined.orElse "en-US") :=
  currency_indicator sampleEnv ⟨"en-US", "USD"⟩ (.string "42") (.finite 42 0) (.string "EUR")
    .undefined .undefined "symbol-narrow" "EUR" "(EUR)" (by decide) rfl
    (Or.inl ⟨"EUR", by decide, rfl, rfl⟩)
    (Or.inr (Or.inr (Or.inl ⟨rfl, rfl⟩)))

/-- An example of the empty `display`: the indicator is the empty string, and no symbol is looked
up. -/
theorem currency_empty_display :
    (CurrencyPipe.transform sampleEnv ⟨"en-US", "USD"⟩ (.string "42") (.string "EUR")
        (.string "") .undefined .undefined).calls =
      [.strToNumber (.string "42"),
        .formatCurrency (.finite 42 0) "en-US" "" (.string "EUR") .undefined] := by
  decide

theorem boolean_display_as_string (env : Env) (self : CurrencyPipe) (value : JsValue)
    (currencyCode digitsInfo locale : Arg) (b : Bool) :
    (self.transform env value currencyCode (.boolean b) digitsInfo locale).result =
      (self.transform env value currencyCode (.string (if b then "symbol" else "code"))
        digitsInfo locale).result ∧
    (self.transform env value currencyCode (.boolean b) digitsInfo locale).calls =
      (if isValue value ∧ env.devMode ∧ env.consoleWarn then [Call.warn booleanDisplayWarning]
        else []) ++
      (self.transform env value currencyCode (.string (if b then "symbol" else "code"))
        digitsInfo locale).calls := by
  unfold CurrencyPipe.transform
  by_cases hv : isValue value = true
  · simp only [hv, Bool.not_true, Bool.false_eq_true, if_false, true_and, Bool.and_eq_true]
    have hne : ("symbol" : String) ≠ "code" := by decide
    by_cases hw : env.devMode = true ∧ env.consoleWarn = true
    · cases b
      · simp only [hw, and_self, if_true, Bool.false_eq_true, if_false, ne_eq,
          not_true_eq_false]
        unfold tryFormat
        split
        · exact ⟨rfl, by simp⟩
        · split <;> exact ⟨rfl, by simp⟩
      · simp only [hw, and_self, if_true, ne_eq, hne, not_false_eq_true, true_or]
        split
        · exact ⟨rfl, by simp⟩
        · unfold tryFormat
          split
          · exact ⟨rfl, by simp⟩
          · split <;> exact ⟨rfl, by simp⟩
    · cases b
      · simp [hw]
      · simp [hw]
  · have hv' : isValue value = false := by simpa using hv
    simp [hv']

/-- C17: a boolean `display` gives the result of its string form, `symbol` for `true` and `code`
for `false`, and the same calls, after the warning on the console when the value is valid,
development mode is on and the console can warn. -/
theorem boolean_display (env : Env) (self : CurrencyPipe) (value : JsValue)
    (currencyCode digitsInfo locale : Arg) :
    (self.transform env value currencyCode (.boolean true) digitsInfo locale).result =
      (self.transform env value currencyCode (.string "symbol") digitsInfo locale).result ∧
    (self.transform env value currencyCode (.boolean false) digitsInfo locale).result =
      (self.transform env value currencyCode (.string "code") digitsInfo locale).result ∧
    (self.transform env value currencyCode (.boolean true) digitsInfo locale).calls =
      (if isValue value ∧ env.devMode ∧ env.consoleWarn then [Call.warn booleanDisplayWarning]
        else []) ++
      (self.transform env value currencyCode (.string "symbol") digitsInfo locale).calls ∧
    (self.transform env value currencyCode (.boolean false) digitsInfo locale).calls =
      (if isValue value ∧ env.devMode ∧ env.consoleWarn then [Call.warn booleanDisplayWarning]
        else []) ++
      (self.transform env value currencyCode (.string "code") digitsInfo locale).calls := by
  have ht := boolean_display_as_string env self value currencyCode digitsInfo locale true
  have hf := boolean_display_as_string env self value currencyCode digitsInfo locale false
  simp only [if_true, Bool.false_eq_true, if_false] at ht hf
  exact ⟨ht.1, hf.1, ht.2, hf.2⟩

theorem transform_undefined_code (env : Env) (self : CurrencyPipe) (value : JsValue)
    (display : Display) (digitsInfo locale : Arg) :
    self.transform env value .undefined display digitsInfo locale =
      self.transform env value (.string self._defaultCurrencyCode) display digitsInfo locale := by
  unfold CurrencyPipe.transform
  rfl

/-- C18: a `CurrencyPipe` constructed without a default currency code has the default `USD`; and
when `currencyCode` is not supplied, `transform` does what it does for the default currency code
of the instance: that code is the one whose symbol is looked up, the one passed as indicator for
`code`, and the currency code passed to `formatCurrency`. -/
theorem default_currency_code (env : Env) (self : CurrencyPipe) (_locale : String)
    (value : JsValue) (display : Display) (digitsInfo locale : Arg) :
    (CurrencyPipe.new _locale none)._defaultCurrencyCode = "USD" ∧
    self.transform env value .undefined display digitsInfo locale =
      self.transform env value (.string self._defaultCurrencyCode) display digitsInfo locale ∧
    (∀ call ∈ (self.transform env value .undefined display digitsInfo locale).calls,
      (∀ n l cur cc d, call = .formatCurrency n l cur cc d →
        cc = .string self._defaultCurrencyCode) ∧
      (∀ c f l, call = .getCurrencySymbol c f l → c = self._defaultCurrencyCode)) ∧
    (∀ call ∈ (self.transform env value .undefined (.string "code") digitsInfo locale).calls,
      ∀ n l cur cc d, call = .formatCurrency n l cur cc d →
        cur = self._defaultCurrencyCode) := by
  have hcur : (Arg.undefined.withDefault self._defaultCurrencyCode).orElse
      self._defaultCurrencyCode = self._defaultCurrencyCode := by
    simp [Arg.withDefault, Arg.orElse]
  refine ⟨rfl, transform_undefined_code env self value display digitsInfo locale, ?_, ?_⟩
  · intro call hcall
    rcases mem_currency_calls hcall with h | ⟨f, h⟩ | h | ⟨n, cur, _, h⟩
    · subst h
      exact ⟨fun _ _ _ _ _ h => (by cases h), fun _ _ _ h => by cases h⟩
    · subst h
      refine ⟨fun _ _ _ _ _ h => (by cases h), fun _ _ _ h => ?_⟩
      simp only [Call.getCurrencySymbol.injEq] at h
      rw [← h.1]
      exact hcur
    · subst h
      exact ⟨fun _ _ _ _ _ h => (by cases h), fun _ _ _ h => by cases h⟩
    · subst h
      refine ⟨fun _ _ _ _ _ h => ?_, fun _ _ _ h => by cases h⟩
      simp only [Call.formatCurrency.injEq] at h
      rw [← h.2.2.2.1]
      rfl
  · intro call hcall n l cur cc d hcalleq
    by_cases hv : isValue value = true
    · unfold CurrencyPipe.transform at hcall
      simp only [hv, Bool.not_true, Bool.false_eq_true, if_false, ne_eq, not_true_eq_false,
        hcur] at hcall
      rcases mem_tryFormat_calls hcall with h | h | ⟨num, _, h⟩
      · simp at h
      · rw [h] at hcalleq
        cases hcalleq
      · rw [h] at hcalleq
        simp only [Call.formatCurrency.injEq] at hcalleq
        exact hcalleq.2.2.1.symm
    · have hv' : isValue value = false := by simpa using hv
      simp [CurrencyPipe.transform, hv'] at hcall

/-- C19: `strToNumber` returns a number as it is, also `NaN` and the infinities; it returns
`Number(s)` for a string `s` when `Number(s) - parseFloat(s)` is not `NaN`; for any other value,
a string that fails that test or a value that is neither a string nor a number, it throws an
error whose message is the text of the value followed by ` is not a number`. -/
theorem strToNumber_cases (js : Builtins) (value : JsValue) :
    (∃ n, value = .number n ∧ strToNumber js value = .ok n) ∨
    (∃ s, value = .string s ∧ isNaN ((js.Number s).sub (js.parseFloat s)) = false ∧
      strToNumber js value = .ok (js.Number s)) ∨
    ((∀ n, value ≠ .number n) ∧
      (∀ s, value = .string s → isNaN ((js.Number s).sub (js.parseFloat s)) = true) ∧
      strToNumber js value = .error ⟨value.text js ++ " is not a number"⟩) := by
  cases value with
  | number n => exact Or.inl ⟨n, rfl, rfl⟩
  | string s =>
    by_cases h : isNaN ((js.Number s).sub (js.parseFloat s)) = true
    · right; right
      refine ⟨fun n hn => (by cases hn), fun s' hs' => ?_, ?_⟩
      · cases hs'
        exact h
      · simp [strToNumber, h]
    · have h' : isNaN ((js.Number s).sub (js.parseFloat s)) = false := by simpa using h
      right; left
      exact ⟨s, rfl, h', by simp [strToNumber, h']⟩
  | undefined =>
    exact Or.inr (Or.inr ⟨fun n hn => (by cases hn), fun s hs => (by cases hs), rfl⟩)
  | null =>
    exact Or.inr (Or.inr ⟨fun n hn => (by cases hn), fun s hs => (by cases hs), rfl⟩)
  | boolean b =>
    exact Or.inr (Or.inr ⟨fun n hn => (by cases hn), fun s hs => (by cases hs), rfl⟩)
  | object text =>
    exact Or.inr (Or.inr ⟨fun n hn => (by cases hn), fun s hs => (by cases hs), rfl⟩)

/-- An example of `strToNumber`: the infinity is returned as it is, `42` is converted, and `abc`
and `true` are refused with their text in the message. -/
theorem strToNumber_examples :
    strToNumber sampleEnv.js (.number (.infinity false)) = .ok (.infinity false) ∧
    strToNumber sampleEnv.js (.string "42") = .ok (.finite 42 0) ∧
    strToNumber sampleEnv.js (.string "abc") = .error ⟨"abc is not a number"⟩ ∧
    strToNumber sampleEnv.js (.boolean true) = .error ⟨"true is not a number"⟩ :=
  ⟨rfl, rfl, rfl, rfl⟩

/-! ## Errors of the conversion, of the formatter and of the symbol lookup -/

/-- When `strToNumber` throws, the pipe throws its own error with the message of that one, and
the formatter is not called. -/
theorem tryFormat_of_error (env : Env) (type : PipeClass) (value : JsValue)
    (format : JsNumber → Except JsError String) (call : JsNumber → Call) (before : List Call)
    (error : JsError) (h : strToNumber env.js value = .error error) :
    tryFormat env type value format call before =
      ⟨.error (.invalidPipeArgumentError type error.message),
        before ++ [.strToNumber value]⟩ := by
  unfold tryFormat
  rw [h]

/-- What `CurrencyPipe.transform` does for a valid value: either `getCurrencySymbol` throws, and
the error reaches the caller, or the pipe goes on to `strToNumber` and `formatCurrency` with an
indicator, after calls that are warnings or successful symbol lookups. -/
theorem currency_transform_eq (env : Env) (self : CurrencyPipe) (value : JsValue)
    (currencyCode : Arg) (display : Display) (digitsInfo locale : Arg)
    (hv : isValue value = true) :
    (∃ c f e before, env.getCurrencySymbol c f (locale.orElse self._locale) = .error e ∧
      self.transform env value currencyCode display digitsInfo locale =
        ⟨.error (.raised e), before ++ [.getCurrencySymbol c f (locale.orElse self._locale)]⟩ ∧
      ∀ call ∈ before, call = .warn booleanDisplayWarning) ∨
    (∃ indicator before,
      self.transform env value currencyCode display digitsInfo locale =
        tryFormat env .CurrencyPipe value
          (fun num => env.formatCurrency num (locale.orElse self._locale) indicator
            (currencyCode.withDefault self._defaultCurrencyCode) digitsInfo)
          (fun num => .formatCurrency num (locale.orElse self._locale) indicator
            (currencyCode.withDefault self._defaultCurrencyCode) digitsInfo) before ∧
      ∀ call ∈ before, call = .warn booleanDisplayWarning ∨
        ∃ c f, call = .getCurrencySymbol c f (locale.orElse self._locale) ∧
          env.getCurrencySymbol c f (locale.orElse self._locale) = .ok indicator) := by
  have hwarned : ∀ c : Call, c ∈ (match display with
      | .boolean _ =>
        if (env.devMode && env.consoleWarn) = true then [Call.warn booleanDisplayWarning] else []
      | _ => []) → c = .warn booleanDisplayWarning := by
    intro c hc
    cases display with
    | boolean b =>
      simp only at hc
      split at hc <;> simp at hc
      exact hc
    | undefined => simp at hc
    | string s => simp at hc
  unfold CurrencyPipe.transform
  simp only [hv, Bool.not_true, Bool.false_eq_true, if_false]
  split
  · split
    · split
      · next e he =>
        exact Or.inl ⟨_, _, e, _, he, rfl, hwarned⟩
      · next symbol hs =>
        refine Or.inr ⟨symbol, _, rfl, ?_⟩
        intro call hcall
        simp only [List.mem_append, List.mem_singleton] at hcall
        rcases hcall with h | h
        · exact Or.inl (hwarned _ h)
        · exact Or.inr ⟨_, _, h, hs⟩
    · exact Or.inr ⟨_, _, rfl, fun call hcall => Or.inl (hwarned _ hcall)⟩
  · exact Or.inr ⟨_, _, rfl, fun call hcall => Or.inl (hwarned _ hcall)⟩

/-- A string that `Number` converts to `NaN` is refused by `strToNumber`, with the string in the
message. -/
theorem strToNumber_of_nan (js : Builtins) (s : String) (h : js.Number s = .nan) :
    strToNumber js (.string s) = .error ⟨s ++ " is not a number"⟩ := by
  simp [strToNumber, h, JsNumber.sub, isNaN, JsValue.text]

/-- C21: for a value that is not null-like, an error of `strToNumber` or of the formatter never
reaches the caller as it is. If `strToNumber` throws, `DecimalPipe` and `PercentPipe` throw
`invalidPipeArgumentError` of their own class with the message of that error, and so does
`CurrencyPipe` whenever it gets to call `strToNumber`. If `strToNumber` returns a number and the
formatter throws on the arguments the pipe calls it with, the pipe throws
`invalidPipeArgumentError` of its own class with the message of that error. An error of
`getCurrencySymbol` in `CurrencyPipe` reaches the caller unwrapped, before `strToNumber` is
called. In particular, for a string that `Number` converts to `NaN`, such as `abc`, each
`transform` throws and does not return `null`. -/
theorem transform_errors (env : Env) (decimal : DecimalPipe) (percent : PercentPipe)
    (currency : CurrencyPipe) (value : JsValue) (currencyCode : Arg) (display : Display)
    (digitsInfo locale : Arg) (hv : isValue value = true) :
    (∀ error, strToNumber env.js value = .error error →
      (decimal.transform env value digitsInfo locale).result =
        .error (.invalidPipeArgumentError .DecimalPipe error.message) ∧
      (percent.transform env value digitsInfo locale).result =
        .error (.invalidPipeArgumentError .PercentPipe error.message) ∧
      (Call.strToNumber value ∈
          (currency.transform env value currencyCode display digitsInfo locale).calls →
        (currency.transform env value currencyCode display digitsInfo locale).result =
          .error (.invalidPipeArgumentError .CurrencyPipe error.message))) ∧
    (∀ num error, strToNumber env.js value = .ok num →
      (env.formatNumber num (locale.orElse decimal._locale) digitsInfo = .error error →
        (decimal.transform env value digitsInfo locale).result =
          .error (.invalidPipeArgumentError .DecimalPipe error.message)) ∧
      (env.formatPercent num (locale.orElse percent._locale) digitsInfo = .error error →
        (percent.transform env value digitsInfo locale).result =
          .error (.invalidPipeArgumentError .PercentPipe error.message)) ∧
      (∀ l indicator code digits,
        Call.formatCurrency num l indicator code digits ∈
          (currency.transform env value currencyCode display digitsInfo locale).calls →
        env.formatCurrency num l indicator code digits = .error error →
        (currency.transform env value currencyCode display digitsInfo locale).result =
          .error (.invalidPipeArgumentError .CurrencyPipe error.message))) ∧
    (∀ code format l error,
      Call.getCurrencySymbol code format l ∈
        (currency.transform env value currencyCode display digitsInfo locale).calls →
      env.getCurrencySymbol code format l = .error error →
      (currency.transform env value currencyCode display digitsInfo locale).result =
        .error (.raised error) ∧
      Call.strToNumber value ∉
        (currency.transform env value currencyCode display digitsInfo locale).calls) ∧
    (∀ s, value = .string s → env.js.Number s = .nan →
      (decimal.transform env value digitsInfo locale).result =
        .error (.invalidPipeArgumentError .DecimalPipe (s ++ " is not a number")) ∧
      (percent.transform env value digitsInfo locale).result =
        .error (.invalidPipeArgumentError .PercentPipe (s ++ " is not a number")) ∧
      ∃ thrown, (currency.transform env value currencyCode display digitsInfo locale).result =
        .error thrown) := by
  have hd : decimal.transform env value digitsInfo locale =
      tryFormat env .DecimalPipe value
        (fun num => env.formatNumber num (locale.orElse decimal._locale) digitsInfo)
        (fun num => .formatNumber num (locale.orElse decimal._locale) digitsInfo) [] := by
    simp [DecimalPipe.transform, hv]
  have hp : percent.transform env value digitsInfo locale =
      tryFormat env .PercentPipe value
        (fun num => env.formatPercent num (locale.orElse percent._locale) digitsInfo)
        (fun num => .formatPercent num (locale.orElse percent._locale) digitsInfo) [] := by
    simp [PercentPipe.transform, hv]
  have hc := currency_transform_eq env currency value currencyCode display digitsInfo locale hv
  have hserr : ∀ error, strToNumber env.js value = .error error →
      Call.strToNumber value ∈
          (currency.transform env value currencyCode display digitsInfo locale).calls →
        (currency.transform env value currencyCode display digitsInfo locale).result =
          .error (.invalidPipeArgumentError .CurrencyPipe error.message) := by
    intro error herr hmem
    rcases hc with ⟨c, f, e, before, -, heq, hbefore⟩ | ⟨indicator, before, heq, -⟩
    · rw [heq] at hmem
      simp only [List.mem_append, List.mem_singleton] at hmem
      rcases hmem with h | h
      · cases hbefore _ h
      · cases h
    · rw [heq, tryFormat_of_error env _ value _ _ before error herr]
  refine ⟨?_, ?_, ?_, ?_⟩
  · intro error herr
    refine ⟨?_, ?_, hserr error herr⟩
    · rw [hd, tryFormat_of_error env _ value _ _ [] error herr]
    · rw [hp, tryFormat_of_error env _ value _ _ [] error herr]
  · intro num error hnum
    refine ⟨?_, ?_, ?_⟩
    · intro hf
      rw [hd, tryFormat_of_ok env _ value _ _ [] num hnum]
      simp only [hf, wrap]
    · intro hf
      rw [hp, tryFormat_of_ok env _ value _ _ [] num hnum]
      simp only [hf, wrap]
    · intro l indicator code digits hmem hf
      rcases hc with ⟨c, f, e, before, -, heq, hbefore⟩ | ⟨ind, before, heq, hbefore⟩
      · rw [heq] at hmem
        simp only [List.mem_append, List.mem_singleton] at hmem
        rcases hmem with h | h
        · cases hbefore _ h
        · cases h
      · rw [heq] at hmem ⊢
        rw [tryFormat_of_ok env _ value _ _ before num hnum] at hmem ⊢
        simp only [List.mem_append, List.mem_cons, List.mem_singleton, List.not_mem_nil,
          or_false] at hmem
        rcases hmem with h | h | h
        · rcases hbefore _ h with h' | ⟨c, f, h', -⟩ <;> cases h'
        · cases h
        · cases h
          simp only [hf, wrap]
  · intro code format l error hmem hf
    rcases hc with ⟨c, f, e, before, he, heq, hbefore⟩ | ⟨ind, before, heq, hbefore⟩
    · rw [heq] at hmem ⊢
      simp only [List.mem_append, List.mem_singleton] at hmem
      rcases hmem with h | h
      · cases hbefore _ h
      · cases h
        rw [he] at hf
        cases hf
        refine ⟨rfl, ?_⟩
        intro hmem
        simp only [List.mem_append, List.mem_singleton] at hmem
        rcases hmem with h | h
        · cases hbefore _ h
        · cases h
    · exfalso
      rw [heq] at hmem
      rcases mem_tryFormat_calls hmem with h | h | ⟨num, -, h⟩
      · rcases hbefore _ h with h' | ⟨c, f, h', hok⟩
        · cases h'
        · cases h'
          rw [hok] at hf
          cases hf
      · cases h
      · cases h
  · intro s hs hnan
    subst hs
    have herr := strToNumber_of_nan env.js s hnan
    refine ⟨?_, ?_, ?_⟩
    · rw [hd, tryFormat_of_error env _ _ _ _ [] _ herr]
    · rw [hp, tryFormat_of_error env _ _ _ _ [] _ herr]
    · rcases hc with ⟨c, f, e, before, -, heq, -⟩ | ⟨ind, before, heq, -⟩
      · exact ⟨_, by rw [heq]⟩
      · exact ⟨_, by rw [heq, tryFormat_of_error env _ _ _ _ before _ herr]⟩

/-- An instance of C21: for the string `abc`, `DecimalPipe` and `PercentPipe` throw
`invalidPipeArgumentError` of their class with the message `abc is not a number`. -/
theorem transform_errors_witness :
    isValue (.string "abc") = true ∧
    ((DecimalPipe.mk "en-US").transform failingEnv (.string "abc") .undefined .undefined).result =
      .error (.invalidPipeArgumentError .DecimalPipe "abc is not a number") ∧
    ((PercentPipe.mk "en-US").transform failingEnv (.string "abc") .undefined .undefined).result =
      .error (.invalidPipeArgumentError .PercentPipe "abc is not a number") :=
  ⟨by decide,
    ((transform_errors failingEnv ⟨"en-US"⟩ ⟨"en-US"⟩ ⟨"en-US", "USD"⟩ (.string "abc") .undefined
      .undefined .undefined .undefined (by decide)).1 ⟨"abc is not a number"⟩ rfl).1,
    ((transform_errors failingEnv ⟨"en-US"⟩ ⟨"en-US"⟩ ⟨"en-US", "USD"⟩ (.string "abc") .undefined
      .undefined .undefined .undefined (by decide)).1 ⟨"abc is not a number"⟩ rfl).2.1⟩

/-- Examples of the failures of the pipes: a formatter that throws on `42` gives
`invalidPipeArgumentError` of the class of the pipe with the message of the formatter, `abc` gives
it with the message of `strToNumber`, and a lookup of a narrow symbol that throws gives the error
of the lookup itself, with no call of `strToNumber`. -/
theorem failing_pipes_examples :
    ((DecimalPipe.mk "en-US").transform failingEnv (.string "42") .undefined .undefined).result =
      .error (.invalidPipeArgumentError .DecimalPipe "bad digits") ∧
    ((PercentPipe.mk "en-US").transform failingEnv (.string "42") .undefined .undefined).result =
      .error (.invalidPipeArgumentError .PercentPipe "bad percent digits") ∧
    ((CurrencyPipe.mk "en-US" "USD").transform failingEnv (.string "42") .undefined .undefined
        .undefined .undefined).result =
      .error (.invalidPipeArgumentError .CurrencyPipe "bad currency digits") ∧
    ((CurrencyPipe.mk "en-US" "USD").transform failingEnv (.string "abc") .undefined .undefined
        .undefined .undefined).result =
      .error (.invalidPipeArgumentError .CurrencyPipe "abc is not a number") ∧
    (CurrencyPipe.mk "en-US" "USD").transform failingEnv (.string "42") .undefined
        (.string "symbol-narrow") .undefined .undefined =
      ⟨.error (.raised ⟨"no narrow symbol"⟩), [.getCurrencySymbol "USD" .narrow "en-US"]⟩ :=
  ⟨rfl, rfl, rfl, rfl, rfl⟩

end NumberPipe

/-! # Theorems about the development-mode assertion -/

namespace Asserts

open Js

/-- C20: `assertDevMode(checkName)` returns normally when `ngDevMode` is truthy, and throws when
it is falsy; what it throws is a `RuntimeError` with the code 2958, whose message contains
`checkName`. -/
theorem assertDevMode_throws_iff (ngDevMode : JsValue) (checkName : String) :
    (ngDevMode.truthy = true ∧ assertDevMode ngDevMode checkName = .ok ()) ∨
    (ngDevMode.truthy = false ∧
      ∃ error, assertDevMode ngDevMode checkName = .error error ∧ error.code = 2958 ∧
        checkName.data <:+: error.message.data) := by
  unfold assertDevMode
  cases h : ngDevMode.truthy with
  | true => exact Or.inl ⟨rfl, rfl⟩
  | false =>
    refine Or.inr ⟨rfl, _, rfl, rfl, ?_⟩
    simp only [String.data_append]
    exact ⟨"Unexpected invocation of the ".data,
      " in the prod mode. ".data ++
        "Please make sure that the prod mode is enabled for production builds.".data,
      by simp⟩

/-- An example of `assertDevMode`: in production mode, where `ngDevMode` is `false`, the check
`NgOptimizedImage` throws. -/
theorem assertDevMode_in_prod_mode :
    assertDevMode (.boolean false) "NgOptimizedImage" =
      .error ⟨2958, "Unexpected invocation of the NgOptimizedImage in the prod mode. Please make sure that the prod mode is enabled for production builds."⟩ := by
  rfl

end Asserts
